import Mathlib

/-!
# Folge Terraform provider: the typed check codec

A shallow embedding of `internal/check_json_property/model.go` and
`internal/check_http_status/model.go`, of the resource methods of the two
checks and of the datasource (`resource.go`), of the client configuration in
`internal/provider.go` and of `internal/utils.go`, together with the parts of
the Go standard library (`encoding/json` on scalars, `http.Header`) and of the
Terraform plugin framework (`types.String`, `types.Int64`, `types.Bool`,
diagnostics) that they call.

Conventions of the embedding.
* Go strings are Lean strings: Terraform strings are sequences of Unicode
  characters, so a string is a list of Unicode scalar values.
* Go `int64` and `int` are `Int`; `int` is taken to be 64 bits wide, so the
  conversions `int64(x)` and `int(x)` between them are the identity. The
  range of `int64` is the predicate `inInt64`.
* A Go function that can panic returns `Option` (createRequest, the resource
  methods) or the `Outcome.panic` result (fromRemote); a method that mutates
  its receiver returns the receiver after the call.
-/

namespace Folge

/-! ## Terraform plugin framework values -/

/-- A framework attribute value (`types.String`, `types.Int64`, `types.Bool`):
null, unknown, or a known Go value. -/
inductive TfValue (α : Type) where
  | null : TfValue α
  | unknown : TfValue α
  | known (v : α) : TfValue α
deriving DecidableEq, Repr

/-- The Go method `ValueString`: the known string, or the empty string for a
null or unknown value. -/
def ValueString : TfValue String → String
  | .known v => v
  | _ => ""

/-- The Go method `ValueBool`: the known boolean, or false for a null or
unknown value. -/
def ValueBool : TfValue Bool → Bool
  | .known v => v
  | _ => false

/-- The Go method `ValueInt64`: the known integer, or 0 for a null or unknown
value. -/
def ValueInt64 : TfValue Int → Int
  | .known v => v
  | _ => 0

/-- The Go method `ValueBoolPointer`: nil for null, a pointer to the stored
value otherwise (which is false for an unknown value). -/
def ValueBoolPointer : TfValue Bool → Option Bool
  | .null => none
  | .unknown => some false
  | .known v => some v

/-- The constructor `types.StringValue`. -/
def StringValue (v : String) : TfValue String := .known v

/-- The constructor `types.BoolValue`. -/
def BoolValue (v : Bool) : TfValue Bool := .known v

/-- The constructor `types.Int64Value`. -/
def Int64Value (v : Int) : TfValue Int := .known v

/-- The constructor `types.BoolPointerValue`: null for a nil pointer. -/
def BoolPointerValue : Option Bool → TfValue Bool
  | none => .null
  | some v => .known v

/-- Whether a framework value is known: neither null (`IsNull`) nor unknown
(`IsUnknown`). -/
def TfValue.isKnown {α : Type} : TfValue α → Bool
  | .known _ => true
  | _ => false

/-- The range of a Go `int64`. -/
def inInt64 (i : Int) : Prop := -9223372036854775808 ≤ i ∧ i ≤ 9223372036854775807

instance (i : Int) : Decidable (inInt64 i) := by
  unfold inInt64; exact inferInstance

instance {ε α : Type} [DecidableEq ε] [DecidableEq α] : DecidableEq (Except ε α)
  | .ok a, .ok b => if h : a = b then isTrue (by rw [h]) else isFalse (by intro h2; cases h2; exact h rfl)
  | .error a, .error b => if h : a = b then isTrue (by rw [h]) else isFalse (by intro h2; cases h2; exact h rfl)
  | .ok _, .error _ => isFalse (by intro h; cases h)
  | .error _, .ok _ => isFalse (by intro h; cases h)

/-- The function `utils.AsInt` of `internal/utils/types.go`. -/
def AsInt (value : TfValue Int) : Int := ValueInt64 value

/-! ## Go errors -/

/-- The non-nil error of `json.Unmarshal` (a syntax error or an unmarshal type
error), recorded with the input and the Go type it was decoded into. Its
message text is not modelled. -/
structure JsonError where
  data : String
  goType : String
deriving DecidableEq, Repr

/-- A Go `error` value as the codec builds it. -/
inductive GoError where
  /-- The error `errors.New(text)`. -/
  | errorsNew (text : String)
  /-- The error `fmt.Errorf(format, err)` with a `json.Unmarshal` error as argument. -/
  | errorfJson (format : String) (err : JsonError)
  /-- The error `fmt.Errorf(format, s)` with a string as argument. -/
  | errorfStr (format : String) (arg : String)
deriving DecidableEq, Repr

/-- The text that `fmt` substitutes for the single trailing `%s` verb of the
formats used here: everything before the verb, then the argument. -/
def sprintfS (format : String) (arg : String) : String :=
  String.mk (format.data.take (format.length - 2)) ++ arg

/-- The method `Error()`: the message of an error. The text of an
`encoding/json` error is supplied by `jsonText`. -/
def GoError.Error (jsonText : JsonError → String) : GoError → String
  | .errorsNew text => text
  | .errorfJson format err => sprintfS format (jsonText err)
  | .errorfStr format arg => sprintfS format arg

/-! ## `encoding/json` on scalars -/

/-- The double quote character. -/
def dquote : Char := Char.ofNat 34

/-- The backslash character. -/
def bslash : Char := Char.ofNat 92

/-- The lower-case hexadecimal digit of a number below 16 (`hex[b]` in
`encoding/json`). -/
def hexDigit (n : Nat) : Char :=
  if n < 10 then Char.ofNat (48 + n) else Char.ofNat (87 + n)

/-- The value of a hexadecimal digit, upper or lower case. -/
def hexVal (c : Char) : Option Nat :=
  let n := c.toNat
  if 48 ≤ n ∧ n ≤ 57 then some (n - 48)
  else if 97 ≤ n ∧ n ≤ 102 then some (n - 87)
  else if 65 ≤ n ∧ n ≤ 70 then some (n - 55)
  else none

/-- The function `getu4` on the four characters after a backslash and `u`. -/
def hex4 (a b c d : Char) : Option Nat :=
  match hexVal a, hexVal b, hexVal c, hexVal d with
  | some x, some y, some z, some w => some (((x * 16 + y) * 16 + z) * 16 + w)
  | _, _, _, _ => none

/-- What `json.Marshal` writes for one character of a string (HTML escaping
on, as `json.Marshal` has it; short escapes for backspace and form feed as
from Go 1.22). -/
def escapeChar (c : Char) : List Char :=
  let n := c.toNat
  if n = 34 ∨ n = 92 then [bslash, c]
  else if n = 8 then [bslash, Char.ofNat 98]
  else if n = 12 then [bslash, Char.ofNat 102]
  else if n = 10 then [bslash, Char.ofNat 110]
  else if n = 13 then [bslash, Char.ofNat 114]
  else if n = 9 then [bslash, Char.ofNat 116]
  else if n < 32 ∨ n = 60 ∨ n = 62 ∨ n = 38 then
    [bslash, Char.ofNat 117, Char.ofNat 48, Char.ofNat 48, hexDigit (n / 16), hexDigit (n % 16)]
  else if n = 8232 ∨ n = 8233 then
    [bslash, Char.ofNat 117, Char.ofNat 50, Char.ofNat 48, Char.ofNat 50, hexDigit (n % 16)]
  else [c]

/-- The characters between the quotes of a marshalled string. -/
def escapeChars : List Char → List Char
  | [] => []
  | c :: cs => escapeChar c ++ escapeChars cs

/-- The character of a simple escape (the character after the backslash). -/
def simpleEscape (e : Char) : Option Char :=
  let n := e.toNat
  if n = 34 ∨ n = 92 ∨ n = 47 then some e
  else if n = 98 then some (Char.ofNat 8)
  else if n = 102 then some (Char.ofNat 12)
  else if n = 110 then some (Char.ofNat 10)
  else if n = 114 then some (Char.ofNat 13)
  else if n = 116 then some (Char.ofNat 9)
  else none

/-- Whether a UTF-16 code unit is a surrogate (`utf16.IsSurrogate`). -/
def isSurrogate (r : Nat) : Bool := 55296 ≤ r && r < 57344

/-- The function `utf16.DecodeRune`: the code point of a surrogate pair, or
none (the replacement character in Go) when the two units are not a high
surrogate followed by a low one. -/
def decodeSurrogates (r1 r2 : Nat) : Option Nat :=
  if 55296 ≤ r1 ∧ r1 < 56320 ∧ 56320 ≤ r2 ∧ r2 < 57344 then
    some ((r1 - 55296) * 1024 + (r2 - 56320) + 65536)
  else none

/-- The Unicode replacement character U+FFFD. -/
def replacementChar : Char := Char.ofNat 65533

/-- The code unit of a `\uXXXX` escape at the head of the text, if there is
one (`getu4`). -/
def peekU4 : List Char → Option Nat
  | b :: u :: h1 :: h2 :: h3 :: h4 :: _ =>
    if b = bslash ∧ u = Char.ofNat 117 then hex4 h1 h2 h3 h4 else none
  | _ => none

/-- Scanning and unquoting of a JSON string literal after its opening quote:
the text must be string characters and escapes closed by a quote that ends
the input. The result is the unquoted string; none is a syntax error
(`stateInString`, `stateInStringEsc` and `unquote` of `encoding/json`). The
fuel bounds the number of characters read. -/
def unquoteBody : Nat → List Char → Option (List Char)
  | 0, _ => none
  | _ + 1, [] => none
  | fuel + 1, c :: rest =>
    if c = dquote then (if rest = [] then some [] else none)
    else if c = bslash then
      match rest with
      | [] => none
      | e :: rest1 =>
        if e = Char.ofNat 117 then
          match rest1 with
          | h1 :: h2 :: h3 :: h4 :: rest2 =>
            match hex4 h1 h2 h3 h4 with
            | none => none
            | some r =>
              if isSurrogate r then
                match (peekU4 rest2).bind (decodeSurrogates r) with
                | some dec => (unquoteBody fuel (rest2.drop 6)).map (Char.ofNat dec :: ·)
                | none => (unquoteBody fuel rest2).map (replacementChar :: ·)
              else (unquoteBody fuel rest2).map (Char.ofNat r :: ·)
          | _ => none
        else
          match simpleEscape e with
          | some ch => (unquoteBody fuel rest1).map (ch :: ·)
          | none => none
    else if c.toNat < 32 then none
    else (unquoteBody fuel rest).map (c :: ·)

/-- JSON white space (`isSpace` of `encoding/json`): space, tab, carriage
return, line feed. -/
def isSpace (c : Char) : Bool :=
  c.toNat = 32 || c.toNat = 9 || c.toNat = 13 || c.toNat = 10

/-- The text of a JSON value without the white space around it. -/
def trimSpace (cs : List Char) : List Char :=
  ((cs.dropWhile isSpace).reverse.dropWhile isSpace).reverse

/-- The decimal digits of a natural number, most significant first, in front
of `acc` (`strconv.AppendInt` on a non-negative number). -/
def natDigitsAux : Nat → Nat → List Char → List Char
  | 0, _, acc => acc
  | fuel + 1, n, acc =>
    if n < 10 then Char.ofNat (48 + n) :: acc
    else natDigitsAux fuel (n / 10) (Char.ofNat (48 + n % 10) :: acc)

/-- The decimal numeral of a natural number. -/
def natDigits (n : Nat) : List Char := natDigitsAux (n + 1) n []

/-- The decimal numeral of an integer, with a minus sign when negative
(`strconv.AppendInt(dst, i, 10)`). -/
def intDigits : Int → List Char
  | .ofNat n => natDigits n
  | .negSucc n => Char.ofNat 45 :: natDigits (n + 1)

/-- The value of a run of decimal digits read after `acc`; none when a
character is not a digit. -/
def readDigits (acc : Nat) : List Char → Option Nat
  | [] => some acc
  | c :: cs =>
    if 48 ≤ c.toNat ∧ c.toNat ≤ 57 then readDigits (acc * 10 + (c.toNat - 48)) cs else none

/-- The integer part of the JSON number grammar without sign: a single zero,
or a non-zero digit followed by digits. -/
def readNatLiteral : List Char → Option Nat
  | [] => none
  | c :: cs => if c.toNat = 48 ∧ cs ≠ [] then none else readDigits 0 (c :: cs)

/-- A JSON number that `strconv.ParseInt` accepts: an optional minus sign and
an integer part, with no fraction and no exponent. -/
def readIntLiteral : List Char → Option Int
  | [] => none
  | c :: cs =>
    if c.toNat = 45 then (readNatLiteral cs).map (fun n => -(Int.ofNat n))
    else (readNatLiteral (c :: cs)).map Int.ofNat

/-- The function `json.Marshal` on a Go `bool`. It cannot fail. -/
def jsonMarshalBool (b : Bool) : Except JsonError String :=
  .ok (if b then "true" else "false")

/-- The function `json.Marshal` on a Go `int64`. It cannot fail. -/
def jsonMarshalInt64 (i : Int) : Except JsonError String :=
  .ok (String.mk (intDigits i))

/-- The function `json.Marshal` on a Go `string`: the quoted, escaped JSON
string. It cannot fail. -/
def jsonMarshalString (s : String) : Except JsonError String :=
  .ok (String.mk (dquote :: (escapeChars s.data ++ [dquote])))

/-- The function `json.Unmarshal` into a fresh `bool` variable: the literals
true and false set it; the literal null leaves it at its zero value and is no
error; every other input (not JSON, or JSON of another type) is an error. -/
def jsonUnmarshalBool (data : String) : Except JsonError Bool :=
  let t := trimSpace data.data
  if t = "true".data then .ok true
  else if t = "false".data then .ok false
  else if t = "null".data then .ok false
  else .error ⟨data, "bool"⟩

/-- The function `json.Unmarshal` into a fresh `int64` variable: an integer
numeral in the `int64` range sets it; the literal null leaves it at 0 and is
no error; every other input is an error. -/
def jsonUnmarshalInt64 (data : String) : Except JsonError Int :=
  let t := trimSpace data.data
  if t = "null".data then .ok 0
  else
    match readIntLiteral t with
    | some v => if inInt64 v then .ok v else .error ⟨data, "int64"⟩
    | none => .error ⟨data, "int64"⟩

/-- The function `json.Unmarshal` into a fresh `string` variable: a JSON
string literal sets it to the unquoted text; the literal null leaves it
empty and is no error; every other input is an error. -/
def jsonUnmarshalString (data : String) : Except JsonError String :=
  let t := trimSpace data.data
  if t = "null".data then .ok ""
  else
    match t with
    | [] => .error ⟨data, "string"⟩
    | c :: rest =>
      if c = dquote then
        match unquoteBody (rest.length + 1) rest with
        | some s => .ok (String.mk s)
        | none => .error ⟨data, "string"⟩
      else .error ⟨data, "string"⟩

/-! ## JSON literals, as the grammar of JSON has them

These predicates do not come from the code: they state what a JSON literal of
each type is, and the decoder is compared with them. -/

/-- Specification: the text is a JSON boolean, `true` or `false`. -/
def SpecJsonBool (t : List Char) : Prop := t = "true".data ∨ t = "false".data

/-- Specification: the text is a JSON integer numeral (an optional minus sign
and a decimal numeral without leading zeros, no fraction, no exponent) whose
value is in the signed 64-bit range. -/
def SpecJsonInt64 (t : List Char) : Prop :=
  ∃ n : Nat, (t = natDigits n ∧ inInt64 (Int.ofNat n)) ∨
    (t = Char.ofNat 45 :: natDigits n ∧ inInt64 (-(Int.ofNat n)))

/-- Specification: whether a character is a hexadecimal digit. -/
def SpecHexDigit (c : Char) : Prop :=
  (48 ≤ c.toNat ∧ c.toNat ≤ 57) ∨ (97 ≤ c.toNat ∧ c.toNat ≤ 102) ∨
    (65 ≤ c.toNat ∧ c.toNat ≤ 70)

/-- Specification: the characters between the quotes of a JSON string: any
character from U+0020 on other than the quote and the backslash; a backslash
followed by one of `"`, `\`, `/`, `b`, `f`, `n`, `r`, `t`; or a backslash,
`u` and four hexadecimal digits. -/
inductive SpecJsonChars : List Char → Prop where
  | nil : SpecJsonChars []
  | plain (c : Char) (rest : List Char) (h1 : 32 ≤ c.toNat) (h2 : c ≠ dquote)
      (h3 : c ≠ bslash) (hr : SpecJsonChars rest) : SpecJsonChars (c :: rest)
  | escape (e : Char) (rest : List Char)
      (he : e.toNat ∈ [34, 92, 47, 98, 102, 110, 114, 116])
      (hr : SpecJsonChars rest) : SpecJsonChars (bslash :: e :: rest)
  | unicode (h1 h2 h3 h4 : Char) (rest : List Char)
      (x1 : SpecHexDigit h1) (x2 : SpecHexDigit h2) (x3 : SpecHexDigit h3)
      (x4 : SpecHexDigit h4) (hr : SpecJsonChars rest) :
      SpecJsonChars (bslash :: Char.ofNat 117 :: h1 :: h2 :: h3 :: h4 :: rest)

/-- Specification: the text is a JSON string literal. -/
def SpecJsonString (t : List Char) : Prop :=
  ∃ body, t = dquote :: (body ++ [dquote]) ∧ SpecJsonChars body

/-- Specification: the text is a JSON literal of the declared datatype: a
boolean for bool, an integer in the signed 64-bit range for int, a string for
str and datetime. -/
def SpecLiteralOf (datatype : String) (t : List Char) : Prop :=
  (datatype = "bool" ∧ SpecJsonBool t) ∨ (datatype = "int" ∧ SpecJsonInt64 t) ∨
    ((datatype = "str" ∨ datatype = "datetime") ∧ SpecJsonString t)

/-! ## The generated API types (`internal/folge`) -/

/-- Modelled from the spec: the struct `folge.HttpStatusCheckTyped` of the
generated package `internal/folge`, the variant payload
`id, label, enabled, status_code`. The id and enabled fields are pointers
(the source dereferences `d.Id` and passes `d.Enabled` to
`types.BoolPointerValue`). -/
structure HttpStatusCheckTyped where
  Id : Option Int := none
  Label : String := ""
  Enabled : Option Bool := none
  StatusCode : Int := 0
deriving DecidableEq, Repr

/-- Modelled from the spec: the struct `folge.JsonDataCheckTyped` of the
generated package `internal/folge`, the variant payload
`id, label, enabled, path, datatype, operator, value`. -/
structure JsonDataCheckTyped where
  Id : Option Int := none
  Label : String := ""
  Enabled : Option Bool := none
  Path : String := ""
  Datatype : String := ""
  Operator : String := ""
  Value : String := ""
deriving DecidableEq, Repr

/-- Modelled from the spec: the values of `folge.DatatypeEnum`. -/
def DatatypeBool : String := "bool"

/-- Modelled from the spec: the enum constant `folge.Int`. -/
def DatatypeInt : String := "int"

/-- Modelled from the spec: the enum constant `folge.Str`. -/
def DatatypeStr : String := "str"

/-- Modelled from the spec: the enum constant `folge.Datetime`. -/
def DatatypeDatetime : String := "datetime"

/-- Modelled from the spec: the discriminator of the http_status variant. -/
def KindHttpStatus : String := "http_status"

/-- Modelled from the spec: the discriminator of the json_property variant. -/
def KindJsonProperty : String := "json_property"

/-- Modelled from the spec: the envelope `folge.Check` of the generated
package `internal/folge`: a `kind` discriminator (absent when none) and the
variant fields. Which fields are meaningful depends on `kind`; a field that
the variant does not have is left at its Go zero value, which is also what Go
decodes for a field absent from the wire. -/
structure Check where
  kind : Option String := none
  id : Option Int := none
  label : String := ""
  enabled : Option Bool := none
  status_code : Int := 0
  path : String := ""
  datatype : String := ""
  operator : String := ""
  value : String := ""
deriving DecidableEq, Repr

/-- The dynamic type of the value returned by `ValueByDiscriminator`, on which
`fromRemote` does its type switch. -/
inductive CheckVariant where
  | httpStatus (d : HttpStatusCheckTyped)
  | jsonProperty (d : JsonDataCheckTyped)
deriving DecidableEq, Repr

/-- Modelled from the spec: the method `Check.FromHttpStatusCheckTyped` of the
generated package: the envelope with `kind` set to the variant discriminator
and the payload attached. It returns no error. -/
def FromHttpStatusCheckTyped (v : HttpStatusCheckTyped) : Except GoError Check :=
  .ok { kind := some KindHttpStatus, id := v.Id, label := v.Label, enabled := v.Enabled,
        status_code := v.StatusCode }

/-- Modelled from the spec: the method `Check.FromJsonDataCheckTyped` of the
generated package: the envelope with `kind` set to the variant discriminator
and the payload attached. It returns no error. -/
def FromJsonDataCheckTyped (v : JsonDataCheckTyped) : Except GoError Check :=
  .ok { kind := some KindJsonProperty, id := v.Id, label := v.Label, enabled := v.Enabled,
        path := v.Path, datatype := v.Datatype, operator := v.Operator, value := v.Value }

/-- Modelled from the spec: the method `Check.AsHttpStatusCheckTyped`, the
envelope read as the http_status payload. -/
def Check.AsHttpStatusCheckTyped (i : Check) : HttpStatusCheckTyped :=
  { Id := i.id, Label := i.label, Enabled := i.enabled, StatusCode := i.status_code }

/-- Modelled from the spec: the method `Check.AsJsonDataCheckTyped`, the
envelope read as the json_property payload. -/
def Check.AsJsonDataCheckTyped (i : Check) : JsonDataCheckTyped :=
  { Id := i.id, Label := i.label, Enabled := i.enabled, Path := i.path,
    Datatype := i.datatype, Operator := i.operator, Value := i.value }

/-- Modelled from the spec: the method `Check.ValueByDiscriminator` of the
generated package: dispatch on `kind`; an unknown or missing discriminator is
the "unknown check kind" error. -/
def Check.ValueByDiscriminator (i : Check) : Except GoError CheckVariant :=
  if i.kind = some KindHttpStatus then .ok (.httpStatus i.AsHttpStatusCheckTyped)
  else if i.kind = some KindJsonProperty then .ok (.jsonProperty i.AsJsonDataCheckTyped)
  else .error (.errorsNew "unknown check kind")

/-- The result of a Go method with a pointer receiver that returns `error`:
either the call panics, or it returns with the receiver in state `m` and the
error `err` (none is nil). -/
inductive Outcome (σ : Type) where
  | panic : Outcome σ
  | ret (m : σ) (err : Option GoError) : Outcome σ
deriving DecidableEq, Repr

/-! ## `internal/check_json_property/model.go` -/

/-- The struct `CheckJsonPropertyModel`. -/
structure CheckJsonPropertyModel where
  ID : TfValue Int := .null
  ApplicationID : TfValue Int := .null
  DataSourceID : TfValue Int := .null
  Name : TfValue String := .null
  Crontab : TfValue String := .null
  Enabled : TfValue Bool := .null
  Path : TfValue String := .null
  DataType : TfValue String := .null
  Operator : TfValue String := .null
  ValueBoolean : TfValue Bool := .null
  ValueString : TfValue String := .null
  ValueInt : TfValue Int := .null
  ValueDateTime : TfValue String := .null
deriving DecidableEq, Repr

/-- The first half of `CheckJsonPropertyModel.createRequest`: the payload with
its `Value` chosen by the switch on the datatype. None is a panic (a marshal
error). -/
def CheckJsonPropertyModel.createData (m : CheckJsonPropertyModel) : Option JsonDataCheckTyped :=
  let data : JsonDataCheckTyped :=
    { Enabled := ValueBoolPointer m.Enabled
      Label := Folge.ValueString m.Name
      Datatype := Folge.ValueString m.DataType
      Operator := Folge.ValueString m.Operator
      Path := Folge.ValueString m.Path }
  if data.Datatype = DatatypeBool then
    match jsonMarshalBool (ValueBool m.ValueBoolean) with
    | .error _ => none
    | .ok val => some { data with Value := val }
  else if data.Datatype = DatatypeInt then
    match jsonMarshalInt64 (ValueInt64 m.ValueInt) with
    | .error _ => none
    | .ok val => some { data with Value := val }
  else if data.Datatype = DatatypeStr then
    match jsonMarshalString (Folge.ValueString m.ValueString) with
    | .error _ => none
    | .ok val => some { data with Value := val }
  else if data.Datatype = DatatypeDatetime then
    match jsonMarshalString (Folge.ValueString m.ValueDateTime) with
    | .error _ => none
    | .ok val => some { data with Value := val }
  else some data

/-- The method `CheckJsonPropertyModel.createRequest`. None is a panic. -/
def CheckJsonPropertyModel.createRequest (m : CheckJsonPropertyModel) : Option Check :=
  match m.createData with
  | none => none
  | some data =>
    match FromJsonDataCheckTyped data with
    | .error _ => none
    | .ok req => some req

/-- Lines 90 to 98 of `CheckJsonPropertyModel.fromRemote`: the receiver after
the id, the label, the two caller-supplied identifiers, enabled, operator, path
and datatype have been stored. -/
def CheckJsonPropertyModel.copyFields (m : CheckJsonPropertyModel) (d : JsonDataCheckTyped)
    (id applicationId datasourceId : Int) : CheckJsonPropertyModel :=
  { m with
    ID := Int64Value id
    Name := StringValue d.Label
    ApplicationID := Int64Value applicationId
    DataSourceID := Int64Value datasourceId
    Enabled := BoolPointerValue d.Enabled
    Operator := StringValue d.Operator
    Path := StringValue d.Path
    DataType := StringValue d.Datatype }

/-- The method `CheckJsonPropertyModel.fromRemote`. The dereference `*d.Id` of
a nil id is the panic. -/
def CheckJsonPropertyModel.fromRemote (m : CheckJsonPropertyModel) (i : Check)
    (applicationId datasourceId : Int) : Outcome CheckJsonPropertyModel :=
  match i.ValueByDiscriminator with
  | .error err => .ret m (some err)
  | .ok (.jsonProperty d) =>
    match d.Id with
    | none => .panic
    | some id =>
      let m1 := m.copyFields d id applicationId datasourceId
      if d.Datatype = DatatypeBool then
        match jsonUnmarshalBool d.Value with
        | .error err => .ret m1 (some (.errorfJson "Invalid bool value: %s" err))
        | .ok dst => .ret { m1 with ValueBoolean := BoolValue dst } none
      else if d.Datatype = DatatypeInt then
        match jsonUnmarshalInt64 d.Value with
        | .error err => .ret m1 (some (.errorfJson "Invalid int value: %s" err))
        | .ok dst => .ret { m1 with ValueInt := Int64Value dst } none
      else if d.Datatype = DatatypeStr then
        match jsonUnmarshalString d.Value with
        | .error err => .ret m1 (some (.errorfJson "Invalid datetime value: %s" err))
        | .ok dst => .ret { m1 with ValueString := StringValue dst } none
      else if d.Datatype = DatatypeDatetime then
        match jsonUnmarshalString d.Value with
        | .error err => .ret m1 (some (.errorfJson "Invalid datetime value: %s" err))
        | .ok dst => .ret { m1 with ValueDateTime := StringValue dst } none
      else .ret m1 (some (.errorfStr "unknown datatype: %s" d.Datatype))
  | .ok _ => .ret m (some (.errorsNew "unknown data source type"))

/-- A model with datatype bool whose value_bool holds a value, whose other
three slots are null and whose name is not null; its path is null. -/
def nullPathModel : CheckJsonPropertyModel :=
  { ApplicationID := .known 7, DataSourceID := .known 3, Name := .known "n",
    Crontab := .known "* * * * *", Enabled := .known true, DataType := .known "bool",
    Operator := .known "eq", ValueBoolean := .known true }

/-- The number of typed value slots of a model that are populated (not
null). -/
def CheckJsonPropertyModel.populated (m : CheckJsonPropertyModel) : Nat :=
  (if m.ValueBoolean = .null then 0 else 1) + (if m.ValueInt = .null then 0 else 1) +
    (if m.ValueString = .null then 0 else 1) + (if m.ValueDateTime = .null then 0 else 1)

/-! ## `internal/check_http_status/model.go` -/

/-- The struct `CheckHttpStatusModel`. -/
structure CheckHttpStatusModel where
  ID : TfValue Int := .null
  ApplicationID : TfValue Int := .null
  DataSourceID : TfValue Int := .null
  Name : TfValue String := .null
  StatusCode : TfValue Int := .null
  Crontab : TfValue String := .null
  Enabled : TfValue Bool := .null
deriving DecidableEq, Repr

/-- The method `CheckHttpStatusModel.createRequest`. None is a panic. -/
def CheckHttpStatusModel.createRequest (m : CheckHttpStatusModel) : Option Check :=
  let data : HttpStatusCheckTyped :=
    { Enabled := ValueBoolPointer m.Enabled
      Label := Folge.ValueString m.Name
      StatusCode := ValueInt64 m.StatusCode }
  match FromHttpStatusCheckTyped data with
  | .error _ => none
  | .ok req => some req

/-- The method `CheckHttpStatusModel.fromRemote`. -/
def CheckHttpStatusModel.fromRemote (m : CheckHttpStatusModel) (i : Check)
    (applicationId datasourceId : Int) : Outcome CheckHttpStatusModel :=
  match i.ValueByDiscriminator with
  | .error err => .ret m (some err)
  | .ok (.httpStatus d) =>
    match d.Id with
    | none => .panic
    | some id =>
      .ret { m with
             ID := Int64Value id
             Name := StringValue d.Label
             ApplicationID := Int64Value applicationId
             DataSourceID := Int64Value datasourceId
             Enabled := BoolPointerValue d.Enabled
             StatusCode := Int64Value d.StatusCode } none
  | .ok _ => .ret m (some (.errorsNew "unknown data source type"))

/-! ## Diagnostics of the plugin framework -/

/-- The severity of a framework diagnostic. -/
inductive Severity where
  | error : Severity
  | warning : Severity
deriving DecidableEq, Repr

/-- A framework diagnostic (`diag.Diagnostic`): severity, summary and detail. -/
structure Diagnostic where
  severity : Severity
  summary : String
  detail : String
deriving DecidableEq, Repr

/-- The method `Diagnostics.HasError`: whether a diagnostic of severity error
is in the list. -/
def HasError (diags : List Diagnostic) : Bool :=
  diags.any (fun d => d.severity = .error)

/-- The method `Diagnostics.Append`: the new diagnostics are added in order,
each one only when it is not in the list already. -/
def Append (diags : List Diagnostic) (new : List Diagnostic) : List Diagnostic :=
  new.foldl (fun acc d => if d ∈ acc then acc else acc ++ [d]) diags

/-- The method `Diagnostics.AddError`: appends an error diagnostic with the
given summary and detail. -/
def AddError (diags : List Diagnostic) (summary detail : String) : List Diagnostic :=
  Append diags [⟨.error, summary, detail⟩]

/-- The method `IsNull` of a framework value. -/
def IsNull {α : Type} : TfValue α → Bool
  | .null => true
  | _ => false

/-! ## `internal/provider.go`: the configuration of the client -/

/-- The struct `folgeProviderModel`. -/
structure folgeProviderModel where
  URL : TfValue String := .null
  ClientID : TfValue String := .null
  ClientSecret : TfValue String := .null
deriving DecidableEq, Repr

/-- The three strings that `Configure` hands on: `url` to
`folge.NewClientWithResponses`, `clientId` and `clientSecret` to
`securityprovider.NewSecurityProviderBasicAuth`. -/
structure ClientSettings where
  url : String
  clientId : String
  clientSecret : String
deriving DecidableEq, Repr

/-- The method `folgeProvider.Configure` up to the creation of the client
(lines 136 to 171): `getenv` is `os.Getenv`, `respDiags` the diagnostics of the
response on entry and `configDiags` those returned by `req.Config.Get`, which
fills `config`. None is the early return on an error diagnostic. -/
def Configure (getenv : String → String) (respDiags configDiags : List Diagnostic)
    (config : folgeProviderModel) : Option ClientSettings :=
  let diags := Append respDiags configDiags
  if HasError diags then none
  else
    let url := getenv "FOLGE_URL"
    let clientId := getenv "FOLGE_CLIENT_ID"
    let clientSecret := getenv "FOLGE_CLIENT_SECRET"
    let url := if !IsNull config.URL then Folge.ValueString config.URL else url
    let clientId := if !IsNull config.ClientID then Folge.ValueString config.ClientID else clientId
    let clientSecret :=
      if !IsNull config.ClientSecret then Folge.ValueString config.ClientSecret else clientSecret
    if HasError diags then none
    else
      let url := if url = "" then "https://app.folge.io" else url
      some { url := url, clientId := clientId, clientSecret := clientSecret }

/-! ## `internal/utils.go`: the headers kept in a recording -/

/-- The Go type `http.Header`, a map from header names to lists of values: the
list of its entries, in the order in which a `range` over the map visits
them. -/
abbrev Header := List (String × List String)

/-- The function `validHeaderFieldByte` of `net/textproto`: the token
characters of RFC 7230 (letters, digits and the fifteen marks). -/
def validHeaderFieldByte (c : Char) : Bool :=
  let n := c.toNat
  (48 ≤ n && n ≤ 57) || (65 ≤ n && n ≤ 90) || (97 ≤ n && n ≤ 122) ||
    n = 33 || n = 35 || n = 36 || n = 37 || n = 38 || n = 39 || n = 42 || n = 43 ||
    n = 45 || n = 46 || n = 94 || n = 95 || n = 96 || n = 124 || n = 126

/-- The loop of `canonicalMIMEHeaderKey`: upper case for the first letter and
for a letter after a hyphen, lower case for the other letters. -/
def canonicalLoop : Bool → List Char → List Char
  | _, [] => []
  | upper, c :: cs =>
    let n := c.toNat
    let c1 :=
      if upper ∧ 97 ≤ n ∧ n ≤ 122 then Char.ofNat (n - 32)
      else if ¬ upper ∧ 65 ≤ n ∧ n ≤ 90 then Char.ofNat (n + 32)
      else c
    c1 :: canonicalLoop (c1.toNat = 45) cs

/-- The function `textproto.CanonicalMIMEHeaderKey`, which `http.Header.Del`
applies to its key: a key with a character that is not a token character is
returned as it is, any other key is put in canonical case. -/
def CanonicalMIMEHeaderKey (s : String) : String :=
  if s.data.all validHeaderFieldByte then String.mk (canonicalLoop true s.data) else s

/-- The method `http.Header.Del`: deletes the entry under the canonical form
of the key. -/
def Header.Del (h : Header) (key : String) : Header :=
  h.filter (fun e => e.1 ≠ CanonicalMIMEHeaderKey key)

/-- The function `contains` of `internal/utils.go`. -/
def contains : List String → String → Bool
  | [], _ => false
  | k :: keep, key => if k = key then true else contains keep key

/-- The loop of `cleanHeaders` over the keys that the `range` has still to
visit: a key that was deleted before it was reached is not visited. -/
def cleanLoop (keep : List String) : List String → Header → Header
  | [], headers => headers
  | key :: rest, headers =>
    if headers.any (fun e => e.1 = key) then
      if !contains keep key then cleanLoop keep rest (Header.Del headers key)
      else cleanLoop keep rest headers
    else cleanLoop keep rest headers

/-- The function `cleanHeaders` of `internal/utils.go`. -/
def cleanHeaders (headers : Header) (keep : List String) : Header :=
  cleanLoop keep (headers.map Prod.fst) headers

/-- The keys of a header map are in canonical form, as the documentation of
`http.Header` asks of them. -/
def canonicalKeys (h : Header) : Prop :=
  ∀ e ∈ h, CanonicalMIMEHeaderKey e.1 = e.1

/-- The request and response headers of a recorded interaction
(`cassette.Interaction`). -/
structure Interaction where
  RequestHeaders : Header
  ResponseHeaders : Header
deriving DecidableEq, Repr

/-- The hook that `WithRecorderClient` adds to the recorder. -/
def hook (i : Interaction) : Interaction :=
  let i1 := { i with ResponseHeaders := cleanHeaders i.ResponseHeaders ["Content-Type"] }
  { i1 with RequestHeaders := cleanHeaders i1.RequestHeaders [] }

/-! ## The resources: `resource.go` of the two checks and of the datasource -/

/-- A call on `r.client` (`folge.ClientWithResponsesInterface`), named after
the method called, with its arguments after the context. -/
inductive ApiRequest where
  | ApplicationsDestroy (id : Int)
  | ApplicationsDataSourcesChecksCreate (applicationId dataSourceId : Int) (body : Check)
  | ApplicationsDataSourcesChecksRetrieve (applicationId dataSourceId id : Int)
  | ApplicationsDataSourcesChecksUpdate (applicationId dataSourceId id : Int) (body : Check)
deriving DecidableEq, Repr

/-- The response value that a call on the client returns: the status code,
the raw body, and the decoded envelope, a pointer that is nil (none) when no
body was decoded for that status. -/
structure ApiResponse where
  StatusCode : Int
  Body : String := ""
  JSON200 : Option Check := none
  JSON201 : Option Check := none
deriving DecidableEq, Repr

/-- The two results of a call on the client: a non-nil error, or a response. -/
inductive ApiResult where
  | transportError (err : GoError)
  | response (content : ApiResponse)
deriving DecidableEq, Repr

/-- What a resource method gets from outside the sources: the remote API
behind `r.client`, the text of `encoding/json` errors, the diagnostics that
`resp.State.Set` returns, and the verdict of `utils.CheckGetError` (a function
of this repository that is not among the sources) on the result of a
retrieve call: a diagnostic, or nil. -/
structure Env (σ : Type) where
  client : ApiRequest → ApiResult
  jsonText : JsonError → String
  stateSet : σ → List Diagnostic
  checkGetError : String → Int → ApiResult → Option Diagnostic

/-- The response of a resource method when it returns: its diagnostics, the
model passed to `resp.State.Set` (none when the method did not call it), and
the calls made on the client. -/
structure Response (σ : Type) where
  Diagnostics : List Diagnostic
  State : Option σ
  calls : List ApiRequest

/-- The methods `toCreateInput` and `toUpdateInput` of `CheckJsonPropertyModel`: the
envelope of createRequest under another type name. -/
def CheckJsonPropertyModel.toCreateInput (m : CheckJsonPropertyModel) : Option Check := m.createRequest

/-- The method `CheckJsonPropertyModel.toUpdateInput`. -/
def CheckJsonPropertyModel.toUpdateInput (m : CheckJsonPropertyModel) : Option Check := m.createRequest

/-- The method `checkJsonPropertyResource.Create`: `respDiags` are the diagnostics of the
response on entry, `planDiags` those returned by `req.Plan.Get`, which fills
`plan`. None is a panic. -/
def checkJsonPropertyResource.Create (env : Env CheckJsonPropertyModel) (respDiags planDiags : List Diagnostic)
    (plan : CheckJsonPropertyModel) : Option (Response CheckJsonPropertyModel) :=
  let diags := Append respDiags planDiags
  if HasError diags then some ⟨diags, none, []⟩
  else
    match plan.toCreateInput with
    | none => none
    | some input =>
      let appId := AsInt plan.ApplicationID
      let dsId := AsInt plan.DataSourceID
      let call := ApiRequest.ApplicationsDataSourcesChecksCreate appId dsId input
      match env.client call with
      | .transportError err =>
        some ⟨AddError diags "Error creating check_json_property"
          ("Could not create check_json_property, unexpected error: " ++ err.Error env.jsonText),
          none, [call]⟩
      | .response content =>
        if content.StatusCode ≠ 201 then
          some ⟨AddError diags "Error creating check_json_property"
            ("Could not create check_json_property, status code "
              ++ String.mk (intDigits content.StatusCode) ++ " error: " ++ content.Body),
            none, [call]⟩
        else
          match content.JSON201 with
          | none => none
          | some check =>
            match plan.fromRemote check appId dsId with
            | .panic => none
            | .ret _ (some err) =>
              some ⟨AddError diags "Error creating check_json_property"
                ("Could not create check_json_property, unexpected error: " ++ err.Error env.jsonText),
                none, [call]⟩
            | .ret plan1 none =>
              some ⟨Append diags (env.stateSet plan1), some plan1, [call]⟩

/-- The method `checkJsonPropertyResource.Read`: `stateDiags` are the diagnostics returned by
`req.State.Get`, which fills `state`. None is a panic. -/
def checkJsonPropertyResource.Read (env : Env CheckJsonPropertyModel) (respDiags stateDiags : List Diagnostic)
    (state : CheckJsonPropertyModel) : Option (Response CheckJsonPropertyModel) :=
  let diags := Append respDiags stateDiags
  if HasError diags then some ⟨diags, none, []⟩
  else
    let id := ValueInt64 state.ID
    let appId := AsInt state.ApplicationID
    let dsId := AsInt state.DataSourceID
    let call := ApiRequest.ApplicationsDataSourcesChecksRetrieve appId dsId id
    match env.checkGetError "check_json_property" id (env.client call) with
    | some d => some ⟨Append diags [d], none, [call]⟩
    | none =>
      match env.client call with
      | .transportError _ => none
      | .response content =>
        match content.JSON200 with
        | none => none
        | some check =>
          match state.fromRemote check appId dsId with
          | .panic => none
          | .ret state1 (some err) =>
            some ⟨AddError diags "Error Reading Check"
              ("Could not read Check ID " ++ String.mk (intDigits (ValueInt64 state1.ID))
                ++ ": " ++ err.Error env.jsonText),
              none, [call]⟩
          | .ret state1 none =>
            some ⟨Append diags (env.stateSet state1), some state1, [call]⟩

/-- The method `checkJsonPropertyResource.Update`. None is a panic. -/
def checkJsonPropertyResource.Update (env : Env CheckJsonPropertyModel) (respDiags planDiags : List Diagnostic)
    (plan : CheckJsonPropertyModel) : Option (Response CheckJsonPropertyModel) :=
  let diags := Append respDiags planDiags
  if HasError diags then some ⟨diags, none, []⟩
  else
    match plan.toUpdateInput with
    | none => none
    | some input =>
      let planId := AsInt plan.ID
      let appId := AsInt plan.ApplicationID
      let dsId := AsInt plan.DataSourceID
      let call := ApiRequest.ApplicationsDataSourcesChecksUpdate appId dsId planId input
      match env.client call with
      | .transportError err =>
        some ⟨AddError diags "Error updating check_json_property"
          ("Could not update check_json_property, unexpected error: " ++ err.Error env.jsonText),
          none, [call]⟩
      | .response content =>
        if content.StatusCode ≠ 200 then
          some ⟨AddError diags "Error updating check_json_property"
            ("Could not update check_json_property, status code "
              ++ String.mk (intDigits content.StatusCode) ++ " error: " ++ content.Body),
            none, [call]⟩
        else
          match content.JSON200 with
          | none => none
          | some check =>
            match plan.fromRemote check appId dsId with
            | .panic => none
            | .ret _ (some err) =>
              some ⟨AddError diags "Error updating check_json_property"
                ("Could not update check_json_property, unexpected error: " ++ err.Error env.jsonText),
                none, [call]⟩
            | .ret plan1 none =>
              some ⟨Append diags (env.stateSet plan1), some plan1, [call]⟩

/-- The method `checkJsonPropertyResource.Delete`. It does not call `resp.State.Set`. -/
def checkJsonPropertyResource.Delete (env : Env CheckJsonPropertyModel) (respDiags stateDiags : List Diagnostic)
    (state : CheckJsonPropertyModel) : Option (Response CheckJsonPropertyModel) :=
  let diags := Append respDiags stateDiags
  if HasError diags then some ⟨diags, none, []⟩
  else
    let id := AsInt state.ID
    let call := ApiRequest.ApplicationsDestroy id
    match env.client call with
    | .transportError err =>
      some ⟨AddError diags "Error deleting check_json_property"
        ("Could not delete check_json_property, unexpected error: " ++ err.Error env.jsonText),
        none, [call]⟩
    | .response content =>
      if content.StatusCode ≠ 204 then
        some ⟨AddError diags "Error deleting check_json_property"
          ("Could not delete check_json_property, status code "
            ++ String.mk (intDigits content.StatusCode) ++ " error: " ++ content.Body),
          none, [call]⟩
      else some ⟨diags, none, [call]⟩

/-- The methods `toCreateInput` and `toUpdateInput` of `CheckHttpStatusModel`: the
envelope of createRequest under another type name. -/
def CheckHttpStatusModel.toCreateInput (m : CheckHttpStatusModel) : Option Check := m.createRequest

/-- The method `CheckHttpStatusModel.toUpdateInput`. -/
def CheckHttpStatusModel.toUpdateInput (m : CheckHttpStatusModel) : Option Check := m.createRequest

/-- The method `checkHttpStatusResource.Create`: `respDiags` are the diagnostics of the
response on entry, `planDiags` those returned by `req.Plan.Get`, which fills
`plan`. None is a panic. -/
def checkHttpStatusResource.Create (env : Env CheckHttpStatusModel) (respDiags planDiags : List Diagnostic)
    (plan : CheckHttpStatusModel) : Option (Response CheckHttpStatusModel) :=
  let diags := Append respDiags planDiags
  if HasError diags then some ⟨diags, none, []⟩
  else
    match plan.toCreateInput with
    | none => none
    | some input =>
      let appId := AsInt plan.ApplicationID
      let dsId := AsInt plan.DataSourceID
      let call := ApiRequest.ApplicationsDataSourcesChecksCreate appId dsId input
      match env.client call with
      | .transportError err =>
        some ⟨AddError diags "Error creating check_http_status"
          ("Could not create check_http_status, unexpected error: " ++ err.Error env.jsonText),
          none, [call]⟩
      | .response content =>
        if content.StatusCode ≠ 201 then
          some ⟨AddError diags "Error creating check_http_status"
            ("Could not create check_http_status, status code "
              ++ String.mk (intDigits content.StatusCode) ++ " error: " ++ content.Body),
            none, [call]⟩
        else
          match content.JSON201 with
          | none => none
          | some check =>
            match plan.fromRemote check appId dsId with
            | .panic => none
            | .ret _ (some err) =>
              some ⟨AddError diags "Error creating check_http_status"
                ("Could not create check_http_status, unexpected error: " ++ err.Error env.jsonText),
                none, [call]⟩
            | .ret plan1 none =>
              some ⟨Append diags (env.stateSet plan1), some plan1, [call]⟩

/-- The method `checkHttpStatusResource.Read`: `stateDiags` are the diagnostics returned by
`req.State.Get`, which fills `state`. None is a panic. -/
def checkHttpStatusResource.Read (env : Env CheckHttpStatusModel) (respDiags stateDiags : List Diagnostic)
    (state : CheckHttpStatusModel) : Option (Response CheckHttpStatusModel) :=
  let diags := Append respDiags stateDiags
  if HasError diags then some ⟨diags, none, []⟩
  else
    let id := ValueInt64 state.ID
    let appId := AsInt state.ApplicationID
    let dsId := AsInt state.DataSourceID
    let call := ApiRequest.ApplicationsDataSourcesChecksRetrieve appId dsId id
    match env.checkGetError "check_http_status" id (env.client call) with
    | some d => some ⟨Append diags [d], none, [call]⟩
    | none =>
      match env.client call with
      | .transportError _ => none
      | .response content =>
        match content.JSON200 with
        | none => none
        | some check =>
          match state.fromRemote check appId dsId with
          | .panic => none
          | .ret state1 (some err) =>
            some ⟨AddError diags "Error Reading Check"
              ("Could not read Check ID " ++ String.mk (intDigits (ValueInt64 state1.ID))
                ++ ": " ++ err.Error env.jsonText),
              none, [call]⟩
          | .ret state1 none =>
            some ⟨Append diags (env.stateSet state1), some state1, [call]⟩

/-- The method `checkHttpStatusResource.Update`. None is a panic. -/
def checkHttpStatusResource.Update (env : Env CheckHttpStatusModel) (respDiags planDiags : List Diagnostic)
    (plan : CheckHttpStatusModel) : Option (Response CheckHttpStatusModel) :=
  let diags := Append respDiags planDiags
  if HasError diags then some ⟨diags, none, []⟩
  else
    match plan.toUpdateInput with
    | none => none
    | some input =>
      let planId := AsInt plan.ID
      let appId := AsInt plan.ApplicationID
      let dsId := AsInt plan.DataSourceID
      let call := ApiRequest.ApplicationsDataSourcesChecksUpdate appId dsId planId input
      match env.client call with
      | .transportError err =>
        some ⟨AddError diags "Error updating check_http_status"
          ("Could not update check_http_status, unexpected error: " ++ err.Error env.jsonText),
          none, [call]⟩
      | .response content =>
        if content.StatusCode ≠ 200 then
          some ⟨AddError diags "Error updating check_http_status"
            ("Could not update check_http_status, status code "
              ++ String.mk (intDigits content.StatusCode) ++ " error: " ++ content.Body),
            none, [call]⟩
        else
          match content.JSON200 with
          | none => none
          | some check =>
            match plan.fromRemote check appId dsId with
            | .panic => none
            | .ret _ (some err) =>
              some ⟨AddError diags "Error updating check_http_status"
                ("Could not update check_http_status, unexpected error: " ++ err.Error env.jsonText),
                none, [call]⟩
            | .ret plan1 none =>
              some ⟨Append diags (env.stateSet plan1), some plan1, [call]⟩

/-- The method `checkHttpStatusResource.Delete`. It does not call `resp.State.Set`. -/
def checkHttpStatusResource.Delete (env : Env CheckHttpStatusModel) (respDiags stateDiags : List Diagnostic)
    (state : CheckHttpStatusModel) : Option (Response CheckHttpStatusModel) :=
  let diags := Append respDiags stateDiags
  if HasError diags then some ⟨diags, none, []⟩
  else
    let id := AsInt state.ID
    let call := ApiRequest.ApplicationsDestroy id
    match env.client call with
    | .transportError err =>
      some ⟨AddError diags "Error deleting check_http_status"
        ("Could not delete check_http_status, unexpected error: " ++ err.Error env.jsonText),
        none, [call]⟩
    | .response content =>
      if content.StatusCode ≠ 204 then
        some ⟨AddError diags "Error deleting check_http_status"
          ("Could not delete check_http_status, status code "
            ++ String.mk (intDigits content.StatusCode) ++ " error: " ++ content.Body),
          none, [call]⟩
      else some ⟨diags, none, [call]⟩

/-- The struct `BasicAuthModel` of `internal/datasource/model.go`. -/
structure BasicAuthModel where
  Username : TfValue String := .null
  Password : TfValue String := .null
deriving DecidableEq, Repr

/-- The struct `DataSourceModel` of `internal/datasource/model.go`. -/
structure DataSourceModel where
  ID : TfValue Int := .null
  ApplicationID : TfValue Int := .null
  Name : TfValue String := .null
  URL : TfValue String := .null
  BasicAuth : Option BasicAuthModel := none
deriving DecidableEq, Repr

/-- The method `dataSourceResource.Delete`. It does not call
`resp.State.Set`. -/
def dataSourceResource.Delete (env : Env DataSourceModel)
    (respDiags stateDiags : List Diagnostic) (state : DataSourceModel) :
    Option (Response DataSourceModel) :=
  let diags := Append respDiags stateDiags
  if HasError diags then some ⟨diags, none, []⟩
  else
    let id := AsInt state.ID
    let call := ApiRequest.ApplicationsDestroy id
    match env.client call with
    | .transportError err =>
      some ⟨AddError diags "Error deleting datasource"
        ("Could not delete datasource, unexpected error: " ++ err.Error env.jsonText),
        none, [call]⟩
    | .response content =>
      if content.StatusCode ≠ 204 then
        some ⟨AddError diags "Error deleting datasource"
          ("Could not delete datasource, status code "
            ++ String.mk (intDigits content.StatusCode) ++ " error: " ++ content.Body),
          none, [call]⟩
      else some ⟨diags, none, [call]⟩

/-- An environment for examples: the API answers every call with the response
`content`, `resp.State.Set` returns no diagnostic and `utils.CheckGetError`
returns nil. -/
def constEnv (σ : Type) (content : ApiResponse) : Env σ :=
  { client := fun _ => .response content
    jsonText := fun e => e.data
    stateSet := fun _ => []
    checkGetError := fun _ _ _ => none }

/-- A resource method returned without calling `resp.State.Set`, and added
exactly one diagnostic, of severity error, to the diagnostics `diags` it had
after reading its plan or state. -/
def Rejected {σ : Type} (diags : List Diagnostic) (res : Option (Response σ)) : Prop :=
  ∃ r d, res = some r ∧ r.State = none ∧ d.severity = .error ∧
    r.Diagnostics = diags ++ [d]

end Folge

namespace Folge

/-! ## Lemmas on the scalar codec -/

theorem trimSpace_of_ends (a b : Char) (mid : List Char) (ha : isSpace a = false)
    (hb : isSpace b = false) : trimSpace (a :: (mid ++ [b])) = a :: (mid ++ [b]) := by
  unfold trimSpace
  rw [List.dropWhile_cons_of_neg (by simp [ha])]
  have h : (a :: (mid ++ [b])).reverse = b :: (mid.reverse ++ [a]) := by simp
  rw [h, List.dropWhile_cons_of_neg (by simp [hb])]
  simp

theorem toNat_digit (k : Nat) (hk : k < 10) : (Char.ofNat (48 + k)).toNat = 48 + k := by
  interval_cases k <;> rfl

theorem natDigitsAux_eq (n : Nat) : ∀ (fuel : Nat) (acc : List Char), n < fuel →
    natDigitsAux fuel n acc = natDigits n ++ acc := by
  induction n using Nat.strong_induction_on with
  | _ n ih =>
    intro fuel acc hf
    obtain ⟨f, rfl⟩ : ∃ f, fuel = f + 1 := ⟨fuel - 1, by omega⟩
    by_cases h10 : n < 10
    · simp [natDigits, natDigitsAux, h10]
    · have hlt : n / 10 < n := by omega
      have e1 : natDigitsAux (f + 1) n acc
          = natDigitsAux f (n / 10) (Char.ofNat (48 + n % 10) :: acc) := by
        simp [natDigitsAux, h10]
      have e2 : natDigits n = natDigitsAux n (n / 10) [Char.ofNat (48 + n % 10)] := by
        simp [natDigits, natDigitsAux, h10]
      rw [e1, e2, ih (n / 10) hlt f _ (by omega), ih (n / 10) hlt n _ hlt]
      simp

theorem natDigits_small (n : Nat) (h : n < 10) : natDigits n = [Char.ofNat (48 + n)] := by
  simp [natDigits, natDigitsAux, h]

theorem natDigits_large (n : Nat) (h : 10 ≤ n) :
    natDigits n = natDigits (n / 10) ++ [Char.ofNat (48 + n % 10)] := by
  have e2 : natDigits n = natDigitsAux n (n / 10) [Char.ofNat (48 + n % 10)] := by
    simp [natDigits, natDigitsAux, Nat.not_lt.mpr h]
  rw [e2, natDigitsAux_eq (n / 10) n _ (by omega)]

theorem readDigits_append (xs ys : List Char) : ∀ acc : Nat,
    readDigits acc (xs ++ ys) = (readDigits acc xs).bind (fun k => readDigits k ys) := by
  induction xs with
  | nil => intro acc; simp [readDigits]
  | cons c cs ih =>
    intro acc
    simp only [List.cons_append, readDigits]
    split
    · exact ih _
    · rfl

theorem readDigits_natDigits (n : Nat) : readDigits 0 (natDigits n) = some n := by
  induction n using Nat.strong_induction_on with
  | _ n ih =>
    by_cases h10 : n < 10
    · rw [natDigits_small n h10]
      simp [readDigits, toNat_digit n h10]
      omega
    · have hlt : n / 10 < n := by omega
      rw [natDigits_large n (by omega), readDigits_append, ih (n / 10) hlt]
      have hm : n % 10 < 10 := Nat.mod_lt _ (by decide)
      simp only [Option.some_bind, readDigits, toNat_digit _ hm]
      simp
      omega

/-- Every numeral starts with a digit, and a numeral that starts with the digit
zero is the numeral of zero. -/
theorem natDigits_head (n : Nat) : ∃ c cs, natDigits n = c :: cs ∧
    48 ≤ c.toNat ∧ c.toNat ≤ 57 ∧ (c.toNat = 48 → cs = []) := by
  induction n using Nat.strong_induction_on with
  | _ n ih =>
    by_cases h10 : n < 10
    · refine ⟨Char.ofNat (48 + n), [], natDigits_small n h10, ?_, ?_, fun _ => rfl⟩ <;>
        rw [toNat_digit n h10] <;> omega
    · have hlt : n / 10 < n := by omega
      obtain ⟨c, cs, hc, h1, h2, h3⟩ := ih (n / 10) hlt
      refine ⟨c, cs ++ [Char.ofNat (48 + n % 10)], ?_, h1, h2, ?_⟩
      · rw [natDigits_large n (by omega), hc]; rfl
      · intro h0
        exfalso
        have hz := h3 h0
        subst hz
        have hr := readDigits_natDigits (n / 10)
        rw [hc] at hr
        simp [readDigits, h0] at hr
        omega

theorem readNatLiteral_natDigits (n : Nat) : readNatLiteral (natDigits n) = some n := by
  obtain ⟨c, cs, hc, _, _, h3⟩ := natDigits_head n
  have hr := readDigits_natDigits n
  rw [hc] at hr ⊢
  simp only [readNatLiteral]
  rw [if_neg (fun h => h.2 (h3 h.1))]
  exact hr

theorem readIntLiteral_intDigits (i : Int) : readIntLiteral (intDigits i) = some i := by
  cases i with
  | ofNat n =>
    obtain ⟨c, cs, hc, h1, _, _⟩ := natDigits_head n
    have hr := readNatLiteral_natDigits n
    simp only [intDigits]
    rw [hc] at hr ⊢
    simp only [readIntLiteral]
    rw [if_neg (by omega), hr]
    rfl
  | negSucc n =>
    simp only [intDigits, readIntLiteral]
    rw [if_pos (by rfl), readNatLiteral_natDigits]
    rfl

theorem unquote_escape_low (n : Nat) (hn : n < 64) (f : Nat) (rest : List Char) :
    unquoteBody (f + 1) (escapeChar (Char.ofNat n) ++ rest)
      = (unquoteBody f rest).map (Char.ofNat n :: ·) := by
  interval_cases n <;> rfl

theorem unquote_escape_special (n : Nat) (hn : n = 92 ∨ n = 8232 ∨ n = 8233) (f : Nat)
    (rest : List Char) :
    unquoteBody (f + 1) (escapeChar (Char.ofNat n) ++ rest)
      = (unquoteBody f rest).map (Char.ofNat n :: ·) := by
  rcases hn with h | h | h <;> subst h <;> rfl

theorem unquote_escapeChar (c : Char) (f : Nat) (rest : List Char) :
    unquoteBody (f + 1) (escapeChar c ++ rest) = (unquoteBody f rest).map (c :: ·) := by
  by_cases h : c.toNat < 64
  · have := unquote_escape_low c.toNat h f rest
    rwa [Char.ofNat_toNat] at this
  by_cases h2 : c.toNat = 92 ∨ c.toNat = 8232 ∨ c.toNat = 8233
  · have := unquote_escape_special c.toNat h2 f rest
    rwa [Char.ofNat_toNat] at this
  · have e : escapeChar c = [c] := by
      unfold escapeChar
      simp only []
      repeat rw [if_neg (by omega)]
    have hq : c ≠ dquote := by
      intro hc; subst hc; exact h (by decide)
    have hb : c ≠ bslash := by
      intro hc; subst hc; exact h2 (Or.inl (by decide))
    rw [e]
    simp only [List.singleton_append, unquoteBody]
    rw [if_neg hq, if_neg hb, if_neg (by omega)]
    rfl

theorem escapeChar_length_pos (c : Char) : 1 ≤ (escapeChar c).length := by
  unfold escapeChar
  simp only []
  repeat (first | split | simp)

theorem unquote_escapeChars (s : List Char) : ∀ fuel : Nat,
    (escapeChars s).length + 1 ≤ fuel →
    unquoteBody fuel (escapeChars s ++ [dquote]) = some s := by
  induction s with
  | nil =>
    intro fuel hf
    obtain ⟨f, rfl⟩ : ∃ f, fuel = f + 1 := ⟨fuel - 1, by omega⟩
    simp [escapeChars, unquoteBody]
  | cons c cs ih =>
    intro fuel hf
    obtain ⟨f, rfl⟩ : ∃ f, fuel = f + 1 := ⟨fuel - 1, by omega⟩
    have hl := escapeChar_length_pos c
    simp only [escapeChars, List.length_append] at hf
    simp only [escapeChars, List.append_assoc]
    rw [unquote_escapeChar, ih f (by omega)]
    rfl

theorem isSpace_dquote : isSpace dquote = false := by decide

theorem unmarshal_marshal_string (s : String) :
    jsonUnmarshalString (String.mk (dquote :: (escapeChars s.data ++ [dquote]))) = .ok s := by
  unfold jsonUnmarshalString
  simp only []
  rw [trimSpace_of_ends dquote dquote _ isSpace_dquote isSpace_dquote]
  rw [if_neg (by intro h; exact absurd (List.cons.inj h).1 (by decide))]
  simp only [if_true]
  rw [unquote_escapeChars s.data _ (by simp)]

theorem unmarshal_marshal_bool (b : Bool) :
    jsonUnmarshalBool (if b then "true" else "false") = .ok b := by
  cases b <;> decide

theorem isSpace_digit (c : Char) (h1 : 48 ≤ c.toNat) : isSpace c = false := by
  simp [isSpace]; omega

theorem trimSpace_of_all (cs : List Char) (h : ∀ c ∈ cs, isSpace c = false) :
    trimSpace cs = cs := by
  unfold trimSpace
  have h1 : cs.dropWhile isSpace = cs := by
    cases cs with
    | nil => rfl
    | cons a as => exact List.dropWhile_cons_of_neg (by simp [h a (List.mem_cons_self _ _)])
  rw [h1]
  have h2 : cs.reverse.dropWhile isSpace = cs.reverse := by
    cases hr : cs.reverse with
    | nil => rfl
    | cons a as =>
      have ha : a ∈ cs := by
        rw [← List.mem_reverse, hr]; exact List.mem_cons_self _ _
      exact List.dropWhile_cons_of_neg (by simp [h a ha])
  rw [h2, List.reverse_reverse]

theorem natDigits_all (n : Nat) : ∀ c ∈ natDigits n, 48 ≤ c.toNat := by
  induction n using Nat.strong_induction_on with
  | _ n ih =>
    by_cases h10 : n < 10
    · rw [natDigits_small n h10]
      intro c hc
      rw [List.mem_singleton.mp hc, toNat_digit n h10]
      omega
    · rw [natDigits_large n (by omega)]
      intro c hc
      rcases List.mem_append.mp hc with h | h
      · exact ih (n / 10) (by omega) c h
      · rw [List.mem_singleton.mp h, toNat_digit _ (Nat.mod_lt _ (by decide))]
        omega

theorem intDigits_no_space (i : Int) : ∀ c ∈ intDigits i, isSpace c = false := by
  cases i with
  | ofNat n =>
    intro c hc
    exact isSpace_digit c (natDigits_all n c hc)
  | negSucc n =>
    intro c hc
    rcases List.mem_cons.mp hc with h | h
    · rw [h]; decide
    · exact isSpace_digit c (natDigits_all _ c h)

theorem intDigits_ne_null (i : Int) : intDigits i ≠ "null".data := by
  cases i with
  | ofNat n =>
    obtain ⟨c, cs, hc, _, h2, _⟩ := natDigits_head n
    simp only [intDigits]
    rw [hc]
    intro h
    have := (List.cons.inj h).1
    subst this
    revert h2
    decide
  | negSucc n =>
    simp only [intDigits]
    intro h
    exact absurd (List.cons.inj h).1 (by decide)

theorem unmarshal_marshal_int64 (i : Int) (hi : inInt64 i) :
    jsonUnmarshalInt64 (String.mk (intDigits i)) = .ok i := by
  unfold jsonUnmarshalInt64
  simp only []
  rw [trimSpace_of_all _ (intDigits_no_space i), if_neg (intDigits_ne_null i),
    readIntLiteral_intDigits]
  simp only [if_pos hi]

/-! ## The codec -/

/-- C2: encoding a model with datatype "datetime" and value_datetime
"2024-01-01T00:00:00Z" gives a json_property envelope whose value is the 22
characters quote, 2024-01-01T00:00:00Z, quote; decoding that envelope (with an
id) with applicationId 7 and datasourceId 3 succeeds and yields datatype
"datetime", that value_datetime, application_id 7 and datasource_id 3. -/
theorem datetime_example (m r : CheckJsonPropertyModel) (id : Int) :
    ∃ env, ({ m with DataType := .known "datetime"
                     ValueDateTime := .known "2024-01-01T00:00:00Z" } :
              CheckJsonPropertyModel).createRequest = some env ∧
      env.kind = some "json_property" ∧
      env.value = "\"2024-01-01T00:00:00Z\"" ∧
      env.value.length = 22 ∧
      ∃ m1, r.fromRemote { env with id := some id } 7 3 = .ret m1 none ∧
        m1.DataType = .known "datetime" ∧
        m1.ValueDateTime = .known "2024-01-01T00:00:00Z" ∧
        m1.ApplicationID = .known 7 ∧ m1.DataSourceID = .known 3 :=
  ⟨{ kind := some "json_property", label := Folge.ValueString m.Name,
     enabled := ValueBoolPointer m.Enabled, path := Folge.ValueString m.Path,
     datatype := "datetime", operator := Folge.ValueString m.Operator,
     value := "\"2024-01-01T00:00:00Z\"" },
    rfl, rfl, rfl, rfl, _, rfl, rfl, rfl, rfl, rfl⟩

/-- C4: createRequest of an http_status model returns the envelope of kind
http_status with label, enabled and status_code taken from name, enabled and
status_code, no id and no other field (no value string); the envelope does not
depend on crontab, application_id, datasource_id or id. -/
theorem createRequest_http_status (m : CheckHttpStatusModel) :
    m.createRequest = some
        { kind := some "http_status", id := none, label := Folge.ValueString m.Name,
          enabled := ValueBoolPointer m.Enabled, status_code := ValueInt64 m.StatusCode,
          path := "", datatype := "", operator := "", value := "" } ∧
      ∀ (crontab : TfValue String) (applicationId datasourceId id : TfValue Int),
        ({ m with Crontab := crontab, ApplicationID := applicationId,
                  DataSourceID := datasourceId, ID := id } :
            CheckHttpStatusModel).createRequest = m.createRequest :=
  ⟨rfl, fun _ _ _ _ => rfl⟩

/-- C6: for an envelope of kind http_status that carries an id, fromRemote
returns no error and sets ID, Name, Enabled (null when absent), StatusCode,
ApplicationID and DataSourceID from the id, label, enabled, status_code and the
two caller-supplied identifiers. -/
theorem fromRemote_http_status (r : CheckHttpStatusModel) (i : Check)
    (id applicationId datasourceId : Int)
    (hk : i.kind = some "http_status") (hid : i.id = some id) :
    ∃ m1, r.fromRemote i applicationId datasourceId = .ret m1 none ∧
      m1.ID = .known id ∧ m1.Name = .known i.label ∧
      (i.enabled = none → m1.Enabled = .null) ∧
      (∀ b, i.enabled = some b → m1.Enabled = .known b) ∧
      m1.StatusCode = .known i.status_code ∧
      m1.ApplicationID = .known applicationId ∧ m1.DataSourceID = .known datasourceId := by
  refine ⟨{ r with ID := .known id, Name := .known i.label,
                   ApplicationID := .known applicationId,
                   DataSourceID := .known datasourceId,
                   Enabled := BoolPointerValue i.enabled,
                   StatusCode := .known i.status_code }, ?_, rfl, rfl, ?_, ?_, rfl, rfl, rfl⟩
  · simp [CheckHttpStatusModel.fromRemote, Check.ValueByDiscriminator, hk, KindHttpStatus,
      Check.AsHttpStatusCheckTyped, hid, Int64Value, StringValue]
  · intro h; simp [h, BoolPointerValue]
  · intro b h; simp [h, BoolPointerValue]

theorem fromRemote_http_status_witness :
    ∃ m1, ({} : CheckHttpStatusModel).fromRemote
        { kind := some "http_status", id := some 5, label := "up", status_code := 200 } 7 3
        = .ret m1 none ∧ m1.ID = .known 5 ∧ m1.StatusCode = .known 200 := by
  obtain ⟨m1, h, h1, _, _, _, h5, _⟩ := fromRemote_http_status {}
    { kind := some "http_status", id := some 5, label := "up", status_code := 200 } 5 7 3
    rfl rfl
  exact ⟨m1, h, h1, h5⟩

/-- The envelope that createRequest returns, written out. -/
theorem createRequest_eq (m : CheckJsonPropertyModel) :
    m.createRequest = some
      { kind := some "json_property", id := none, label := Folge.ValueString m.Name,
        enabled := ValueBoolPointer m.Enabled, status_code := 0,
        path := Folge.ValueString m.Path, datatype := Folge.ValueString m.DataType,
        operator := Folge.ValueString m.Operator,
        value :=
          if Folge.ValueString m.DataType = "bool" then
            (if ValueBool m.ValueBoolean then "true" else "false")
          else if Folge.ValueString m.DataType = "int" then
            String.mk (intDigits (ValueInt64 m.ValueInt))
          else if Folge.ValueString m.DataType = "str" then
            String.mk (dquote :: (escapeChars (Folge.ValueString m.ValueString).data ++ [dquote]))
          else if Folge.ValueString m.DataType = "datetime" then
            String.mk (dquote :: (escapeChars (Folge.ValueString m.ValueDateTime).data ++ [dquote]))
          else "" } := by
  unfold CheckJsonPropertyModel.createRequest CheckJsonPropertyModel.createData
  simp only [DatatypeBool, DatatypeInt, DatatypeStr, DatatypeDatetime, jsonMarshalBool,
    jsonMarshalInt64, jsonMarshalString, FromJsonDataCheckTyped, KindJsonProperty]
  split_ifs <;> rfl

/-- What fromRemote does with a json_property envelope that carries an id:
the switch on the datatype, written out. -/
theorem fromRemote_eq (r : CheckJsonPropertyModel) (i : Check) (id a d : Int)
    (hk : i.kind = some "json_property") (hid : i.id = some id) :
    r.fromRemote i a d =
      if i.datatype = "bool" then
        match jsonUnmarshalBool i.value with
        | .error err => .ret (r.copyFields i.AsJsonDataCheckTyped id a d)
            (some (.errorfJson "Invalid bool value: %s" err))
        | .ok dst => .ret { r.copyFields i.AsJsonDataCheckTyped id a d with
            ValueBoolean := .known dst } none
      else if i.datatype = "int" then
        match jsonUnmarshalInt64 i.value with
        | .error err => .ret (r.copyFields i.AsJsonDataCheckTyped id a d)
            (some (.errorfJson "Invalid int value: %s" err))
        | .ok dst => .ret { r.copyFields i.AsJsonDataCheckTyped id a d with
            ValueInt := .known dst } none
      else if i.datatype = "str" then
        match jsonUnmarshalString i.value with
        | .error err => .ret (r.copyFields i.AsJsonDataCheckTyped id a d)
            (some (.errorfJson "Invalid datetime value: %s" err))
        | .ok dst => .ret { r.copyFields i.AsJsonDataCheckTyped id a d with
            ValueString := .known dst } none
      else if i.datatype = "datetime" then
        match jsonUnmarshalString i.value with
        | .error err => .ret (r.copyFields i.AsJsonDataCheckTyped id a d)
            (some (.errorfJson "Invalid datetime value: %s" err))
        | .ok dst => .ret { r.copyFields i.AsJsonDataCheckTyped id a d with
            ValueDateTime := .known dst } none
      else .ret (r.copyFields i.AsJsonDataCheckTyped id a d)
        (some (.errorfStr "unknown datatype: %s" i.datatype)) := by
  have hne : (some "json_property" : Option String) ≠ some KindHttpStatus := by decide
  unfold CheckJsonPropertyModel.fromRemote Check.ValueByDiscriminator
  rw [hk, if_neg hne, if_pos (by rfl)]
  simp only [Check.AsJsonDataCheckTyped, hid, DatatypeBool, DatatypeInt, DatatypeStr,
    DatatypeDatetime, BoolValue, Int64Value, StringValue]

theorem datatype_literals_ne : ("bool" : String) ≠ "int" ∧ ("bool" : String) ≠ "str" ∧
    ("bool" : String) ≠ "datetime" ∧ ("int" : String) ≠ "str" ∧
    ("int" : String) ≠ "datetime" ∧ ("str" : String) ≠ "datetime" := by decide

/-- C3: createRequest returns an envelope of kind json_property with label,
enabled, path, datatype and operator taken from the model, and, when the
datatype is bool, int, str or datetime, with the value string the JSON text of
the one slot the datatype selects ("true" or "false", the decimal numeral, the
quoted and escaped string); the three other slots do not influence it. -/
theorem createRequest_json_property (m : CheckJsonPropertyModel) :
    ∃ env, m.createRequest = some env ∧
      env.kind = some "json_property" ∧
      env.label = Folge.ValueString m.Name ∧
      env.enabled = ValueBoolPointer m.Enabled ∧
      env.path = Folge.ValueString m.Path ∧
      env.datatype = Folge.ValueString m.DataType ∧
      env.operator = Folge.ValueString m.Operator ∧
      (Folge.ValueString m.DataType = "bool" →
        env.value = (if ValueBool m.ValueBoolean then "true" else "false") ∧
        ∀ vi vs vd, ({ m with ValueInt := vi, ValueString := vs, ValueDateTime := vd } :
          CheckJsonPropertyModel).createRequest = some env) ∧
      (Folge.ValueString m.DataType = "int" →
        env.value = String.mk (intDigits (ValueInt64 m.ValueInt)) ∧
        ∀ vb vs vd, ({ m with ValueBoolean := vb, ValueString := vs, ValueDateTime := vd } :
          CheckJsonPropertyModel).createRequest = some env) ∧
      (Folge.ValueString m.DataType = "str" →
        env.value = String.mk
          (dquote :: (escapeChars (Folge.ValueString m.ValueString).data ++ [dquote])) ∧
        ∀ vb vi vd, ({ m with ValueBoolean := vb, ValueInt := vi, ValueDateTime := vd } :
          CheckJsonPropertyModel).createRequest = some env) ∧
      (Folge.ValueString m.DataType = "datetime" →
        env.value = String.mk
          (dquote :: (escapeChars (Folge.ValueString m.ValueDateTime).data ++ [dquote])) ∧
        ∀ vb vi vs, ({ m with ValueBoolean := vb, ValueInt := vi, ValueString := vs } :
          CheckJsonPropertyModel).createRequest = some env) := by
  have hne : ("bool" : String) ≠ "int" ∧ ("bool" : String) ≠ "str" ∧
      ("bool" : String) ≠ "datetime" ∧ ("int" : String) ≠ "str" ∧
      ("int" : String) ≠ "datetime" ∧ ("str" : String) ≠ "datetime" := by decide
  obtain ⟨n1, n2, n3, n4, n5, n6⟩ := hne
  refine ⟨_, createRequest_eq m, rfl, rfl, rfl, rfl, rfl, rfl, ?_, ?_, ?_, ?_⟩
  · intro h
    refine ⟨by simp only [h, if_true], fun vi vs vd => ?_⟩
    rw [createRequest_eq]
    simp only [h, if_true]
  · intro h
    refine ⟨by simp only [h, if_true, if_neg n1.symm], fun vb vs vd => ?_⟩
    rw [createRequest_eq]
    simp only [h, if_true, if_neg n1.symm]
  · intro h
    refine ⟨by simp only [h, if_true, if_neg n2.symm, if_neg n4.symm], fun vb vi vd => ?_⟩
    rw [createRequest_eq]
    simp only [h, if_true, if_neg n2.symm, if_neg n4.symm]
  · intro h
    refine ⟨by simp only [h, if_true, if_neg n3.symm, if_neg n5.symm, if_neg n6.symm],
      fun vb vi vs => ?_⟩
    rw [createRequest_eq]
    simp only [h, if_true, if_neg n3.symm, if_neg n5.symm, if_neg n6.symm]

theorem createRequest_json_property_witness :
    ∃ env, ({ Name := .known "n", DataType := .known "int", ValueInt := .known (-12),
              ValueString := .known "x" } : CheckJsonPropertyModel).createRequest = some env ∧
      env.kind = some "json_property" ∧ env.label = "n" ∧ env.datatype = "int" ∧
      env.value = "-12" := by
  obtain ⟨env, h, hk, hl, _, _, hdt, _, _, hint, _, _⟩ := createRequest_json_property
    { Name := .known "n", DataType := .known "int", ValueInt := .known (-12),
      ValueString := .known "x" }
  exact ⟨env, h, hk, hl, hdt, (hint rfl).1.trans (by decide)⟩

/-- C5: for an envelope of kind json_property that carries an id and whose
value parses as its declared datatype, fromRemote returns no error, sets ID,
Name, Enabled (null when absent), Path, Operator, DataType, ApplicationID and
DataSourceID from the envelope and the two identifiers, and sets the slot the
datatype selects to the parsed value. -/
theorem fromRemote_json_property (r : CheckJsonPropertyModel) (i : Check)
    (id applicationId datasourceId : Int)
    (hk : i.kind = some "json_property") (hid : i.id = some id)
    (hp : (i.datatype = "bool" ∧ ∃ b, jsonUnmarshalBool i.value = .ok b) ∨
          (i.datatype = "int" ∧ ∃ v, jsonUnmarshalInt64 i.value = .ok v) ∨
          (i.datatype = "str" ∧ ∃ t, jsonUnmarshalString i.value = .ok t) ∨
          (i.datatype = "datetime" ∧ ∃ t, jsonUnmarshalString i.value = .ok t)) :
    ∃ m1, r.fromRemote i applicationId datasourceId = .ret m1 none ∧
      m1.ID = .known id ∧ m1.Name = .known i.label ∧
      (i.enabled = none → m1.Enabled = .null) ∧
      (∀ b, i.enabled = some b → m1.Enabled = .known b) ∧
      m1.Path = .known i.path ∧ m1.Operator = .known i.operator ∧
      m1.DataType = .known i.datatype ∧
      m1.ApplicationID = .known applicationId ∧ m1.DataSourceID = .known datasourceId ∧
      (i.datatype = "bool" → ∀ b, jsonUnmarshalBool i.value = .ok b →
        m1.ValueBoolean = .known b) ∧
      (i.datatype = "int" → ∀ v, jsonUnmarshalInt64 i.value = .ok v →
        m1.ValueInt = .known v) ∧
      (i.datatype = "str" → ∀ t, jsonUnmarshalString i.value = .ok t →
        m1.ValueString = .known t) ∧
      (i.datatype = "datetime" → ∀ t, jsonUnmarshalString i.value = .ok t →
        m1.ValueDateTime = .known t) := by
  obtain ⟨n1, n2, n3, n4, n5, n6⟩ := datatype_literals_ne
  have he1 : i.enabled = none →
      BoolPointerValue i.AsJsonDataCheckTyped.Enabled = .null := by
    intro h; simp [Check.AsJsonDataCheckTyped, h, BoolPointerValue]
  have he2 : ∀ b, i.enabled = some b →
      BoolPointerValue i.AsJsonDataCheckTyped.Enabled = .known b := by
    intro b h; simp [Check.AsJsonDataCheckTyped, h, BoolPointerValue]
  rw [fromRemote_eq r i id applicationId datasourceId hk hid]
  have hx : ∀ {x y : String}, i.datatype = x → x ≠ y → i.datatype ≠ y := by
    intro x y h1 h2 h3; exact h2 (h1.symm.trans h3)
  rcases hp with ⟨h, v, hv⟩ | ⟨h, v, hv⟩ | ⟨h, v, hv⟩ | ⟨h, v, hv⟩
  · rw [if_pos h, hv]
    refine ⟨_, rfl, rfl, rfl, he1, he2, rfl, rfl, rfl, rfl, rfl, ?_, ?_, ?_, ?_⟩
    · intro _ b hb; cases hb; rfl
    · intro hh; exact absurd hh (hx h n1)
    · intro hh; exact absurd hh (hx h n2)
    · intro hh; exact absurd hh (hx h n3)
  · rw [if_neg (hx h n1.symm), if_pos h, hv]
    refine ⟨_, rfl, rfl, rfl, he1, he2, rfl, rfl, rfl, rfl, rfl, ?_, ?_, ?_, ?_⟩
    · intro hh; exact absurd hh (hx h n1.symm)
    · intro _ b hb; cases hb; rfl
    · intro hh; exact absurd hh (hx h n4)
    · intro hh; exact absurd hh (hx h n5)
  · rw [if_neg (hx h n2.symm), if_neg (hx h n4.symm), if_pos h, hv]
    refine ⟨_, rfl, rfl, rfl, he1, he2, rfl, rfl, rfl, rfl, rfl, ?_, ?_, ?_, ?_⟩
    · intro hh; exact absurd hh (hx h n2.symm)
    · intro hh; exact absurd hh (hx h n4.symm)
    · intro _ b hb; cases hb; rfl
    · intro hh; exact absurd hh (hx h n6)
  · rw [if_neg (hx h n3.symm), if_neg (hx h n5.symm), if_neg (hx h n6.symm), if_pos h, hv]
    refine ⟨_, rfl, rfl, rfl, he1, he2, rfl, rfl, rfl, rfl, rfl, ?_, ?_, ?_, ?_⟩
    · intro hh; exact absurd hh (hx h n3.symm)
    · intro hh; exact absurd hh (hx h n5.symm)
    · intro hh; exact absurd hh (hx h n6.symm)
    · intro _ b hb; cases hb; rfl

theorem fromRemote_json_property_witness :
    ∃ m1, ({} : CheckJsonPropertyModel).fromRemote
        { kind := some "json_property", id := some 5, label := "n", path := "/a",
          datatype := "int", operator := "eq", value := "42" } 7 3 = .ret m1 none ∧
      m1.ID = .known 5 ∧ m1.Name = .known "n" ∧ m1.Enabled = .null ∧
      m1.ValueInt = .known 42 := by
  obtain ⟨m1, h, h1, h2, h3, _, _, _, _, _, _, _, h4, _⟩ := fromRemote_json_property {}
    { kind := some "json_property", id := some 5, label := "n", path := "/a",
      datatype := "int", operator := "eq", value := "42" } 5 7 3 rfl rfl
    (Or.inr (Or.inl ⟨rfl, 42, by decide⟩))
  exact ⟨m1, h, h1, h2, h3 rfl, h4 rfl 42 (by decide)⟩

theorem fromRemote_no_id (r : CheckJsonPropertyModel) (i : Check) (a d : Int)
    (hk : i.kind = some "json_property") (hid : i.id = none) :
    r.fromRemote i a d = .panic := by
  have hne : (some "json_property" : Option String) ≠ some KindHttpStatus := by decide
  unfold CheckJsonPropertyModel.fromRemote Check.ValueByDiscriminator
  rw [hk, if_neg hne, if_pos (by rfl)]
  simp only [Check.AsJsonDataCheckTyped, hid]

theorem text_head (pre x : String) (c : Char) (cs : List Char) (h : pre.data = c :: cs) :
    (pre ++ x).data.head? = some c := by
  rw [String.data_append, h]
  rfl

/-- C8: decoding a json_property envelope whose datatype is "int" and whose
value is the quoted JSON string "not-a-number" fails with the error built from
the format "Invalid int value: %s", whose text starts "Invalid int value: ";
value_int keeps the value it had before the call. -/
theorem fromRemote_not_a_number (r : CheckJsonPropertyModel) (i : Check)
    (id applicationId datasourceId : Int)
    (hk : i.kind = some "json_property") (hid : i.id = some id)
    (hdt : i.datatype = "int") (hv : i.value = "\"not-a-number\"") :
    ∃ m1 err, r.fromRemote i applicationId datasourceId
        = .ret m1 (some (.errorfJson "Invalid int value: %s" err)) ∧
      m1.ValueInt = r.ValueInt ∧
      ∀ jsonText, (GoError.errorfJson "Invalid int value: %s" err).Error jsonText
        = "Invalid int value: " ++ jsonText err := by
  obtain ⟨n1, _⟩ := datatype_literals_ne
  have hu : jsonUnmarshalInt64 i.value = .error ⟨"\"not-a-number\"", "int64"⟩ := by
    rw [hv]; decide
  rw [fromRemote_eq r i id applicationId datasourceId hk hid,
    if_neg (by rw [hdt]; exact n1.symm), if_pos hdt, hu]
  exact ⟨_, _, rfl, rfl, fun _ => rfl⟩

theorem fromRemote_not_a_number_witness :
    ∃ m1 err, ({ ValueInt := .known 9 } : CheckJsonPropertyModel).fromRemote
        { kind := some "json_property", id := some 1, datatype := "int",
          value := "\"not-a-number\"" } 7 3
        = .ret m1 (some (.errorfJson "Invalid int value: %s" err)) ∧
      m1.ValueInt = .known 9 := by
  obtain ⟨m1, err, h, h1, _⟩ := fromRemote_not_a_number { ValueInt := .known 9 }
    { kind := some "json_property", id := some 1, datatype := "int",
      value := "\"not-a-number\"" } 1 7 3 rfl rfl rfl rfl
  exact ⟨m1, err, h, h1⟩

/-- C9, at a failing input: a json_property envelope with datatype "str" whose
value 1 is not a JSON string is rejected with the error built from the format
"Invalid datetime value: %s", the format of the datetime slot, not one that
names the string slot. -/
theorem fromRemote_str_failure_names_datetime :
    ({} : CheckJsonPropertyModel).fromRemote
        { kind := some "json_property", id := some 1, datatype := "str", value := "1" } 7 3
      = .ret { ID := .known 1, ApplicationID := .known 7, DataSourceID := .known 3,
               Name := .known "", Operator := .known "", Path := .known "",
               DataType := .known "str" }
          (some (.errorfJson "Invalid datetime value: %s" ⟨"1", "string"⟩)) ∧
      ∀ jsonText, (GoError.errorfJson "Invalid datetime value: %s" ⟨"1", "string"⟩).Error jsonText
        = "Invalid datetime value: " ++ jsonText ⟨"1", "string"⟩ :=
  ⟨by decide, fun _ => rfl⟩

/-- C10: for a json_property envelope with an id whose datatype is not bool,
int, str or datetime, fromRemote returns the error built from the format
"unknown datatype: %s" and the datatype, whatever the value string is; its text
is "unknown datatype: " followed by the datatype, and it differs, as a value and
as a text, from every error that fromRemote returns for an envelope whose
datatype is one of the four. -/
theorem fromRemote_unknown_datatype (r : CheckJsonPropertyModel) (i : Check)
    (id applicationId datasourceId : Int)
    (hk : i.kind = some "json_property") (hid : i.id = some id)
    (hdt : i.datatype ∉ ["bool", "int", "str", "datetime"]) :
    (∃ m1, r.fromRemote i applicationId datasourceId
        = .ret m1 (some (.errorfStr "unknown datatype: %s" i.datatype))) ∧
      (∀ jsonText, (GoError.errorfStr "unknown datatype: %s" i.datatype).Error jsonText
        = "unknown datatype: " ++ i.datatype) ∧
      ∀ (r2 : CheckJsonPropertyModel) (i2 : Check) (a2 d2 : Int)
        (m2 : CheckJsonPropertyModel) (e2 : GoError),
        i2.kind = some "json_property" →
        i2.datatype ∈ ["bool", "int", "str", "datetime"] →
        r2.fromRemote i2 a2 d2 = .ret m2 (some e2) →
        e2 ≠ .errorfStr "unknown datatype: %s" i.datatype ∧
        ∀ jsonText, e2.Error jsonText
          ≠ (GoError.errorfStr "unknown datatype: %s" i.datatype).Error jsonText := by
  simp only [List.mem_cons, List.mem_singleton, List.not_mem_nil, or_false, not_or] at hdt
  obtain ⟨h1, h2, h3, h4⟩ := hdt
  refine ⟨⟨r.copyFields i.AsJsonDataCheckTyped id applicationId datasourceId, ?_⟩,
    fun _ => rfl, ?_⟩
  · rw [fromRemote_eq r i id applicationId datasourceId hk hid,
      if_neg h1, if_neg h2, if_neg h3, if_neg h4]
  · intro r2 i2 a2 d2 m2 e2 hk2 hd2 hret
    have hu : ∀ jsonText, ((GoError.errorfStr "unknown datatype: %s" i.datatype).Error
        jsonText).data.head? = some (Char.ofNat 117) :=
      fun _ => text_head "unknown datatype: " _ _ _ rfl
    have key : ∃ f err, e2 = .errorfJson f err ∧
        ∀ jsonText, ((GoError.errorfJson f err).Error jsonText).data.head?
          = some (Char.ofNat 73) := by
      obtain ⟨n1, n2, n3, n4, n5, n6⟩ := datatype_literals_ne
      cases hid2 : i2.id with
      | none =>
        rw [fromRemote_no_id r2 i2 a2 d2 hk2 hid2] at hret
        cases hret
      | some id2 =>
        rw [fromRemote_eq r2 i2 id2 a2 d2 hk2 hid2] at hret
        simp only [List.mem_cons, List.mem_singleton, List.not_mem_nil, or_false] at hd2
        rcases hd2 with h | h | h | h
        · rw [if_pos h] at hret
          cases hb : jsonUnmarshalBool i2.value with
          | error err =>
            rw [hb] at hret
            cases hret
            exact ⟨_, _, rfl, fun _ => text_head "Invalid bool value: " _ _ _ rfl⟩
          | ok v => rw [hb] at hret; cases hret
        · rw [if_neg (by rw [h]; exact n1.symm), if_pos h] at hret
          cases hb : jsonUnmarshalInt64 i2.value with
          | error err =>
            rw [hb] at hret
            cases hret
            exact ⟨_, _, rfl, fun _ => text_head "Invalid int value: " _ _ _ rfl⟩
          | ok v => rw [hb] at hret; cases hret
        · rw [if_neg (by rw [h]; exact n2.symm), if_neg (by rw [h]; exact n4.symm),
            if_pos h] at hret
          cases hb : jsonUnmarshalString i2.value with
          | error err =>
            rw [hb] at hret
            cases hret
            exact ⟨_, _, rfl, fun _ => text_head "Invalid datetime value: " _ _ _ rfl⟩
          | ok v => rw [hb] at hret; cases hret
        · rw [if_neg (by rw [h]; exact n3.symm), if_neg (by rw [h]; exact n5.symm),
            if_neg (by rw [h]; exact n6.symm), if_pos h] at hret
          cases hb : jsonUnmarshalString i2.value with
          | error err =>
            rw [hb] at hret
            cases hret
            exact ⟨_, _, rfl, fun _ => text_head "Invalid datetime value: " _ _ _ rfl⟩
          | ok v => rw [hb] at hret; cases hret
    obtain ⟨f, err, he, ht⟩ := key
    subst he
    refine ⟨fun h => (by cases h), fun jsonText h => ?_⟩
    have h5 := ht jsonText
    rw [h, hu jsonText] at h5
    exact absurd h5 (by decide)

theorem fromRemote_unknown_datatype_witness :
    ∃ m1, ({} : CheckJsonPropertyModel).fromRemote
        { kind := some "json_property", id := some 1, datatype := "bogus", value := "true" } 7 3
      = .ret m1 (some (.errorfStr "unknown datatype: %s" "bogus")) :=
  (fromRemote_unknown_datatype {}
    { kind := some "json_property", id := some 1, datatype := "bogus", value := "true" }
    1 7 3 rfl rfl (by decide)).1

theorem BoolPointerValue_ValueBoolPointer (v : TfValue Bool) (h : v ≠ .unknown) :
    BoolPointerValue (ValueBoolPointer v) = v := by
  cases v with
  | null => rfl
  | unknown => exact absurd rfl h
  | known b => rfl

theorem known_of_isKnown_string (v : TfValue String) (h : v.isKnown = true) :
    TfValue.known (Folge.ValueString v) = v := by
  cases v <;> first | rfl | cases h

theorem known_of_isKnown_int (v : TfValue Int) (h : v.isKnown = true) :
    TfValue.known (ValueInt64 v) = v := by
  cases v <;> first | rfl | cases h

/-- C1, counterexample: the model `nullPathModel` meets the stated conditions
(datatype bool, value_bool holds a value, the other three slots null, name not
null), and decoding its envelope with an id and its own identifiers into a
fresh model succeeds, but the decoded path is the known empty string, not the
null path of the model. -/
theorem round_trip_fails_on_null_path :
    nullPathModel.DataType = .known "bool" ∧ nullPathModel.ValueBoolean = .known true ∧
      nullPathModel.ValueInt = .null ∧ nullPathModel.ValueString = .null ∧
      nullPathModel.ValueDateTime = .null ∧ nullPathModel.Name ≠ .null ∧
      ∃ env m1, nullPathModel.createRequest = some env ∧
        ({} : CheckJsonPropertyModel).fromRemote { env with id := some 1 }
          (AsInt nullPathModel.ApplicationID) (AsInt nullPathModel.DataSourceID)
          = .ret m1 none ∧
        m1.Path = .known "" ∧ nullPathModel.Path = .null ∧ m1.Path ≠ nullPathModel.Path :=
  ⟨rfl, rfl, rfl, rfl, rfl, by decide,
    { kind := some "json_property", label := "n", enabled := some true, datatype := "bool",
      operator := "eq", value := "true" },
    { ID := .known 1, ApplicationID := .known 7, DataSourceID := .known 3, Name := .known "n",
      Enabled := .known true, Path := .known "", DataType := .known "bool",
      Operator := .known "eq", ValueBoolean := .known true },
    by decide, by decide, rfl, rfl, by decide⟩

/-- C1, amended: for a model whose name, path, operator, application_id and
datasource_id are known, whose enabled is not unknown, and whose datatype is
bool, int, str or datetime with the matching slot holding a known value (an
int64 for int) and the other three slots null, createRequest returns an
envelope, and decoding that envelope with an id, by fromRemote with the
model's own application_id and datasource_id into a receiver each of whose
value slots is null or equal to the model's (a fresh model, or the model
itself), returns no error and yields name, enabled, path, datatype, operator,
application_id, datasource_id and the four value slots equal to those of the
model. -/
theorem round_trip (m r : CheckJsonPropertyModel) (id : Int)
    (hname : m.Name.isKnown = true) (hpath : m.Path.isKnown = true)
    (hop : m.Operator.isKnown = true) (hen : m.Enabled ≠ .unknown)
    (happ : m.ApplicationID.isKnown = true) (hds : m.DataSourceID.isKnown = true)
    (hslot :
      (m.DataType = .known "bool" ∧ m.ValueBoolean.isKnown = true ∧ m.ValueInt = .null ∧
        m.ValueString = .null ∧ m.ValueDateTime = .null) ∨
      (m.DataType = .known "int" ∧ m.ValueBoolean = .null ∧
        (∃ v, m.ValueInt = .known v ∧ inInt64 v) ∧
        m.ValueString = .null ∧ m.ValueDateTime = .null) ∨
      (m.DataType = .known "str" ∧ m.ValueBoolean = .null ∧ m.ValueInt = .null ∧
        m.ValueString.isKnown = true ∧ m.ValueDateTime = .null) ∨
      (m.DataType = .known "datetime" ∧ m.ValueBoolean = .null ∧ m.ValueInt = .null ∧
        m.ValueString = .null ∧ m.ValueDateTime.isKnown = true))
    (hr : (r.ValueBoolean = .null ∨ r.ValueBoolean = m.ValueBoolean) ∧
      (r.ValueInt = .null ∨ r.ValueInt = m.ValueInt) ∧
      (r.ValueString = .null ∨ r.ValueString = m.ValueString) ∧
      (r.ValueDateTime = .null ∨ r.ValueDateTime = m.ValueDateTime)) :
    ∃ env, m.createRequest = some env ∧
      ∃ m1, r.fromRemote { env with id := some id }
          (AsInt m.ApplicationID) (AsInt m.DataSourceID) = .ret m1 none ∧
        m1.Name = m.Name ∧ m1.Enabled = m.Enabled ∧ m1.Path = m.Path ∧
        m1.DataType = m.DataType ∧ m1.Operator = m.Operator ∧
        m1.ApplicationID = m.ApplicationID ∧ m1.DataSourceID = m.DataSourceID ∧
        m1.ValueBoolean = m.ValueBoolean ∧ m1.ValueInt = m.ValueInt ∧
        m1.ValueString = m.ValueString ∧ m1.ValueDateTime = m.ValueDateTime := by
  obtain ⟨n1, n2, n3, n4, n5, n6⟩ := datatype_literals_ne
  have r1 : m.ValueBoolean = .null → r.ValueBoolean = m.ValueBoolean := fun h => by
    rcases hr.1 with h2 | h2
    · rw [h2, h]
    · exact h2
  have r2 : m.ValueInt = .null → r.ValueInt = m.ValueInt := fun h => by
    rcases hr.2.1 with h2 | h2
    · rw [h2, h]
    · exact h2
  have r3 : m.ValueString = .null → r.ValueString = m.ValueString := fun h => by
    rcases hr.2.2.1 with h2 | h2
    · rw [h2, h]
    · exact h2
  have r4 : m.ValueDateTime = .null → r.ValueDateTime = m.ValueDateTime := fun h => by
    rcases hr.2.2.2 with h2 | h2
    · rw [h2, h]
    · exact h2
  have e1 := known_of_isKnown_string m.Name hname
  have e2 := known_of_isKnown_string m.Path hpath
  have e3 := known_of_isKnown_string m.Operator hop
  have e4 := BoolPointerValue_ValueBoolPointer m.Enabled hen
  have e5 := known_of_isKnown_int m.ApplicationID happ
  have e6 := known_of_isKnown_int m.DataSourceID hds
  refine ⟨_, createRequest_eq m, ?_⟩
  rw [fromRemote_eq r _ id _ _ rfl rfl]
  rcases hslot with ⟨hd, hv, s1, s2, s3⟩ | ⟨hd, s1, ⟨v, hv, hrange⟩, s2, s3⟩ |
    ⟨hd, s1, s2, hv, s3⟩ | ⟨hd, s1, s2, s3, hv⟩
  · have hdt : Folge.ValueString m.DataType = "bool" := by rw [hd]; rfl
    simp only [hdt, if_true, unmarshal_marshal_bool]
    refine ⟨_, rfl, e1, e4, e2, ?_, e3, e5, e6, ?_, ?_, ?_, ?_⟩
    · rw [hd]; rfl
    · cases hb : m.ValueBoolean <;> rw [hb] at hv <;> first | rfl | cases hv
    · exact r2 s1
    · exact r3 s2
    · exact r4 s3
  · have hdt : Folge.ValueString m.DataType = "int" := by rw [hd]; rfl
    have hval : ValueInt64 m.ValueInt = v := by rw [hv]; rfl
    simp only [hdt, if_true, if_neg n1.symm, hval, unmarshal_marshal_int64 v hrange]
    refine ⟨_, rfl, e1, e4, e2, ?_, e3, e5, e6, ?_, ?_, ?_, ?_⟩
    · rw [hd]; rfl
    · exact r1 s1
    · rw [hv]
    · exact r3 s2
    · exact r4 s3
  · have hdt : Folge.ValueString m.DataType = "str" := by rw [hd]; rfl
    simp only [hdt, if_true, if_neg n2.symm, if_neg n4.symm, unmarshal_marshal_string]
    refine ⟨_, rfl, e1, e4, e2, ?_, e3, e5, e6, ?_, ?_, ?_, ?_⟩
    · rw [hd]; rfl
    · exact r1 s1
    · exact r2 s2
    · exact known_of_isKnown_string m.ValueString hv
    · exact r4 s3
  · have hdt : Folge.ValueString m.DataType = "datetime" := by rw [hd]; rfl
    simp only [hdt, if_true, if_neg n3.symm, if_neg n5.symm, if_neg n6.symm,
      unmarshal_marshal_string]
    refine ⟨_, rfl, e1, e4, e2, ?_, e3, e5, e6, ?_, ?_, ?_, ?_⟩
    · rw [hd]; rfl
    · exact r1 s1
    · exact r2 s2
    · exact r3 s3
    · exact known_of_isKnown_string m.ValueDateTime hv

theorem round_trip_witness :
    ∃ env, ({ ApplicationID := .known 7, DataSourceID := .known 3, Name := .known "n",
              Path := .known "/a", DataType := .known "str", Operator := .known "eq",
              ValueString := .known "a<b" } : CheckJsonPropertyModel).createRequest
          = some env ∧
      ∃ m1, ({} : CheckJsonPropertyModel).fromRemote { env with id := some 5 } 7 3
          = .ret m1 none ∧
        m1.Path = .known "/a" ∧ m1.ValueString = .known "a<b" := by
  obtain ⟨env, h, m1, h2, _, _, h3, _, _, _, _, _, _, h4, _⟩ := round_trip
    { ApplicationID := .known 7, DataSourceID := .known 3, Name := .known "n",
      Path := .known "/a", DataType := .known "str", Operator := .known "eq",
      ValueString := .known "a<b" } {} 5 rfl rfl rfl (by decide) rfl rfl
    (Or.inr (Or.inr (Or.inl ⟨rfl, rfl, rfl, rfl, rfl⟩)))
    ⟨Or.inl rfl, Or.inl rfl, Or.inl rfl, Or.inl rfl⟩
  exact ⟨env, h, m1, h2, h3, h4⟩

/-! ## The decoder against the grammar of JSON literals -/

theorem readDigits_le (cs : List Char) : ∀ acc n, readDigits acc cs = some n → acc ≤ n := by
  induction cs with
  | nil => intro acc n h; simp [readDigits] at h; omega
  | cons c cs ih =>
    intro acc n h
    simp only [readDigits] at h
    split at h
    · have := ih _ _ h; omega
    · cases h

theorem readDigits_snoc (init : List Char) (c : Char) (n : Nat)
    (h : readDigits 0 (init ++ [c]) = some n) :
    ∃ k, readDigits 0 init = some k ∧ 48 ≤ c.toNat ∧ c.toNat ≤ 57 ∧
      n = k * 10 + (c.toNat - 48) := by
  rw [readDigits_append] at h
  cases hk : readDigits 0 init with
  | none => rw [hk] at h; cases h
  | some k =>
    rw [hk] at h
    simp only [Option.some_bind, readDigits] at h
    split at h
    · rename_i hc
      exact ⟨k, rfl, hc.1, hc.2, by cases h; rfl⟩
    · cases h

/-- A run of digits without a leading zero is the numeral of its value. -/
theorem readDigits_canonical (t : List Char) : ∀ n, t ≠ [] →
    (∀ c cs, t = c :: cs → c.toNat = 48 → cs = []) →
    readDigits 0 t = some n → t = natDigits n := by
  induction t using List.reverseRecOn with
  | nil => intro n h; exact absurd rfl h
  | append_singleton init c ih =>
    intro n _ hz h
    obtain ⟨k, hk, c1, c2, hn⟩ := readDigits_snoc init c n h
    have hc : Char.ofNat (48 + (c.toNat - 48)) = c := by
      rw [show 48 + (c.toNat - 48) = c.toNat by omega, Char.ofNat_toNat]
    cases init with
    | nil =>
      simp only [readDigits] at hk
      cases hk
      rw [natDigits_small n (by omega), hn]
      simp only [Nat.zero_mul, Nat.zero_add, List.nil_append]
      rw [hc]
    | cons c0 rest =>
      have hc0 : c0.toNat ≠ 48 := by
        intro h0
        have := hz c0 (rest ++ [c]) rfl h0
        simp at this
      have hinit := ih k (by simp) (fun c' cs' e h0 => by
        cases e; exact absurd h0 hc0) hk
      have hk1 : 1 ≤ k := by
        simp only [readDigits] at hk
        split at hk
        · rename_i hd
          have := readDigits_le _ _ _ hk
          omega
        · cases hk
      rw [natDigits_large n (by omega)]
      have e1 : n / 10 = k := by omega
      have e2 : n % 10 = c.toNat - 48 := by omega
      rw [e1, e2, hc, ← hinit]

theorem readNatLiteral_canonical (t : List Char) (n : Nat)
    (h : readNatLiteral t = some n) : t = natDigits n := by
  cases t with
  | nil => cases h
  | cons c cs =>
    simp only [readNatLiteral] at h
    split at h
    · cases h
    · rename_i hc
      refine readDigits_canonical _ n (by simp) (fun c' cs' e h0 => ?_) h
      cases e
      by_contra hne
      exact hc ⟨h0, hne⟩

theorem readIntLiteral_spec (t : List Char) :
    (∃ v, readIntLiteral t = some v ∧ inInt64 v) ↔ SpecJsonInt64 t := by
  constructor
  · rintro ⟨v, hv, hr⟩
    cases t with
    | nil => cases hv
    | cons c cs =>
      simp only [readIntLiteral] at hv
      split at hv
      · rename_i hc
        cases hn : readNatLiteral cs with
        | none => rw [hn] at hv; cases hv
        | some n =>
          rw [hn] at hv
          cases hv
          refine ⟨n, Or.inr ⟨?_, hr⟩⟩
          rw [readNatLiteral_canonical cs n hn, ← hc, Char.ofNat_toNat]
      · cases hn : readNatLiteral (c :: cs) with
        | none => rw [hn] at hv; cases hv
        | some n =>
          rw [hn] at hv
          cases hv
          exact ⟨n, Or.inl ⟨readNatLiteral_canonical _ n hn, hr⟩⟩
  · rintro ⟨n, ⟨rfl, hr⟩ | ⟨rfl, hr⟩⟩
    · exact ⟨Int.ofNat n, readIntLiteral_intDigits (Int.ofNat n), hr⟩
    · refine ⟨-(Int.ofNat n), ?_, hr⟩
      simp only [readIntLiteral]
      rw [if_pos (by rfl), readNatLiteral_natDigits]
      rfl

theorem hexVal_spec (c : Char) : (∃ v, hexVal c = some v) ↔ SpecHexDigit c := by
  unfold hexVal SpecHexDigit
  simp only []
  constructor
  · rintro ⟨v, hv⟩
    split at hv
    · rename_i h; exact Or.inl h
    · split at hv
      · rename_i h; exact Or.inr (Or.inl h)
      · split at hv
        · rename_i h; exact Or.inr (Or.inr h)
        · cases hv
  · rintro (h | h | h)
    · exact ⟨_, if_pos h⟩
    · rw [if_neg (by omega), if_pos h]; exact ⟨_, rfl⟩
    · rw [if_neg (by omega), if_neg (by omega), if_pos h]; exact ⟨_, rfl⟩

theorem hex4_spec (a b c d : Char) : (∃ r, hex4 a b c d = some r) ↔
    SpecHexDigit a ∧ SpecHexDigit b ∧ SpecHexDigit c ∧ SpecHexDigit d := by
  rw [← hexVal_spec, ← hexVal_spec, ← hexVal_spec, ← hexVal_spec]
  unfold hex4
  constructor
  · rintro ⟨r, hr⟩
    split at hr
    · rename_i h1 h2 h3 h4
      exact ⟨⟨_, h1⟩, ⟨_, h2⟩, ⟨_, h3⟩, ⟨_, h4⟩⟩
    · cases hr
  · rintro ⟨⟨x, hx⟩, ⟨y, hy⟩, ⟨z, hz⟩, ⟨w, hw⟩⟩
    rw [hx, hy, hz, hw]
    exact ⟨_, rfl⟩

theorem simpleEscape_spec (e : Char) : (∃ ch, simpleEscape e = some ch) ↔
    e.toNat ∈ [34, 92, 47, 98, 102, 110, 114, 116] := by
  unfold simpleEscape
  simp only [List.mem_cons, List.mem_singleton, List.not_mem_nil, or_false]
  constructor
  · rintro ⟨ch, h⟩
    by_contra hn
    simp only [not_or] at hn
    obtain ⟨a1, a2, a3, a4, a5, a6, a7, a8⟩ := hn
    rw [if_neg (by omega), if_neg a4, if_neg a5, if_neg a6, if_neg a7, if_neg a8] at h
    cases h
  · intro h
    split_ifs <;> first | exact ⟨_, rfl⟩ | omega

theorem peekU4_shape (l : List Char) (r : Nat) (h : peekU4 l = some r) :
    ∃ g1 g2 g3 g4 tail, l = bslash :: Char.ofNat 117 :: g1 :: g2 :: g3 :: g4 :: tail ∧
      hex4 g1 g2 g3 g4 = some r := by
  unfold peekU4 at h
  split at h
  · rename_i b u g1 g2 g3 g4 tail
    split at h
    · rename_i hc
      obtain ⟨rfl, rfl⟩ := hc
      exact ⟨g1, g2, g3, g4, tail, rfl, h⟩
    · cases h
  · cases h

/-- What the decoder accepts after the opening quote is string characters
closed by a quote. -/
theorem unquoteBody_sound : ∀ (fuel : Nat) (rest s : List Char),
    unquoteBody fuel rest = some s →
    ∃ body, rest = body ++ [dquote] ∧ SpecJsonChars body := by
  intro fuel
  induction fuel with
  | zero => intro rest s h; simp [unquoteBody] at h
  | succ f ih =>
    intro rest s h
    have ihm : ∀ (l : List Char) (g : List Char → List Char) (s : List Char),
        (unquoteBody f l).map g = some s → ∃ body, l = body ++ [dquote] ∧ SpecJsonChars body := by
      intro l g s hm
      cases hu : unquoteBody f l with
      | none => rw [hu] at hm; cases hm
      | some s1 => exact ih l s1 hu
    cases rest with
    | nil => simp [unquoteBody] at h
    | cons c rest =>
      simp only [unquoteBody] at h
      split at h
      · rename_i hc
        split at h
        · rename_i hr
          subst hc hr
          exact ⟨[], rfl, .nil⟩
        · cases h
      · rename_i hq
        split at h
        · rename_i hb
          subst hb
          cases rest with
          | nil => cases h
          | cons e rest1 =>
            simp only at h
            split at h
            · rename_i he
              subst he
              split at h
              · rename_i h1 h2 h3 h4 rest2
                split at h
                · cases h
                · rename_i r hr
                  obtain ⟨x1, x2, x3, x4⟩ := (hex4_spec h1 h2 h3 h4).mp ⟨r, hr⟩
                  split at h
                  · split at h
                    · rename_i dec hdec
                      cases hp : peekU4 rest2 with
                      | none => rw [hp] at hdec; cases hdec
                      | some r2 =>
                        obtain ⟨g1, g2, g3, g4, tail, rfl, hg⟩ := peekU4_shape rest2 r2 hp
                        obtain ⟨y1, y2, y3, y4⟩ := (hex4_spec g1 g2 g3 g4).mp ⟨r2, hg⟩
                        simp only [List.drop] at h
                        obtain ⟨body, rfl, hbody⟩ := ihm _ _ _ h
                        exact ⟨_, rfl, .unicode h1 h2 h3 h4 _ x1 x2 x3 x4
                          (.unicode g1 g2 g3 g4 body y1 y2 y3 y4 hbody)⟩
                    · obtain ⟨body, rfl, hbody⟩ := ihm _ _ _ h
                      exact ⟨_, rfl, .unicode h1 h2 h3 h4 body x1 x2 x3 x4 hbody⟩
                  · obtain ⟨body, rfl, hbody⟩ := ihm _ _ _ h
                    exact ⟨_, rfl, .unicode h1 h2 h3 h4 body x1 x2 x3 x4 hbody⟩
              · cases h
            · rename_i he
              split at h
              · rename_i ch hch
                obtain ⟨body, rfl, hbody⟩ := ihm _ _ _ h
                exact ⟨_, rfl, .escape e body ((simpleEscape_spec e).mp ⟨ch, hch⟩) hbody⟩
              · cases h
        · rename_i hb
          split at h
          · cases h
          · rename_i h32
            obtain ⟨body, rfl, hbody⟩ := ihm _ _ _ h
            exact ⟨c :: body, rfl, .plain c body (by omega) hq hb hbody⟩

theorem bslash_ne_dquote : bslash ≠ dquote := by decide

/-- String characters closed by a quote are accepted by the decoder, given
fuel for every character. -/
theorem unquoteBody_complete : ∀ (n : Nat) (body : List Char), body.length ≤ n →
    SpecJsonChars body → ∀ fuel, body.length + 1 ≤ fuel →
    ∃ s, unquoteBody fuel (body ++ [dquote]) = some s := by
  intro n
  induction n with
  | zero =>
    intro body hl _ fuel hf
    obtain ⟨f, rfl⟩ : ∃ f, fuel = f + 1 := ⟨fuel - 1, by omega⟩
    have : body = [] := List.length_eq_zero.mp (by omega)
    subst this
    exact ⟨[], by simp [unquoteBody]⟩
  | succ n ih =>
    intro body hl hb fuel hf
    obtain ⟨f, rfl⟩ : ∃ f, fuel = f + 1 := ⟨fuel - 1, by omega⟩
    cases hb with
    | nil => exact ⟨[], by simp [unquoteBody]⟩
    | plain c rest h1 h2 h3 hr =>
      simp only [List.length_cons] at hl hf
      obtain ⟨s, hs⟩ := ih rest (by omega) hr f (by omega)
      simp only [List.cons_append]
      simp only [unquoteBody]
      rw [if_neg h2, if_neg h3, if_neg (by omega), hs]
      exact ⟨_, rfl⟩
    | escape e rest he hr =>
      simp only [List.length_cons] at hl hf
      obtain ⟨s, hs⟩ := ih rest (by omega) hr f (by omega)
      obtain ⟨ch, hch⟩ := (simpleEscape_spec e).mpr he
      have hu : e ≠ Char.ofNat 117 := by
        intro h; subst h; revert he; decide
      simp only [List.cons_append]
      simp only [unquoteBody]
      simp only [if_true, if_neg hu, hch, hs]
      exact ⟨_, rfl⟩
    | unicode h1 h2 h3 h4 rest x1 x2 x3 x4 hr =>
      simp only [List.length_cons] at hl hf
      obtain ⟨s, hs⟩ := ih rest (by omega) hr f (by omega)
      obtain ⟨r, hr4⟩ := (hex4_spec h1 h2 h3 h4).mpr ⟨x1, x2, x3, x4⟩
      simp only [List.cons_append]
      simp only [unquoteBody]
      simp only [if_true, hr4]
      by_cases hsur : isSurrogate r = true
      · rw [if_pos hsur]
        cases hdec : (peekU4 (rest ++ [dquote])).bind (decodeSurrogates r) with
        | none => simp only [hs]; exact ⟨_, rfl⟩
        | some dec =>
          simp only []
          cases hp : peekU4 (rest ++ [dquote]) with
          | none => rw [hp] at hdec; cases hdec
          | some r2 =>
            obtain ⟨g1, g2, g3, g4, tail, hshape, _⟩ := peekU4_shape _ r2 hp
            cases hr with
            | nil => simp at hshape
            | plain c rest2 c1 c2 c3 hr2 =>
              simp only [List.cons_append, List.cons.injEq] at hshape
              exact absurd hshape.1 c3
            | escape e rest2 he2 hr2 =>
              simp only [List.cons_append, List.cons.injEq] at hshape
              exfalso
              have := hshape.2.1
              subst this
              revert he2
              decide
            | unicode k1 k2 k3 k4 rest3 _ _ _ _ hr3 =>
              simp only [List.length_cons] at hl hf
              obtain ⟨s3, hs3⟩ := ih rest3 (by omega) hr3 f (by omega)
              rw [if_neg bslash_ne_dquote]
              change ∃ s, Option.map _ (unquoteBody f (rest3 ++ [dquote])) = some s
              rw [hs3]
              exact ⟨_, rfl⟩
      · rw [if_neg hsur, hs]
        exact ⟨_, rfl⟩

theorem jsonUnmarshalString_spec (data : String) (hn : trimSpace data.data ≠ "null".data) :
    (∃ t, jsonUnmarshalString data = .ok t) ↔ SpecJsonString (trimSpace data.data) := by
  unfold jsonUnmarshalString SpecJsonString
  simp only [if_neg hn]
  constructor
  · rintro ⟨t, ht⟩
    split at ht
    · cases ht
    · rename_i c rest heq
      split at ht
      · rename_i hc
        split at ht
        · rename_i s hs
          obtain ⟨body, hb, hbody⟩ := unquoteBody_sound _ _ _ hs
          exact ⟨body, by rw [heq, hc, hb], hbody⟩
        · cases ht
      · cases ht
  · rintro ⟨body, hb, hbody⟩
    rw [hb]
    simp only [if_true]
    obtain ⟨s, hs⟩ := unquoteBody_complete body.length body (le_refl _) hbody
      ((body ++ [dquote]).length + 1) (by simp)
    rw [hs]
    exact ⟨_, rfl⟩

theorem jsonUnmarshalInt64_spec (data : String) (hn : trimSpace data.data ≠ "null".data) :
    (∃ v, jsonUnmarshalInt64 data = .ok v) ↔ SpecJsonInt64 (trimSpace data.data) := by
  rw [← readIntLiteral_spec]
  unfold jsonUnmarshalInt64
  simp only [if_neg hn]
  constructor
  · rintro ⟨v, hv⟩
    split at hv
    · rename_i w hw
      split at hv
      · rename_i hr
        exact ⟨w, hw, hr⟩
      · cases hv
    · cases hv
  · rintro ⟨v, hv, hr⟩
    rw [hv]
    simp only [if_pos hr]
    exact ⟨_, rfl⟩

theorem jsonUnmarshalBool_spec (data : String) (hn : trimSpace data.data ≠ "null".data) :
    (∃ b, jsonUnmarshalBool data = .ok b) ↔ SpecJsonBool (trimSpace data.data) := by
  unfold jsonUnmarshalBool SpecJsonBool
  simp only [if_neg hn]
  constructor
  · rintro ⟨b, hb⟩
    split at hb
    · rename_i h; exact Or.inl h
    · split at hb
      · rename_i h; exact Or.inr h
      · cases hb
  · rintro (h | h)
    · rw [if_pos h]; exact ⟨_, rfl⟩
    · have : trimSpace data.data ≠ "true".data := by rw [h]; decide
      rw [if_neg this, if_pos h]; exact ⟨_, rfl⟩

/-- C7, counterexample: the value null is not a JSON boolean, yet fromRemote
accepts it for datatype bool, returns no error and sets value_bool to false. -/
theorem null_value_is_accepted :
    ¬ SpecLiteralOf "bool" (trimSpace "null".data) ∧
      ∃ m1, ({} : CheckJsonPropertyModel).fromRemote
          { kind := some "json_property", id := some 1, datatype := "bool", value := "null" }
          7 3 = .ret m1 none ∧
        ({} : CheckJsonPropertyModel).ValueBoolean = .null ∧
        m1.ValueBoolean = .known false := by
  refine ⟨?_, { ID := .known 1, ApplicationID := .known 7, DataSourceID := .known 3,
                Name := .known "", Operator := .known "", Path := .known "",
                DataType := .known "bool", ValueBoolean := .known false },
    by decide, rfl, rfl⟩
  rintro (⟨_, h⟩ | ⟨h, _⟩ | ⟨h, _⟩)
  · revert h; unfold SpecJsonBool; decide
  · revert h; decide
  · revert h; decide

/-- C7, amended: for a json_property envelope with an id and a datatype among
bool, int, str and datetime whose value, without the JSON white space around
it, is not the literal null, fromRemote returns no error if and only if that
value is a JSON literal of the declared type (a boolean for bool, an integer
numeral in the signed 64-bit range for int, a string for str and datetime);
for every other value it returns an error and leaves the four value slots as
they were. -/
theorem datatype_is_authoritative (r : CheckJsonPropertyModel) (i : Check)
    (id applicationId datasourceId : Int)
    (hk : i.kind = some "json_property") (hid : i.id = some id)
    (hdt : i.datatype ∈ ["bool", "int", "str", "datetime"])
    (hnull : trimSpace i.value.data ≠ "null".data) :
    ((∃ m1, r.fromRemote i applicationId datasourceId = .ret m1 none) ↔
        SpecLiteralOf i.datatype (trimSpace i.value.data)) ∧
      (¬ SpecLiteralOf i.datatype (trimSpace i.value.data) →
        ∃ m1 e, r.fromRemote i applicationId datasourceId = .ret m1 (some e) ∧
          m1.ValueBoolean = r.ValueBoolean ∧ m1.ValueInt = r.ValueInt ∧
          m1.ValueString = r.ValueString ∧ m1.ValueDateTime = r.ValueDateTime) := by
  obtain ⟨n1, n2, n3, n4, n5, n6⟩ := datatype_literals_ne
  have hx : ∀ {x y : String}, i.datatype = x → x ≠ y → i.datatype ≠ y := by
    intro x y h1 h2 h3; exact h2 (h1.symm.trans h3)
  have heq := fromRemote_eq r i id applicationId datasourceId hk hid
  simp only [List.mem_cons, List.mem_singleton, List.not_mem_nil, or_false] at hdt
  rcases hdt with h | h | h | h
  · have hs : SpecLiteralOf i.datatype (trimSpace i.value.data)
        ↔ ∃ b, jsonUnmarshalBool i.value = .ok b := by
      rw [jsonUnmarshalBool_spec i.value hnull]
      unfold SpecLiteralOf
      constructor
      · rintro (⟨_, h2⟩ | ⟨h2, _⟩ | ⟨h2 | h2, _⟩)
        · exact h2
        · exact absurd h2 (hx h n1)
        · exact absurd h2 (hx h n2)
        · exact absurd h2 (hx h n3)
      · exact fun h2 => Or.inl ⟨h, h2⟩
    rw [if_pos h] at heq
    rw [hs]
    cases hu : jsonUnmarshalBool i.value with
    | error err =>
      rw [hu] at heq
      refine ⟨⟨fun ⟨m1, h2⟩ => ?_, fun ⟨v, h2⟩ => (by cases h2)⟩,
        fun _ => ⟨_, _, heq, rfl, rfl, rfl, rfl⟩⟩
      rw [heq] at h2
      cases h2
    | ok v =>
      rw [hu] at heq
      exact ⟨⟨fun _ => ⟨v, rfl⟩, fun _ => ⟨_, heq⟩⟩, fun h2 => absurd ⟨v, rfl⟩ h2⟩
  · have hs : SpecLiteralOf i.datatype (trimSpace i.value.data)
        ↔ ∃ b, jsonUnmarshalInt64 i.value = .ok b := by
      rw [jsonUnmarshalInt64_spec i.value hnull]
      unfold SpecLiteralOf
      constructor
      · rintro (⟨h2, _⟩ | ⟨_, h2⟩ | ⟨h2 | h2, _⟩)
        · exact absurd h2 (hx h n1.symm)
        · exact h2
        · exact absurd h2 (hx h n4)
        · exact absurd h2 (hx h n5)
      · exact fun h2 => Or.inr (Or.inl ⟨h, h2⟩)
    rw [if_neg (hx h n1.symm), if_pos h] at heq
    rw [hs]
    cases hu : jsonUnmarshalInt64 i.value with
    | error err =>
      rw [hu] at heq
      refine ⟨⟨fun ⟨m1, h2⟩ => ?_, fun ⟨v, h2⟩ => (by cases h2)⟩,
        fun _ => ⟨_, _, heq, rfl, rfl, rfl, rfl⟩⟩
      rw [heq] at h2
      cases h2
    | ok v =>
      rw [hu] at heq
      exact ⟨⟨fun _ => ⟨v, rfl⟩, fun _ => ⟨_, heq⟩⟩, fun h2 => absurd ⟨v, rfl⟩ h2⟩
  · have hs : SpecLiteralOf i.datatype (trimSpace i.value.data)
        ↔ ∃ b, jsonUnmarshalString i.value = .ok b := by
      rw [jsonUnmarshalString_spec i.value hnull]
      unfold SpecLiteralOf
      constructor
      · rintro (⟨h2, _⟩ | ⟨h2, _⟩ | ⟨_, h2⟩)
        · exact absurd h2 (hx h n2.symm)
        · exact absurd h2 (hx h n4.symm)
        · exact h2
      · exact fun h2 => Or.inr (Or.inr ⟨Or.inl h, h2⟩)
    rw [if_neg (hx h n2.symm), if_neg (hx h n4.symm), if_pos h] at heq
    rw [hs]
    cases hu : jsonUnmarshalString i.value with
    | error err =>
      rw [hu] at heq
      refine ⟨⟨fun ⟨m1, h2⟩ => ?_, fun ⟨v, h2⟩ => (by cases h2)⟩,
        fun _ => ⟨_, _, heq, rfl, rfl, rfl, rfl⟩⟩
      rw [heq] at h2
      cases h2
    | ok v =>
      rw [hu] at heq
      exact ⟨⟨fun _ => ⟨v, rfl⟩, fun _ => ⟨_, heq⟩⟩, fun h2 => absurd ⟨v, rfl⟩ h2⟩
  · have hs : SpecLiteralOf i.datatype (trimSpace i.value.data)
        ↔ ∃ b, jsonUnmarshalString i.value = .ok b := by
      rw [jsonUnmarshalString_spec i.value hnull]
      unfold SpecLiteralOf
      constructor
      · rintro (⟨h2, _⟩ | ⟨h2, _⟩ | ⟨_, h2⟩)
        · exact absurd h2 (hx h n3.symm)
        · exact absurd h2 (hx h n5.symm)
        · exact h2
      · exact fun h2 => Or.inr (Or.inr ⟨Or.inr h, h2⟩)
    rw [if_neg (hx h n3.symm), if_neg (hx h n5.symm), if_neg (hx h n6.symm), if_pos h] at heq
    rw [hs]
    cases hu : jsonUnmarshalString i.value with
    | error err =>
      rw [hu] at heq
      refine ⟨⟨fun ⟨m1, h2⟩ => ?_, fun ⟨v, h2⟩ => (by cases h2)⟩,
        fun _ => ⟨_, _, heq, rfl, rfl, rfl, rfl⟩⟩
      rw [heq] at h2
      cases h2
    | ok v =>
      rw [hu] at heq
      exact ⟨⟨fun _ => ⟨v, rfl⟩, fun _ => ⟨_, heq⟩⟩, fun h2 => absurd ⟨v, rfl⟩ h2⟩

theorem datatype_is_authoritative_witness :
    ¬ SpecLiteralOf "int" (trimSpace "true".data) ∧
      ∃ m1 e, ({ ValueInt := .known 9 } : CheckJsonPropertyModel).fromRemote
          { kind := some "json_property", id := some 1, datatype := "int", value := "true" }
          7 3 = .ret m1 (some e) ∧ m1.ValueInt = .known 9 := by
  have h := datatype_is_authoritative { ValueInt := .known 9 }
    { kind := some "json_property", id := some 1, datatype := "int", value := "true" }
    1 7 3 rfl rfl (by decide) (by decide)
  have hno : ¬ ∃ m1, ({ ValueInt := .known 9 } : CheckJsonPropertyModel).fromRemote
      { kind := some "json_property", id := some 1, datatype := "int", value := "true" }
      7 3 = .ret m1 none := by
    rintro ⟨m1, hm⟩
    revert hm
    have : ({ ValueInt := .known 9 } : CheckJsonPropertyModel).fromRemote
        { kind := some "json_property", id := some 1, datatype := "int", value := "true" }
        7 3 = .ret { ID := .known 1, ApplicationID := .known 7, DataSourceID := .known 3,
                     Name := .known "", Operator := .known "", Path := .known "",
                     DataType := .known "int", ValueInt := .known 9 }
          (some (.errorfJson "Invalid int value: %s" ⟨"true", "int64"⟩)) := by decide
    rw [this]
    intro h2
    cases h2
  have hspec : ¬ SpecLiteralOf "int" (trimSpace "true".data) := fun hs => hno (h.1.mpr hs)
  obtain ⟨m1, e, h1, _, h2, _⟩ := h.2 hspec
  exact ⟨hspec, m1, e, h1, h2⟩

/-! ## What the encoder does not check -/

/-- C13: when the slot that the datatype selects is null, createRequest still
returns an envelope, whose value is the JSON text of the zero value of the
datatype ("false", "0", or the two quotes of the empty string), whatever the
other three slots hold. -/
theorem createRequest_null_slot (m : CheckJsonPropertyModel) :
    (Folge.ValueString m.DataType = "bool" → m.ValueBoolean = .null →
      ∀ vi vs vd, ∃ env,
        ({ m with ValueInt := vi, ValueString := vs, ValueDateTime := vd } :
          CheckJsonPropertyModel).createRequest = some env ∧ env.value = "false") ∧
    (Folge.ValueString m.DataType = "int" → m.ValueInt = .null →
      ∀ vb vs vd, ∃ env,
        ({ m with ValueBoolean := vb, ValueString := vs, ValueDateTime := vd } :
          CheckJsonPropertyModel).createRequest = some env ∧ env.value = "0") ∧
    (Folge.ValueString m.DataType = "str" → m.ValueString = .null →
      ∀ vb vi vd, ∃ env,
        ({ m with ValueBoolean := vb, ValueInt := vi, ValueDateTime := vd } :
          CheckJsonPropertyModel).createRequest = some env ∧ env.value = "\"\"") ∧
    (Folge.ValueString m.DataType = "datetime" → m.ValueDateTime = .null →
      ∀ vb vi vs, ∃ env,
        ({ m with ValueBoolean := vb, ValueInt := vi, ValueString := vs } :
          CheckJsonPropertyModel).createRequest = some env ∧ env.value = "\"\"") := by
  obtain ⟨n1, n2, n3, n4, n5, n6⟩ := datatype_literals_ne
  refine ⟨?_, ?_, ?_, ?_⟩
  · intro h hn vi vs vd
    refine ⟨_, createRequest_eq _, ?_⟩
    simp only [h, hn, if_true]
    rfl
  · intro h hn vb vs vd
    refine ⟨_, createRequest_eq _, ?_⟩
    simp only [h, hn, if_true, if_neg n1.symm]
    rfl
  · intro h hn vb vi vd
    refine ⟨_, createRequest_eq _, ?_⟩
    simp only [h, hn, if_true, if_neg n2.symm, if_neg n4.symm]
    rfl
  · intro h hn vb vi vs
    refine ⟨_, createRequest_eq _, ?_⟩
    simp only [h, hn, if_true, if_neg n3.symm, if_neg n5.symm, if_neg n6.symm]
    rfl

theorem createRequest_null_slot_witness :
    ∃ env, ({ DataType := .known "int", ValueString := .known "only this" } :
        CheckJsonPropertyModel).createRequest = some env ∧ env.value = "0" :=
  (createRequest_null_slot { DataType := .known "int" }).2.1 rfl rfl
    .null (.known "only this") .null

/-- C17: for a model whose datatype is not bool, int, str or datetime,
createRequest does not fail and returns a json_property envelope that carries
the datatype string unchanged and an empty value string, whatever the four
value slots hold. -/
theorem createRequest_other_datatype (m : CheckJsonPropertyModel)
    (hd : Folge.ValueString m.DataType ∉ ["bool", "int", "str", "datetime"]) :
    ∀ vb vi vs vd, ∃ env,
      ({ m with ValueBoolean := vb, ValueInt := vi, ValueString := vs, ValueDateTime := vd } :
        CheckJsonPropertyModel).createRequest = some env ∧
      env.kind = some "json_property" ∧ env.datatype = Folge.ValueString m.DataType ∧
      env.value = "" := by
  simp only [List.mem_cons, List.mem_singleton, List.not_mem_nil, or_false, not_or] at hd
  obtain ⟨h1, h2, h3, h4⟩ := hd
  intro vb vi vs vd
  refine ⟨_, createRequest_eq _, rfl, rfl, ?_⟩
  simp only [if_neg h1, if_neg h2, if_neg h3, if_neg h4]

theorem createRequest_other_datatype_witness :
    ∃ env, ({ DataType := .known "bogus", ValueInt := .known 4 } :
        CheckJsonPropertyModel).createRequest = some env ∧
      env.kind = some "json_property" ∧ env.datatype = "bogus" ∧ env.value = "" :=
  createRequest_other_datatype { DataType := .known "bogus" } (by decide)
    .null (.known 4) .null .null

/-! ## Dispatch on the discriminator, and the one partial step -/

theorem kinds_ne : KindHttpStatus ≠ KindJsonProperty := by decide

/-- With a kind other than json_property, the json_property decoder returns an
error and leaves its receiver as it was. -/
theorem fromRemote_json_other_kind (r : CheckJsonPropertyModel) (i : Check) (a d : Int)
    (hk : i.kind ≠ some "json_property") :
    r.fromRemote i a d = .ret r (some (.errorsNew
      (if i.kind = some "http_status" then "unknown data source type"
       else "unknown check kind"))) := by
  unfold CheckJsonPropertyModel.fromRemote Check.ValueByDiscriminator
  by_cases h : i.kind = some "http_status"
  · rw [if_pos h, if_pos (by exact h)]
  · rw [if_neg h, if_neg (by exact h), if_neg (by exact hk)]

/-- With a kind other than http_status, the http_status decoder returns an
error and leaves its receiver as it was. -/
theorem fromRemote_http_other_kind (r : CheckHttpStatusModel) (i : Check) (a d : Int)
    (hk : i.kind ≠ some "http_status") :
    r.fromRemote i a d = .ret r (some (.errorsNew
      (if i.kind = some "json_property" then "unknown data source type"
       else "unknown check kind"))) := by
  unfold CheckHttpStatusModel.fromRemote Check.ValueByDiscriminator
  rw [if_neg (by exact hk)]
  by_cases h : i.kind = some "json_property"
  · rw [if_pos h, if_pos (by exact h)]
  · rw [if_neg h, if_neg (by exact h)]

theorem fromRemote_http_eq (r : CheckHttpStatusModel) (i : Check) (a d : Int)
    (hk : i.kind = some "http_status") :
    r.fromRemote i a d =
      match i.id with
      | none => .panic
      | some id => .ret { r with ID := .known id, Name := .known i.label,
                                 ApplicationID := .known a, DataSourceID := .known d,
                                 Enabled := BoolPointerValue i.enabled,
                                 StatusCode := .known i.status_code } none := by
  unfold CheckHttpStatusModel.fromRemote Check.ValueByDiscriminator
  rw [if_pos (by exact hk)]
  cases hid : i.id <;>
    simp only [Check.AsHttpStatusCheckTyped, hid, Int64Value, StringValue]

/-- A json_property envelope with an id makes fromRemote return. -/
theorem fromRemote_json_returns (r : CheckJsonPropertyModel) (i : Check) (id a d : Int)
    (hk : i.kind = some "json_property") (hid : i.id = some id) :
    ∃ m err, r.fromRemote i a d = .ret m err := by
  rw [fromRemote_eq r i id a d hk hid]
  split_ifs
  · cases jsonUnmarshalBool i.value <;> exact ⟨_, _, rfl⟩
  · cases jsonUnmarshalInt64 i.value <;> exact ⟨_, _, rfl⟩
  · cases jsonUnmarshalString i.value <;> exact ⟨_, _, rfl⟩
  · cases jsonUnmarshalString i.value <;> exact ⟨_, _, rfl⟩
  · exact ⟨_, _, rfl⟩

theorem fromRemote_json_panic_iff (r : CheckJsonPropertyModel) (i : Check) (a d : Int) :
    r.fromRemote i a d = .panic ↔ i.kind = some "json_property" ∧ i.id = none := by
  constructor
  · intro h
    by_cases hk : i.kind = some "json_property"
    · refine ⟨hk, ?_⟩
      cases hid : i.id with
      | none => rfl
      | some id =>
        obtain ⟨m, err, hr⟩ := fromRemote_json_returns r i id a d hk hid
        rw [hr] at h
        cases h
    · rw [fromRemote_json_other_kind r i a d hk] at h
      cases h
  · rintro ⟨hk, hid⟩
    exact fromRemote_no_id r i a d hk hid

theorem fromRemote_http_panic_iff (r : CheckHttpStatusModel) (i : Check) (a d : Int) :
    r.fromRemote i a d = .panic ↔ i.kind = some "http_status" ∧ i.id = none := by
  constructor
  · intro h
    by_cases hk : i.kind = some "http_status"
    · refine ⟨hk, ?_⟩
      rw [fromRemote_http_eq r i a d hk] at h
      cases hid : i.id with
      | none => rfl
      | some id => rw [hid] at h; cases h
    · rw [fromRemote_http_other_kind r i a d hk] at h
      cases h
  · rintro ⟨hk, hid⟩
    rw [fromRemote_http_eq r i a d hk, hid]

/-- The envelope that createRequest of an http_status model returns. -/
theorem createRequest_http_eq (m : CheckHttpStatusModel) :
    m.createRequest = some
      { kind := some "http_status", id := none, label := Folge.ValueString m.Name,
        enabled := ValueBoolPointer m.Enabled, status_code := ValueInt64 m.StatusCode,
        path := "", datatype := "", operator := "", value := "" } := rfl

theorem outcome_cases {σ : Type} (o : Outcome σ) (h : o ≠ .panic) : ∃ m err, o = .ret m err := by
  cases o with
  | panic => exact absurd rfl h
  | ret m err => exact ⟨m, err, rfl⟩

/-- C20: fromRemote of either model panics exactly when the envelope is of its
own kind and carries no id; so for an envelope that carries an id both return,
with nil or with an error. An envelope made by createRequest carries no id,
and the decoder of its own kind panics on it. -/
theorem fromRemote_panic_free (rj : CheckJsonPropertyModel) (rh : CheckHttpStatusModel)
    (i : Check) (a d : Int) :
    (i.id ≠ none →
      (∃ m err, rj.fromRemote i a d = .ret m err) ∧
      (∃ m err, rh.fromRemote i a d = .ret m err)) ∧
    (rj.fromRemote i a d = .panic ↔ i.kind = some "json_property" ∧ i.id = none) ∧
    (rh.fromRemote i a d = .panic ↔ i.kind = some "http_status" ∧ i.id = none) ∧
    (∀ (m : CheckJsonPropertyModel) env, m.createRequest = some env →
      env.id = none ∧ rj.fromRemote env a d = .panic) ∧
    (∀ (m : CheckHttpStatusModel) env, m.createRequest = some env →
      env.id = none ∧ rh.fromRemote env a d = .panic) := by
  refine ⟨fun hid => ⟨?_, ?_⟩, fromRemote_json_panic_iff rj i a d,
    fromRemote_http_panic_iff rh i a d, ?_, ?_⟩
  · exact outcome_cases _ (fun h => hid ((fromRemote_json_panic_iff rj i a d).mp h).2)
  · exact outcome_cases _ (fun h => hid ((fromRemote_http_panic_iff rh i a d).mp h).2)
  · intro m env h
    rw [createRequest_eq m] at h
    cases h
    exact ⟨rfl, (fromRemote_json_panic_iff rj _ a d).mpr ⟨rfl, rfl⟩⟩
  · intro m env h
    rw [createRequest_http_eq m] at h
    cases h
    exact ⟨rfl, (fromRemote_http_panic_iff rh _ a d).mpr ⟨rfl, rfl⟩⟩

theorem fromRemote_panic_free_witness :
    (∃ m err, ({} : CheckJsonPropertyModel).fromRemote
        { kind := some "json_property", id := some 1, datatype := "bool", value := "x" } 7 3
        = .ret m err) ∧
    (∃ m err, ({} : CheckHttpStatusModel).fromRemote
        { kind := some "json_property", id := some 1, datatype := "bool", value := "x" } 7 3
        = .ret m err) :=
  (fromRemote_panic_free {} {}
    { kind := some "json_property", id := some 1, datatype := "bool", value := "x" } 7 3).1
    (by decide)

/-! ## The value slots after a decode -/

/-- A successful fromRemote was given a json_property envelope with an id. -/
theorem fromRemote_ok_inv (r : CheckJsonPropertyModel) (i : Check) (a d : Int)
    (m1 : CheckJsonPropertyModel) (h : r.fromRemote i a d = .ret m1 none) :
    i.kind = some "json_property" ∧ ∃ id, i.id = some id := by
  by_cases hk : i.kind = some "json_property"
  · refine ⟨hk, ?_⟩
    cases hid : i.id with
    | none => rw [fromRemote_no_id r i a d hk hid] at h; cases h
    | some id => exact ⟨id, rfl⟩
  · rw [fromRemote_json_other_kind r i a d hk] at h
    cases h

/-- C12, counterexample: decoding a bool envelope into a model whose
value_string holds a value succeeds and leaves two slots populated,
value_bool and value_string. -/
theorem two_slots_after_decode :
    ∃ m1, ({ ValueString := .known "x" } : CheckJsonPropertyModel).fromRemote
        { kind := some "json_property", id := some 1, datatype := "bool", value := "true" }
        7 3 = .ret m1 none ∧
      m1.ValueBoolean = .known true ∧ m1.ValueString = .known "x" ∧ m1.populated = 2 :=
  ⟨{ ID := .known 1, ApplicationID := .known 7, DataSourceID := .known 3, Name := .known "",
     Operator := .known "", Path := .known "", DataType := .known "bool",
     ValueBoolean := .known true, ValueString := .known "x" },
   by decide, rfl, rfl, by decide⟩

/-- C12, amended: after every successful fromRemote the decoded datatype is
one of the four, the slot it selects is populated with a known value, and the
other three slots hold what they held before the call; so when the four slots
were null before the call, exactly one is populated after it. -/
theorem slots_after_decode (r : CheckJsonPropertyModel) (i : Check) (a d : Int)
    (m1 : CheckJsonPropertyModel) (h : r.fromRemote i a d = .ret m1 none) :
    m1.DataType = .known i.datatype ∧
    ((i.datatype = "bool" ∧ m1.ValueBoolean.isKnown = true ∧ m1.ValueInt = r.ValueInt ∧
        m1.ValueString = r.ValueString ∧ m1.ValueDateTime = r.ValueDateTime) ∨
      (i.datatype = "int" ∧ m1.ValueBoolean = r.ValueBoolean ∧ m1.ValueInt.isKnown = true ∧
        m1.ValueString = r.ValueString ∧ m1.ValueDateTime = r.ValueDateTime) ∨
      (i.datatype = "str" ∧ m1.ValueBoolean = r.ValueBoolean ∧ m1.ValueInt = r.ValueInt ∧
        m1.ValueString.isKnown = true ∧ m1.ValueDateTime = r.ValueDateTime) ∨
      (i.datatype = "datetime" ∧ m1.ValueBoolean = r.ValueBoolean ∧
        m1.ValueInt = r.ValueInt ∧ m1.ValueString = r.ValueString ∧
        m1.ValueDateTime.isKnown = true)) ∧
    (r.populated = 0 → m1.populated = 1) := by
  obtain ⟨hk, id, hid⟩ := fromRemote_ok_inv r i a d m1 h
  have key : m1.DataType = .known i.datatype ∧
    ((i.datatype = "bool" ∧ m1.ValueBoolean.isKnown = true ∧ m1.ValueInt = r.ValueInt ∧
        m1.ValueString = r.ValueString ∧ m1.ValueDateTime = r.ValueDateTime) ∨
      (i.datatype = "int" ∧ m1.ValueBoolean = r.ValueBoolean ∧ m1.ValueInt.isKnown = true ∧
        m1.ValueString = r.ValueString ∧ m1.ValueDateTime = r.ValueDateTime) ∨
      (i.datatype = "str" ∧ m1.ValueBoolean = r.ValueBoolean ∧ m1.ValueInt = r.ValueInt ∧
        m1.ValueString.isKnown = true ∧ m1.ValueDateTime = r.ValueDateTime) ∨
      (i.datatype = "datetime" ∧ m1.ValueBoolean = r.ValueBoolean ∧
        m1.ValueInt = r.ValueInt ∧ m1.ValueString = r.ValueString ∧
        m1.ValueDateTime.isKnown = true)) := by
    rw [fromRemote_eq r i id a d hk hid] at h
    split_ifs at h with h1 h2 h3 h4
    · cases hu : jsonUnmarshalBool i.value with
      | error e => rw [hu] at h; cases h
      | ok v => rw [hu] at h; cases h; exact ⟨rfl, Or.inl ⟨h1, rfl, rfl, rfl, rfl⟩⟩
    · cases hu : jsonUnmarshalInt64 i.value with
      | error e => rw [hu] at h; cases h
      | ok v => rw [hu] at h; cases h; exact ⟨rfl, Or.inr (Or.inl ⟨h2, rfl, rfl, rfl, rfl⟩)⟩
    · cases hu : jsonUnmarshalString i.value with
      | error e => rw [hu] at h; cases h
      | ok v =>
        rw [hu] at h; cases h
        exact ⟨rfl, Or.inr (Or.inr (Or.inl ⟨h3, rfl, rfl, rfl, rfl⟩))⟩
    · cases hu : jsonUnmarshalString i.value with
      | error e => rw [hu] at h; cases h
      | ok v =>
        rw [hu] at h; cases h
        exact ⟨rfl, Or.inr (Or.inr (Or.inr ⟨h4, rfl, rfl, rfl, rfl⟩))⟩
    · cases h
  refine ⟨key.1, key.2, fun h0 => ?_⟩
  have hz : r.ValueBoolean = .null ∧ r.ValueInt = .null ∧ r.ValueString = .null ∧
      r.ValueDateTime = .null := by
    unfold CheckJsonPropertyModel.populated at h0
    refine ⟨?_, ?_, ?_, ?_⟩ <;> by_contra hc <;> simp only [if_neg hc] at h0 <;> omega
  obtain ⟨z1, z2, z3, z4⟩ := hz
  have nk : ∀ {α : Type} [DecidableEq α] (v : TfValue α), v.isKnown = true →
      (if v = .null then 0 else 1) = 1 := by
    intro α _ v hv
    cases v <;> first | rfl | cases hv
  unfold CheckJsonPropertyModel.populated
  rcases key.2 with ⟨_, b1, b2, b3, b4⟩ | ⟨_, b1, b2, b3, b4⟩ | ⟨_, b1, b2, b3, b4⟩ |
    ⟨_, b1, b2, b3, b4⟩
  · rw [nk _ b1, b2, b3, b4, z2, z3, z4]; rfl
  · rw [nk _ b2, b1, b3, b4, z1, z3, z4]; rfl
  · rw [nk _ b3, b1, b2, b4, z1, z2, z4]; rfl
  · rw [nk _ b4, b1, b2, b3, z1, z2, z3]; rfl

theorem slots_after_decode_witness :
    ∃ m1, ({} : CheckJsonPropertyModel).fromRemote
        { kind := some "json_property", id := some 1, datatype := "int", value := "12" }
        7 3 = .ret m1 none ∧ m1.populated = 1 := by
  have h : ({} : CheckJsonPropertyModel).fromRemote
      { kind := some "json_property", id := some 1, datatype := "int", value := "12" } 7 3
      = .ret { ID := .known 1, ApplicationID := .known 7, DataSourceID := .known 3,
               Name := .known "", Operator := .known "", Path := .known "",
               DataType := .known "int", ValueInt := .known 12 } none := by decide
  exact ⟨_, h, (slots_after_decode _ _ _ _ _ h).2.2 (by decide)⟩

/-! ## The configuration of the client -/

/-- C16: when Configure gets as far as the client, each of url, client_id and
client_secret is the configuration value when that is not null and the
environment variable otherwise, and an url that is empty after that is
replaced by "https://app.folge.io"; the url handed to the client is never
empty. -/
theorem configure_precedence (getenv : String → String)
    (respDiags configDiags : List Diagnostic) (config : folgeProviderModel)
    (hok : HasError (Append respDiags configDiags) = false) :
    ∃ s, Configure getenv respDiags configDiags config = some s ∧
      (config.ClientID ≠ .null → s.clientId = Folge.ValueString config.ClientID) ∧
      (config.ClientID = .null → s.clientId = getenv "FOLGE_CLIENT_ID") ∧
      (config.ClientSecret ≠ .null → s.clientSecret = Folge.ValueString config.ClientSecret) ∧
      (config.ClientSecret = .null → s.clientSecret = getenv "FOLGE_CLIENT_SECRET") ∧
      (config.URL ≠ .null → Folge.ValueString config.URL ≠ "" →
        s.url = Folge.ValueString config.URL) ∧
      (config.URL ≠ .null → Folge.ValueString config.URL = "" →
        s.url = "https://app.folge.io") ∧
      (config.URL = .null → getenv "FOLGE_URL" ≠ "" → s.url = getenv "FOLGE_URL") ∧
      (config.URL = .null → getenv "FOLGE_URL" = "" → s.url = "https://app.folge.io") ∧
      s.url ≠ "" := by
  have hn : ∀ v : TfValue String, (v ≠ .null → IsNull v = false) ∧
      (v = .null → IsNull v = true) := by
    intro v
    cases v <;> simp [IsNull]
  have hd : ("https://app.folge.io" : String) ≠ "" := by decide
  refine ⟨_, by simp only [Configure, hok]; rfl, ?_, ?_, ?_, ?_, ?_, ?_, ?_, ?_, ?_⟩
  · intro h; simp [(hn _).1 h]
  · intro h; simp [(hn _).2 h]
  · intro h; simp [(hn _).1 h]
  · intro h; simp [(hn _).2 h]
  · intro h h2; simp [(hn _).1 h, h2]
  · intro h h2; simp [(hn _).1 h, h2]
  · intro h h2; simp [(hn _).2 h, h2]
  · intro h h2; simp [(hn _).2 h, h2]
  · by_cases h : config.URL = .null
    · by_cases h2 : getenv "FOLGE_URL" = ""
      · simp [(hn _).2 h, h2]
      · simp [(hn _).2 h, h2]
    · by_cases h2 : Folge.ValueString config.URL = ""
      · simp [(hn _).1 h, h2]
      · simp [(hn _).1 h, h2]

theorem configure_precedence_witness :
    ∃ s, Configure (fun k => if k = "FOLGE_URL" then "" else "from-env") [] []
        { ClientID := .known "from-config" } = some s ∧
      s.clientId = "from-config" ∧ s.clientSecret = "from-env" ∧
      s.url = "https://app.folge.io" := by
  obtain ⟨s, h, h1, _, _, h4, _, _, _, h8, _⟩ := configure_precedence
    (fun k => if k = "FOLGE_URL" then "" else "from-env") [] []
    { ClientID := .known "from-config" } rfl
  exact ⟨s, h, h1 (by decide), h4 rfl, h8 rfl rfl⟩

/-! ## The headers kept in a recording -/

theorem contains_iff (keep : List String) (key : String) :
    contains keep key = true ↔ key ∈ keep := by
  induction keep with
  | nil => simp [contains]
  | cons k ks ih =>
    simp only [contains, List.mem_cons]
    by_cases h : k = key
    · simp [h]
    · rw [if_neg h, ih]
      constructor
      · exact Or.inr
      · rintro (h2 | h2)
        · exact absurd h2.symm h
        · exact h2

theorem canonicalKeys_filter (h : Header) (p : String × List String → Bool)
    (hc : canonicalKeys h) : canonicalKeys (h.filter p) :=
  fun e he => hc e (List.mem_filter.mp he).1

/-- On a header map with canonical keys the loop deletes the entries whose key
it visits and that are not kept. -/
theorem cleanLoop_eq (keep : List String) (keys : List String) :
    ∀ h : Header, canonicalKeys h →
      cleanLoop keep keys h
        = h.filter (fun e => !(decide (e.1 ∈ keys) && !contains keep e.1)) := by
  induction keys with
  | nil => intro h _; simp [cleanLoop]
  | cons key rest ih =>
    intro h hc
    simp only [cleanLoop]
    by_cases hp : h.any (fun e => e.1 = key) = true
    · rw [if_pos hp]
      by_cases hk : contains keep key = true
      · simp only [hk, Bool.not_true, Bool.false_eq_true, if_false]
        rw [ih h hc]
        apply List.filter_congr
        intro e _
        by_cases he : e.1 = key
        · simp [he, hk]
        · simp [he]
      · have hk2 : contains keep key = false := by simpa using hk
        simp only [hk2, Bool.not_false, if_true]
        obtain ⟨e0, he0, hkey⟩ := List.any_eq_true.mp hp
        have hcan : CanonicalMIMEHeaderKey key = key := by
          have := hc e0 he0
          have hk3 : e0.1 = key := by simpa using hkey
          rwa [hk3] at this
        unfold Header.Del
        rw [hcan, ih _ (canonicalKeys_filter h _ hc), List.filter_filter]
        apply List.filter_congr
        intro e _
        by_cases he : e.1 = key
        · simp [he, hk2]
        · simp [he]
    · rw [if_neg hp, ih h hc]
      apply List.filter_congr
      intro e he
      have hne : e.1 ≠ key := by
        intro heq
        exact hp (List.any_eq_true.mpr ⟨e, he, by simpa using heq⟩)
      simp [hne]

theorem cleanHeaders_eq (h : Header) (keep : List String) (hc : canonicalKeys h) :
    cleanHeaders h keep = h.filter (fun e => contains keep e.1) := by
  unfold cleanHeaders
  rw [cleanLoop_eq keep _ h hc]
  apply List.filter_congr
  intro e he
  have : e.1 ∈ h.map Prod.fst := List.mem_map.mpr ⟨e, he, rfl⟩
  simp [this]

/-- C19, counterexample: a key that is not in canonical form and is not listed
stays in the map, also with an empty keep list; and it makes cleanHeaders
delete the listed entry that has its canonical form. -/
theorem cleanHeaders_leaves_lower_case_key :
    cleanHeaders [("content-type", ["text/plain"])] []
        = [("content-type", ["text/plain"])] ∧
      cleanHeaders [("content-type", ["a"]), ("Content-Type", ["b"])] ["Content-Type"]
        = [("content-type", ["a"])] ∧
      "content-type" ∉ ["Content-Type"] := by
  decide

/-- C19, amended: for a header map whose keys are in canonical form and every
keep list, every key that remains after cleanHeaders is in the keep list,
every entry whose key is in the keep list remains with its values, nothing is
added, and with an empty keep list nothing remains; so for an interaction
whose header keys are in canonical form the recorder hook leaves at most
Content-Type in the response headers and nothing in the request headers. -/
theorem cleanHeaders_strips (h : Header) (keep : List String) (hc : canonicalKeys h)
    (i : Interaction) (hreq : canonicalKeys i.RequestHeaders)
    (hresp : canonicalKeys i.ResponseHeaders) :
    (∀ e ∈ cleanHeaders h keep, e.1 ∈ keep) ∧
      (∀ e ∈ h, e.1 ∈ keep → e ∈ cleanHeaders h keep) ∧
      (∀ e ∈ cleanHeaders h keep, e ∈ h) ∧
      cleanHeaders h [] = [] ∧
      (∀ e ∈ (hook i).ResponseHeaders, e.1 = "Content-Type" ∧ e ∈ i.ResponseHeaders) ∧
      (hook i).RequestHeaders = [] := by
  refine ⟨?_, ?_, ?_, ?_, ?_, ?_⟩
  · intro e he
    rw [cleanHeaders_eq h keep hc] at he
    exact (contains_iff keep e.1).mp (List.mem_filter.mp he).2
  · intro e he hk
    rw [cleanHeaders_eq h keep hc]
    exact List.mem_filter.mpr ⟨he, (contains_iff keep e.1).mpr hk⟩
  · intro e he
    rw [cleanHeaders_eq h keep hc] at he
    exact (List.mem_filter.mp he).1
  · rw [cleanHeaders_eq h [] hc]
    simp [contains]
  · intro e he
    have he2 : e ∈ cleanHeaders i.ResponseHeaders ["Content-Type"] := he
    rw [cleanHeaders_eq _ _ hresp] at he2
    obtain ⟨h1, h2⟩ := List.mem_filter.mp he2
    have := (contains_iff _ e.1).mp h2
    exact ⟨by simpa using this, h1⟩
  · have : (hook i).RequestHeaders = cleanHeaders i.RequestHeaders [] := rfl
    rw [this, cleanHeaders_eq _ [] hreq]
    simp [contains]

theorem cleanHeaders_strips_witness :
    cleanHeaders [("Content-Type", ["b"]), ("X-Foo", ["c"]), ("Date", ["d"])] [] = [] ∧
      (hook ⟨[("Authorization", ["secret"])],
             [("Content-Type", ["b"]), ("Date", ["d"])]⟩).RequestHeaders = [] := by
  have hc1 : canonicalKeys [("Content-Type", ["b"]), ("X-Foo", ["c"]), ("Date", ["d"])] := by
    unfold canonicalKeys; decide
  have hc2 : canonicalKeys [("Authorization", ["secret"])] := by
    unfold canonicalKeys; decide
  have hc3 : canonicalKeys [("Content-Type", ["b"]), ("Date", ["d"])] := by
    unfold canonicalKeys; decide
  obtain ⟨_, _, _, h4, _, h6⟩ := cleanHeaders_strips
    [("Content-Type", ["b"]), ("X-Foo", ["c"]), ("Date", ["d"])] [] hc1
    ⟨[("Authorization", ["secret"])], [("Content-Type", ["b"]), ("Date", ["d"])]⟩ hc2 hc3
  exact ⟨h4, h6⟩

/-! ## The resources -/

theorem AddError_eq (diags : List Diagnostic) (summary detail : String)
    (h : HasError diags = false) :
    AddError diags summary detail = diags ++ [⟨.error, summary, detail⟩] := by
  unfold AddError Append
  simp only [List.foldl_cons, List.foldl_nil]
  rw [if_neg]
  intro hm
  have : HasError diags = true := by
    unfold HasError
    exact List.any_eq_true.mpr ⟨_, hm, by simp⟩
  rw [h] at this
  cases this

theorem rejected_addError {σ : Type} (diags : List Diagnostic) (summary detail : String)
    (calls : List ApiRequest) (h : HasError diags = false) :
    Rejected diags (some (⟨AddError diags summary detail, none, calls⟩ : Response σ)) :=
  ⟨_, ⟨.error, summary, detail⟩, rfl, rfl, rfl, AddError_eq diags summary detail h⟩

/-- C15, at the failing inputs: the one call that Delete makes, for the
check_json_property, the check_http_status and the datasource resource, is
ApplicationsDestroy with the id of the state: the destroy of an application.
The application_id and the datasource_id of the state are not used. -/
theorem delete_destroys_an_application
    (envj : Env CheckJsonPropertyModel) (envh : Env CheckHttpStatusModel)
    (envd : Env DataSourceModel) (sj : CheckJsonPropertyModel) (sh : CheckHttpStatusModel)
    (sd : DataSourceModel) :
    (checkJsonPropertyResource.Delete envj [] [] sj).map (fun r => r.calls)
        = some [ApiRequest.ApplicationsDestroy (AsInt sj.ID)] ∧
      (checkHttpStatusResource.Delete envh [] [] sh).map (fun r => r.calls)
        = some [ApiRequest.ApplicationsDestroy (AsInt sh.ID)] ∧
      (dataSourceResource.Delete envd [] [] sd).map (fun r => r.calls)
        = some [ApiRequest.ApplicationsDestroy (AsInt sd.ID)] := by
  have h0 : HasError (Append [] []) = false := rfl
  refine ⟨?_, ?_, ?_⟩
  · simp only [checkJsonPropertyResource.Delete, h0]
    cases envj.client (ApiRequest.ApplicationsDestroy (AsInt sj.ID)) with
    | transportError err => rfl
    | response content => by_cases hs : content.StatusCode = 204 <;> simp [hs]
  · simp only [checkHttpStatusResource.Delete, h0]
    cases envh.client (ApiRequest.ApplicationsDestroy (AsInt sh.ID)) with
    | transportError err => rfl
    | response content => by_cases hs : content.StatusCode = 204 <;> simp [hs]
  · simp only [dataSourceResource.Delete, h0]
    cases envd.client (ApiRequest.ApplicationsDestroy (AsInt sd.ID)) with
    | transportError err => rfl
    | response content => by_cases hs : content.StatusCode = 204 <;> simp [hs]

/-- When the decoder returns an error on the decoded body, Create of
json adds one error diagnostic and does not set the state. -/
theorem json_Create_decode_error (env : Env CheckJsonPropertyModel)
    (respDiags planDiags : List Diagnostic) (plan plan1 : CheckJsonPropertyModel)
    (input check : Check) (content : ApiResponse) (err : GoError)
    (hok : HasError (Append respDiags planDiags) = false)
    (hin : plan.toCreateInput = some input)
    (hres : env.client (.ApplicationsDataSourcesChecksCreate (AsInt plan.ApplicationID)
      (AsInt plan.DataSourceID) input) = .response content)
    (hs : content.StatusCode = 201) (hb : content.JSON201 = some check)
    (hf : plan.fromRemote check (AsInt plan.ApplicationID) (AsInt plan.DataSourceID)
      = .ret plan1 (some err)) :
    Rejected (Append respDiags planDiags)
      (checkJsonPropertyResource.Create env respDiags planDiags plan) := by
  simp only [checkJsonPropertyResource.Create, hok, hin, hres, hs, hb, hf, Bool.false_eq_true, if_false,
    ne_eq, not_true_eq_false]
  exact rejected_addError _ _ _ _ hok

/-- When the decoder returns an error on the decoded body, Update of
json adds one error diagnostic and does not set the state. -/
theorem json_Update_decode_error (env : Env CheckJsonPropertyModel)
    (respDiags planDiags : List Diagnostic) (plan plan1 : CheckJsonPropertyModel)
    (input check : Check) (content : ApiResponse) (err : GoError)
    (hok : HasError (Append respDiags planDiags) = false)
    (hin : plan.toUpdateInput = some input)
    (hres : env.client (.ApplicationsDataSourcesChecksUpdate (AsInt plan.ApplicationID)
      (AsInt plan.DataSourceID) (AsInt plan.ID) input) = .response content)
    (hs : content.StatusCode = 200) (hb : content.JSON200 = some check)
    (hf : plan.fromRemote check (AsInt plan.ApplicationID) (AsInt plan.DataSourceID)
      = .ret plan1 (some err)) :
    Rejected (Append respDiags planDiags)
      (checkJsonPropertyResource.Update env respDiags planDiags plan) := by
  simp only [checkJsonPropertyResource.Update, hok, hin, hres, hs, hb, hf, Bool.false_eq_true, if_false,
    ne_eq, not_true_eq_false]
  exact rejected_addError _ _ _ _ hok

/-- When `utils.CheckGetError` has no objection and the decoder returns an
error on the decoded body, Read of json adds one error diagnostic and
does not set the state. -/
theorem json_Read_decode_error (env : Env CheckJsonPropertyModel)
    (respDiags stateDiags : List Diagnostic) (state state1 : CheckJsonPropertyModel)
    (check : Check) (content : ApiResponse) (err : GoError)
    (hok : HasError (Append respDiags stateDiags) = false)
    (hres : env.client (.ApplicationsDataSourcesChecksRetrieve (AsInt state.ApplicationID)
      (AsInt state.DataSourceID) (ValueInt64 state.ID)) = .response content)
    (hg : env.checkGetError "check_json_property" (ValueInt64 state.ID) (.response content) = none)
    (hb : content.JSON200 = some check)
    (hf : state.fromRemote check (AsInt state.ApplicationID) (AsInt state.DataSourceID)
      = .ret state1 (some err)) :
    Rejected (Append respDiags stateDiags)
      (checkJsonPropertyResource.Read env respDiags stateDiags state) := by
  simp only [checkJsonPropertyResource.Read, hok, hres, hg, hb, hf, Bool.false_eq_true, if_false]
  exact rejected_addError _ _ _ _ hok

/-- When the decoder returns an error on the decoded body, Create of
http adds one error diagnostic and does not set the state. -/
theorem http_Create_decode_error (env : Env CheckHttpStatusModel)
    (respDiags planDiags : List Diagnostic) (plan plan1 : CheckHttpStatusModel)
    (input check : Check) (content : ApiResponse) (err : GoError)
    (hok : HasError (Append respDiags planDiags) = false)
    (hin : plan.toCreateInput = some input)
    (hres : env.client (.ApplicationsDataSourcesChecksCreate (AsInt plan.ApplicationID)
      (AsInt plan.DataSourceID) input) = .response content)
    (hs : content.StatusCode = 201) (hb : content.JSON201 = some check)
    (hf : plan.fromRemote check (AsInt plan.ApplicationID) (AsInt plan.DataSourceID)
      = .ret plan1 (some err)) :
    Rejected (Append respDiags planDiags)
      (checkHttpStatusResource.Create env respDiags planDiags plan) := by
  simp only [checkHttpStatusResource.Create, hok, hin, hres, hs, hb, hf, Bool.false_eq_true, if_false,
    ne_eq, not_true_eq_false]
  exact rejected_addError _ _ _ _ hok

/-- When the decoder returns an error on the decoded body, Update of
http adds one error diagnostic and does not set the state. -/
theorem http_Update_decode_error (env : Env CheckHttpStatusModel)
    (respDiags planDiags : List Diagnostic) (plan plan1 : CheckHttpStatusModel)
    (input check : Check) (content : ApiResponse) (err : GoError)
    (hok : HasError (Append respDiags planDiags) = false)
    (hin : plan.toUpdateInput = some input)
    (hres : env.client (.ApplicationsDataSourcesChecksUpdate (AsInt plan.ApplicationID)
      (AsInt plan.DataSourceID) (AsInt plan.ID) input) = .response content)
    (hs : content.StatusCode = 200) (hb : content.JSON200 = some check)
    (hf : plan.fromRemote check (AsInt plan.ApplicationID) (AsInt plan.DataSourceID)
      = .ret plan1 (some err)) :
    Rejected (Append respDiags planDiags)
      (checkHttpStatusResource.Update env respDiags planDiags plan) := by
  simp only [checkHttpStatusResource.Update, hok, hin, hres, hs, hb, hf, Bool.false_eq_true, if_false,
    ne_eq, not_true_eq_false]
  exact rejected_addError _ _ _ _ hok

/-- When `utils.CheckGetError` has no objection and the decoder returns an
error on the decoded body, Read of http adds one error diagnostic and
does not set the state. -/
theorem http_Read_decode_error (env : Env CheckHttpStatusModel)
    (respDiags stateDiags : List Diagnostic) (state state1 : CheckHttpStatusModel)
    (check : Check) (content : ApiResponse) (err : GoError)
    (hok : HasError (Append respDiags stateDiags) = false)
    (hres : env.client (.ApplicationsDataSourcesChecksRetrieve (AsInt state.ApplicationID)
      (AsInt state.DataSourceID) (ValueInt64 state.ID)) = .response content)
    (hg : env.checkGetError "check_http_status" (ValueInt64 state.ID) (.response content) = none)
    (hb : content.JSON200 = some check)
    (hf : state.fromRemote check (AsInt state.ApplicationID) (AsInt state.DataSourceID)
      = .ret state1 (some err)) :
    Rejected (Append respDiags stateDiags)
      (checkHttpStatusResource.Read env respDiags stateDiags state) := by
  simp only [checkHttpStatusResource.Read, hok, hres, hg, hb, hf, Bool.false_eq_true, if_false]
  exact rejected_addError _ _ _ _ hok

/-- The outcomes of Create of check_json_property once the plan was read
without an error diagnostic: it panics exactly when a 201 response has no
decoded body or the decoder panics; when it returns it has made one call; it
sets the state exactly when the call returned a response of status 201 whose
body the decoder accepted; and otherwise it added one error diagnostic. -/
theorem json_Create_gating (env : Env CheckJsonPropertyModel)
    (respDiags planDiags : List Diagnostic) (plan : CheckJsonPropertyModel)
    (hok : HasError (Append respDiags planDiags) = false) :
    ∃ input, plan.toCreateInput = some input ∧
      (checkJsonPropertyResource.Create env respDiags planDiags plan = none ↔
        ∃ content, env.client (.ApplicationsDataSourcesChecksCreate (AsInt plan.ApplicationID)
            (AsInt plan.DataSourceID) input) = .response content ∧
          content.StatusCode = 201 ∧
          (content.JSON201 = none ∨ ∃ check, content.JSON201 = some check ∧
            plan.fromRemote check (AsInt plan.ApplicationID) (AsInt plan.DataSourceID)
              = .panic)) ∧
      (∀ r, checkJsonPropertyResource.Create env respDiags planDiags plan = some r →
        r.calls = [.ApplicationsDataSourcesChecksCreate (AsInt plan.ApplicationID)
            (AsInt plan.DataSourceID) input] ∧
        (r.State ≠ none ↔
          ∃ content check plan1, env.client (.ApplicationsDataSourcesChecksCreate (AsInt plan.ApplicationID)
              (AsInt plan.DataSourceID) input) = .response content ∧
            content.StatusCode = 201 ∧ content.JSON201 = some check ∧
            plan.fromRemote check (AsInt plan.ApplicationID) (AsInt plan.DataSourceID)
              = .ret plan1 none ∧
            r.State = some plan1) ∧
        (r.State = none → Rejected (Append respDiags planDiags) (some r))) := by
  obtain ⟨input, hin⟩ : ∃ input, plan.toCreateInput = some input := ⟨_, createRequest_eq plan⟩
  refine ⟨input, hin, ?_⟩
  cases hres : env.client (.ApplicationsDataSourcesChecksCreate (AsInt plan.ApplicationID)
      (AsInt plan.DataSourceID) input) with
  | transportError err =>
    have hC : checkJsonPropertyResource.Create env respDiags planDiags plan
        = some ⟨AddError (Append respDiags planDiags) "Error creating check_json_property"
            ("Could not create check_json_property, unexpected error: "
              ++ err.Error env.jsonText), none,
            [.ApplicationsDataSourcesChecksCreate (AsInt plan.ApplicationID) (AsInt plan.DataSourceID) input]⟩ := by
      simp only [checkJsonPropertyResource.Create, hok, hin, hres, Bool.false_eq_true,
        if_false]
    rw [hC]
    refine ⟨⟨fun h => (by cases h), fun ⟨c, hc, _⟩ => (by cases hc)⟩, fun r hr => ?_⟩
    cases hr
    refine ⟨rfl, ⟨fun h => absurd rfl h, fun ⟨c, _, _, hc, _⟩ => (by cases hc)⟩, fun _ => ?_⟩
    exact rejected_addError _ _ _ _ hok
  | response content =>
    by_cases hs : content.StatusCode = 201
    · cases hb : content.JSON201 with
      | none =>
        have hC : checkJsonPropertyResource.Create env respDiags planDiags plan = none := by
          simp only [checkJsonPropertyResource.Create, hok, hin, hres, hs, hb,
            Bool.false_eq_true, if_false, ne_eq, not_true_eq_false]
        rw [hC]
        exact ⟨⟨fun _ => ⟨content, rfl, hs, Or.inl hb⟩, fun _ => rfl⟩,
          fun r hr => (by cases hr)⟩
      | some check =>
        cases hf : plan.fromRemote check (AsInt plan.ApplicationID)
            (AsInt plan.DataSourceID) with
        | panic =>
          have hC : checkJsonPropertyResource.Create env respDiags planDiags plan
              = none := by
            simp only [checkJsonPropertyResource.Create, hok, hin, hres, hs, hb, hf,
              Bool.false_eq_true, if_false, ne_eq, not_true_eq_false]
          rw [hC]
          exact ⟨⟨fun _ => ⟨content, rfl, hs, Or.inr ⟨check, hb, hf⟩⟩, fun _ => rfl⟩,
            fun r hr => (by cases hr)⟩
        | ret plan1 eo =>
          have hnp : ¬ ∃ c, ApiResult.response content = .response c ∧
              c.StatusCode = 201 ∧
              (c.JSON201 = none ∨ ∃ check, c.JSON201 = some check ∧
                plan.fromRemote check (AsInt plan.ApplicationID) (AsInt plan.DataSourceID)
                  = .panic) := by
            rintro ⟨c, hc, _, h3⟩
            cases hc
            rcases h3 with h3 | ⟨ck, h3, h4⟩
            · rw [hb] at h3; cases h3
            · rw [hb] at h3; cases h3; rw [hf] at h4; cases h4
          cases eo with
          | none =>
            have hC : checkJsonPropertyResource.Create env respDiags planDiags plan
                = some ⟨Append (Append respDiags planDiags) (env.stateSet plan1),
                    some plan1,
                    [.ApplicationsDataSourcesChecksCreate (AsInt plan.ApplicationID) (AsInt plan.DataSourceID)
                      input]⟩ := by
              simp only [checkJsonPropertyResource.Create, hok, hin, hres, hs, hb, hf,
                Bool.false_eq_true, if_false, ne_eq, not_true_eq_false]
            rw [hC]
            refine ⟨⟨fun h => (by cases h), fun h => absurd h hnp⟩, fun r hr => ?_⟩
            cases hr
            exact ⟨rfl, ⟨fun _ => ⟨content, check, plan1, rfl, hs, hb, hf, rfl⟩,
              fun _ h => (by cases h)⟩, fun h => (by cases h)⟩
          | some err =>
            have hC : checkJsonPropertyResource.Create env respDiags planDiags plan
                = some ⟨AddError (Append respDiags planDiags)
                    "Error creating check_json_property"
                    ("Could not create check_json_property, unexpected error: "
                      ++ err.Error env.jsonText), none,
                    [.ApplicationsDataSourcesChecksCreate (AsInt plan.ApplicationID) (AsInt plan.DataSourceID)
                      input]⟩ := by
              simp only [checkJsonPropertyResource.Create, hok, hin, hres, hs, hb, hf,
                Bool.false_eq_true, if_false, ne_eq, not_true_eq_false]
            rw [hC]
            refine ⟨⟨fun h => (by cases h), fun h => absurd h hnp⟩, fun r hr => ?_⟩
            cases hr
            refine ⟨rfl, ⟨fun h => absurd rfl h, ?_⟩, fun _ => rejected_addError _ _ _ _ hok⟩
            rintro ⟨c, ck, p1, hc, _, h3, h4, _⟩
            cases hc
            rw [hb] at h3
            cases h3
            rw [hf] at h4
            cases h4
    · have hC : checkJsonPropertyResource.Create env respDiags planDiags plan
          = some ⟨AddError (Append respDiags planDiags) "Error creating check_json_property"
              ("Could not create check_json_property, status code "
                ++ String.mk (intDigits content.StatusCode) ++ " error: " ++ content.Body),
              none,
              [.ApplicationsDataSourcesChecksCreate (AsInt plan.ApplicationID) (AsInt plan.DataSourceID)
                input]⟩ := by
        simp only [checkJsonPropertyResource.Create, hok, hin, hres, hs,
          Bool.false_eq_true, if_false, ne_eq, not_false_eq_true, if_true]
      rw [hC]
      refine ⟨⟨fun h => (by cases h), ?_⟩, fun r hr => ?_⟩
      · rintro ⟨c, hc, h2, _⟩
        cases hc
        exact absurd h2 hs
      · cases hr
        refine ⟨rfl, ⟨fun h => absurd rfl h, ?_⟩, fun _ => rejected_addError _ _ _ _ hok⟩
        rintro ⟨c, ck, p1, hc, h2, _⟩
        cases hc
        exact absurd h2 hs

/-- The outcomes of Update of check_json_property once the plan was read
without an error diagnostic: it panics exactly when a 200 response has no
decoded body or the decoder panics; when it returns it has made one call; it
sets the state exactly when the call returned a response of status 200 whose
body the decoder accepted; and otherwise it added one error diagnostic. -/
theorem json_Update_gating (env : Env CheckJsonPropertyModel)
    (respDiags planDiags : List Diagnostic) (plan : CheckJsonPropertyModel)
    (hok : HasError (Append respDiags planDiags) = false) :
    ∃ input, plan.toUpdateInput = some input ∧
      (checkJsonPropertyResource.Update env respDiags planDiags plan = none ↔
        ∃ content, env.client (.ApplicationsDataSourcesChecksUpdate (AsInt plan.ApplicationID)
            (AsInt plan.DataSourceID) (AsInt plan.ID) input) = .response content ∧
          content.StatusCode = 200 ∧
          (content.JSON200 = none ∨ ∃ check, content.JSON200 = some check ∧
            plan.fromRemote check (AsInt plan.ApplicationID) (AsInt plan.DataSourceID)
              = .panic)) ∧
      (∀ r, checkJsonPropertyResource.Update env respDiags planDiags plan = some r →
        r.calls = [.ApplicationsDataSourcesChecksUpdate (AsInt plan.ApplicationID)
            (AsInt plan.DataSourceID) (AsInt plan.ID) input] ∧
        (r.State ≠ none ↔
          ∃ content check plan1, env.client (.ApplicationsDataSourcesChecksUpdate (AsInt plan.ApplicationID)
              (AsInt plan.DataSourceID) (AsInt plan.ID) input) = .response content ∧
            content.StatusCode = 200 ∧ content.JSON200 = some check ∧
            plan.fromRemote check (AsInt plan.ApplicationID) (AsInt plan.DataSourceID)
              = .ret plan1 none ∧
            r.State = some plan1) ∧
        (r.State = none → Rejected (Append respDiags planDiags) (some r))) := by
  obtain ⟨input, hin⟩ : ∃ input, plan.toUpdateInput = some input := ⟨_, createRequest_eq plan⟩
  refine ⟨input, hin, ?_⟩
  cases hres : env.client (.ApplicationsDataSourcesChecksUpdate (AsInt plan.ApplicationID)
      (AsInt plan.DataSourceID) (AsInt plan.ID) input) with
  | transportError err =>
    have hC : checkJsonPropertyResource.Update env respDiags planDiags plan
        = some ⟨AddError (Append respDiags planDiags) "Error updating check_json_property"
            ("Could not update check_json_property, unexpected error: "
              ++ err.Error env.jsonText), none,
            [.ApplicationsDataSourcesChecksUpdate (AsInt plan.ApplicationID) (AsInt plan.DataSourceID) (AsInt plan.ID) input]⟩ := by
      simp only [checkJsonPropertyResource.Update, hok, hin, hres, Bool.false_eq_true,
        if_false]
    rw [hC]
    refine ⟨⟨fun h => (by cases h), fun ⟨c, hc, _⟩ => (by cases hc)⟩, fun r hr => ?_⟩
    cases hr
    refine ⟨rfl, ⟨fun h => absurd rfl h, fun ⟨c, _, _, hc, _⟩ => (by cases hc)⟩, fun _ => ?_⟩
    exact rejected_addError _ _ _ _ hok
  | response content =>
    by_cases hs : content.StatusCode = 200
    · cases hb : content.JSON200 with
      | none =>
        have hC : checkJsonPropertyResource.Update env respDiags planDiags plan = none := by
          simp only [checkJsonPropertyResource.Update, hok, hin, hres, hs, hb,
            Bool.false_eq_true, if_false, ne_eq, not_true_eq_false]
        rw [hC]
        exact ⟨⟨fun _ => ⟨content, rfl, hs, Or.inl hb⟩, fun _ => rfl⟩,
          fun r hr => (by cases hr)⟩
      | some check =>
        cases hf : plan.fromRemote check (AsInt plan.ApplicationID)
            (AsInt plan.DataSourceID) with
        | panic =>
          have hC : checkJsonPropertyResource.Update env respDiags planDiags plan
              = none := by
            simp only [checkJsonPropertyResource.Update, hok, hin, hres, hs, hb, hf,
              Bool.false_eq_true, if_false, ne_eq, not_true_eq_false]
          rw [hC]
          exact ⟨⟨fun _ => ⟨content, rfl, hs, Or.inr ⟨check, hb, hf⟩⟩, fun _ => rfl⟩,
            fun r hr => (by cases hr)⟩
        | ret plan1 eo =>
          have hnp : ¬ ∃ c, ApiResult.response content = .response c ∧
              c.StatusCode = 200 ∧
              (c.JSON200 = none ∨ ∃ check, c.JSON200 = some check ∧
                plan.fromRemote check (AsInt plan.ApplicationID) (AsInt plan.DataSourceID)
                  = .panic) := by
            rintro ⟨c, hc, _, h3⟩
            cases hc
            rcases h3 with h3 | ⟨ck, h3, h4⟩
            · rw [hb] at h3; cases h3
            · rw [hb] at h3; cases h3; rw [hf] at h4; cases h4
          cases eo with
          | none =>
            have hC : checkJsonPropertyResource.Update env respDiags planDiags plan
                = some ⟨Append (Append respDiags planDiags) (env.stateSet plan1),
                    some plan1,
                    [.ApplicationsDataSourcesChecksUpdate (AsInt plan.ApplicationID) (AsInt plan.DataSourceID) (AsInt plan.ID)
                      input]⟩ := by
              simp only [checkJsonPropertyResource.Update, hok, hin, hres, hs, hb, hf,
                Bool.false_eq_true, if_false, ne_eq, not_true_eq_false]
            rw [hC]
            refine ⟨⟨fun h => (by cases h), fun h => absurd h hnp⟩, fun r hr => ?_⟩
            cases hr
            exact ⟨rfl, ⟨fun _ => ⟨content, check, plan1, rfl, hs, hb, hf, rfl⟩,
              fun _ h => (by cases h)⟩, fun h => (by cases h)⟩
          | some err =>
            have hC : checkJsonPropertyResource.Update env respDiags planDiags plan
                = some ⟨AddError (Append respDiags planDiags)
                    "Error updating check_json_property"
                    ("Could not update check_json_property, unexpected error: "
                      ++ err.Error env.jsonText), none,
                    [.ApplicationsDataSourcesChecksUpdate (AsInt plan.ApplicationID) (AsInt plan.DataSourceID) (AsInt plan.ID)
                      input]⟩ := by
              simp only [checkJsonPropertyResource.Update, hok, hin, hres, hs, hb, hf,
                Bool.false_eq_true, if_false, ne_eq, not_true_eq_false]
            rw [hC]
            refine ⟨⟨fun h => (by cases h), fun h => absurd h hnp⟩, fun r hr => ?_⟩
            cases hr
            refine ⟨rfl, ⟨fun h => absurd rfl h, ?_⟩, fun _ => rejected_addError _ _ _ _ hok⟩
            rintro ⟨c, ck, p1, hc, _, h3, h4, _⟩
            cases hc
            rw [hb] at h3
            cases h3
            rw [hf] at h4
            cases h4
    · have hC : checkJsonPropertyResource.Update env respDiags planDiags plan
          = some ⟨AddError (Append respDiags planDiags) "Error updating check_json_property"
              ("Could not update check_json_property, status code "
                ++ String.mk (intDigits content.StatusCode) ++ " error: " ++ content.Body),
              none,
              [.ApplicationsDataSourcesChecksUpdate (AsInt plan.ApplicationID) (AsInt plan.DataSourceID) (AsInt plan.ID)
                input]⟩ := by
        simp only [checkJsonPropertyResource.Update, hok, hin, hres, hs,
          Bool.false_eq_true, if_false, ne_eq, not_false_eq_true, if_true]
      rw [hC]
      refine ⟨⟨fun h => (by cases h), ?_⟩, fun r hr => ?_⟩
      · rintro ⟨c, hc, h2, _⟩
        cases hc
        exact absurd h2 hs
      · cases hr
        refine ⟨rfl, ⟨fun h => absurd rfl h, ?_⟩, fun _ => rejected_addError _ _ _ _ hok⟩
        rintro ⟨c, ck, p1, hc, h2, _⟩
        cases hc
        exact absurd h2 hs

/-- The outcomes of Delete of check_json_property once the state was read
without an error diagnostic: it returns, having made one call and without
setting the state; it adds no diagnostic exactly when the call returned a
response of status 204, and otherwise it adds one error diagnostic. -/
theorem json_Delete_gating (env : Env CheckJsonPropertyModel)
    (respDiags stateDiags : List Diagnostic) (state : CheckJsonPropertyModel)
    (hok : HasError (Append respDiags stateDiags) = false) :
    ∃ r, checkJsonPropertyResource.Delete env respDiags stateDiags state = some r ∧
      r.State = none ∧ r.calls = [.ApplicationsDestroy (AsInt state.ID)] ∧
      (r.Diagnostics = Append respDiags stateDiags ↔
        ∃ content, env.client (.ApplicationsDestroy (AsInt state.ID)) = .response content ∧
          content.StatusCode = 204) ∧
      (r.Diagnostics ≠ Append respDiags stateDiags →
        Rejected (Append respDiags stateDiags) (some r)) := by
  have hne : ∀ (l : List Diagnostic) (d : Diagnostic), l ++ [d] ≠ l := by
    intro l d h
    have := congrArg List.length h
    simp at this
  cases hres : env.client (.ApplicationsDestroy (AsInt state.ID)) with
  | transportError err =>
    refine ⟨_, (by simp only [checkJsonPropertyResource.Delete, hok, hres,
      Bool.false_eq_true, if_false]; rfl), rfl, rfl, ?_, fun _ => rejected_addError _ _ _ _ hok⟩
    constructor
    · intro h
      rw [AddError_eq _ _ _ hok] at h
      exact absurd h (hne _ _)
    · rintro ⟨c, hc, _⟩
      cases hc
  | response content =>
    by_cases hs : content.StatusCode = 204
    · refine ⟨_, (by simp only [checkJsonPropertyResource.Delete, hok, hres, hs,
        Bool.false_eq_true, if_false, ne_eq, not_true_eq_false]; rfl), rfl, rfl, ?_, ?_⟩
      · exact ⟨fun _ => ⟨content, rfl, hs⟩, fun _ => rfl⟩
      · intro h
        exact absurd rfl h
    · refine ⟨_, (by simp only [checkJsonPropertyResource.Delete, hok, hres, hs,
        Bool.false_eq_true, if_false, ne_eq, not_false_eq_true, if_true]; rfl), rfl, rfl, ?_,
        fun _ => rejected_addError _ _ _ _ hok⟩
      constructor
      · intro h
        rw [AddError_eq _ _ _ hok] at h
        exact absurd h (hne _ _)
      · rintro ⟨c, hc, h2⟩
        cases hc
        exact absurd h2 hs

/-- C18, counterexample: the API answers the create call with status 201 and
a json_property envelope without id; no transport error occurred and the
status is 201, the decoder does not succeed (it panics), and Create adds no
diagnostic: it panics. -/
theorem create_panics_on_envelope_without_id :
    checkJsonPropertyResource.Create
        (constEnv CheckJsonPropertyModel
          { StatusCode := 201,
            JSON201 := some { kind := some "json_property", datatype := "bool", value := "true" } })
        [] [] { DataType := .known "bool", ValueBoolean := .known true } = none ∧
      ({ DataType := .known "bool", ValueBoolean := .known true } :
          CheckJsonPropertyModel).fromRemote
        { kind := some "json_property", datatype := "bool", value := "true" } 0 0
        = .panic :=
  ⟨rfl, rfl⟩

/-- C18, amended: once the plan or state was read without an error diagnostic,
whenever Create of check_json_property returns it has set the state if and
only if the call returned no transport error, the status is exactly 201 and
fromRemote succeeded on the decoded body, and Update likewise with exactly
200; in every other case in which they return, exactly one error diagnostic
was added and the state was not set. Delete always returns without setting
the state, adds no diagnostic exactly for status 204, and adds exactly one
error diagnostic otherwise. Create and Update fail to return (they panic)
exactly when a response of status 201, or 200, has no decoded body or
fromRemote panics on it. -/
theorem status_gating (env : Env CheckJsonPropertyModel)
    (respDiags getDiags : List Diagnostic) (m : CheckJsonPropertyModel)
    (hok : HasError (Append respDiags getDiags) = false) :
    (∀ r, checkJsonPropertyResource.Create env respDiags getDiags m = some r →
      (r.State ≠ none ↔
        ∃ input content check m1, m.toCreateInput = some input ∧
          env.client (.ApplicationsDataSourcesChecksCreate (AsInt m.ApplicationID)
            (AsInt m.DataSourceID) input)
            = .response content ∧
          content.StatusCode = 201 ∧ content.JSON201 = some check ∧
          m.fromRemote check (AsInt m.ApplicationID) (AsInt m.DataSourceID)
            = .ret m1 none ∧
          r.State = some m1) ∧
      (r.State = none → Rejected (Append respDiags getDiags) (some r))) ∧
    (∀ r, checkJsonPropertyResource.Update env respDiags getDiags m = some r →
      (r.State ≠ none ↔
        ∃ input content check m1, m.toUpdateInput = some input ∧
          env.client (.ApplicationsDataSourcesChecksUpdate (AsInt m.ApplicationID)
            (AsInt m.DataSourceID) (AsInt m.ID) input)
            = .response content ∧
          content.StatusCode = 200 ∧ content.JSON200 = some check ∧
          m.fromRemote check (AsInt m.ApplicationID) (AsInt m.DataSourceID)
            = .ret m1 none ∧
          r.State = some m1) ∧
      (r.State = none → Rejected (Append respDiags getDiags) (some r))) ∧
    (∃ r, checkJsonPropertyResource.Delete env respDiags getDiags m = some r ∧
      r.State = none ∧
      (r.Diagnostics = Append respDiags getDiags ↔
        ∃ content, env.client (.ApplicationsDestroy (AsInt m.ID)) = .response content ∧
          content.StatusCode = 204) ∧
      (r.Diagnostics ≠ Append respDiags getDiags →
        Rejected (Append respDiags getDiags) (some r))) ∧
    (checkJsonPropertyResource.Create env respDiags getDiags m = none ↔
      ∃ input content, m.toCreateInput = some input ∧
        env.client (.ApplicationsDataSourcesChecksCreate (AsInt m.ApplicationID)
          (AsInt m.DataSourceID) input)
          = .response content ∧
        content.StatusCode = 201 ∧
        (content.JSON201 = none ∨ ∃ check, content.JSON201 = some check ∧
          m.fromRemote check (AsInt m.ApplicationID) (AsInt m.DataSourceID) = .panic)) ∧
    (checkJsonPropertyResource.Update env respDiags getDiags m = none ↔
      ∃ input content, m.toUpdateInput = some input ∧
        env.client (.ApplicationsDataSourcesChecksUpdate (AsInt m.ApplicationID)
          (AsInt m.DataSourceID) (AsInt m.ID) input)
          = .response content ∧
        content.StatusCode = 200 ∧
        (content.JSON200 = none ∨ ∃ check, content.JSON200 = some check ∧
          m.fromRemote check (AsInt m.ApplicationID) (AsInt m.DataSourceID) = .panic)) := by
  refine ⟨?_, ?_, ?_, ?_, ?_⟩
  · obtain ⟨input, hin, _, hall⟩ := json_Create_gating env respDiags getDiags m hok
    intro r hr
    obtain ⟨_, hiff, hrej⟩ := hall r hr
    refine ⟨⟨fun h => ?_, fun h => ?_⟩, hrej⟩
    · obtain ⟨c, ck, p, h1, h2, h3, h4, h5⟩ := hiff.mp h
      exact ⟨input, c, ck, p, hin, h1, h2, h3, h4, h5⟩
    · obtain ⟨input2, c, ck, p, hin2, h1, h2, h3, h4, h5⟩ := h
      rw [hin] at hin2
      cases hin2
      exact hiff.mpr ⟨c, ck, p, h1, h2, h3, h4, h5⟩
  · obtain ⟨input, hin, _, hall⟩ := json_Update_gating env respDiags getDiags m hok
    intro r hr
    obtain ⟨_, hiff, hrej⟩ := hall r hr
    refine ⟨⟨fun h => ?_, fun h => ?_⟩, hrej⟩
    · obtain ⟨c, ck, p, h1, h2, h3, h4, h5⟩ := hiff.mp h
      exact ⟨input, c, ck, p, hin, h1, h2, h3, h4, h5⟩
    · obtain ⟨input2, c, ck, p, hin2, h1, h2, h3, h4, h5⟩ := h
      rw [hin] at hin2
      cases hin2
      exact hiff.mpr ⟨c, ck, p, h1, h2, h3, h4, h5⟩
  · obtain ⟨r, h1, h2, _, h4, h5⟩ := json_Delete_gating env respDiags getDiags m hok
    exact ⟨r, h1, h2, h4, h5⟩
  · obtain ⟨input, hin, hnone, _⟩ := json_Create_gating env respDiags getDiags m hok
    refine ⟨fun h => ?_, fun h => ?_⟩
    · obtain ⟨c, h1, h2, h3⟩ := hnone.mp h
      exact ⟨input, c, hin, h1, h2, h3⟩
    · obtain ⟨input2, c, hin2, h1, h2, h3⟩ := h
      rw [hin] at hin2
      cases hin2
      exact hnone.mpr ⟨c, h1, h2, h3⟩
  · obtain ⟨input, hin, hnone, _⟩ := json_Update_gating env respDiags getDiags m hok
    refine ⟨fun h => ?_, fun h => ?_⟩
    · obtain ⟨c, h1, h2, h3⟩ := hnone.mp h
      exact ⟨input, c, hin, h1, h2, h3⟩
    · obtain ⟨input2, c, hin2, h1, h2, h3⟩ := h
      rw [hin] at hin2
      cases hin2
      exact hnone.mpr ⟨c, h1, h2, h3⟩

theorem status_gating_witness :
    Rejected [] (checkJsonPropertyResource.Create
      (constEnv CheckJsonPropertyModel { StatusCode := 500, Body := "oops" }) [] [] {}) := by
  have hr : checkJsonPropertyResource.Create
      (constEnv CheckJsonPropertyModel { StatusCode := 500, Body := "oops" }) [] [] {}
      = some ⟨[⟨.error, "Error creating check_json_property",
          "Could not create check_json_property, status code 500 error: oops"⟩], none,
          [.ApplicationsDataSourcesChecksCreate 0 0 { kind := some "json_property" }]⟩ := by
    rfl
  rw [hr]
  exact ((status_gating (constEnv CheckJsonPropertyModel { StatusCode := 500, Body := "oops" })
    [] [] {} rfl).1 _ hr).2 rfl

/-- C11: for an envelope whose kind is missing or is neither http_status nor
json_property, fromRemote of either model returns the "unknown check kind"
error and leaves the model as it was; and Create, Read and Update of both
check resources, when the API hands them such an envelope as the decoded
body, add one error diagnostic and do not set the state. -/
theorem unknown_kind_is_rejected (i : Check) (hk1 : i.kind ≠ some "http_status")
    (hk2 : i.kind ≠ some "json_property") :
    (∀ (r : CheckJsonPropertyModel) (a d : Int),
      r.fromRemote i a d = .ret r (some (.errorsNew "unknown check kind"))) ∧
    (∀ (r : CheckHttpStatusModel) (a d : Int),
      r.fromRemote i a d = .ret r (some (.errorsNew "unknown check kind"))) ∧
    (∀ jsonText, (GoError.errorsNew "unknown check kind").Error jsonText
      = "unknown check kind") ∧
    (∀ (env : Env CheckJsonPropertyModel) (respDiags getDiags : List Diagnostic)
        (m : CheckJsonPropertyModel) (content : ApiResponse),
      HasError (Append respDiags getDiags) = false →
      ((∀ input, m.toCreateInput = some input →
          env.client (.ApplicationsDataSourcesChecksCreate (AsInt m.ApplicationID)
            (AsInt m.DataSourceID) input) = .response content) →
        content.StatusCode = 201 → content.JSON201 = some i →
        Rejected (Append respDiags getDiags)
          (checkJsonPropertyResource.Create env respDiags getDiags m)) ∧
      (env.client (.ApplicationsDataSourcesChecksRetrieve (AsInt m.ApplicationID)
            (AsInt m.DataSourceID) (ValueInt64 m.ID)) = .response content →
        env.checkGetError "check_json_property" (ValueInt64 m.ID) (.response content) = none →
        content.JSON200 = some i →
        Rejected (Append respDiags getDiags)
          (checkJsonPropertyResource.Read env respDiags getDiags m)) ∧
      ((∀ input, m.toUpdateInput = some input →
          env.client (.ApplicationsDataSourcesChecksUpdate (AsInt m.ApplicationID)
            (AsInt m.DataSourceID) (AsInt m.ID) input) = .response content) →
        content.StatusCode = 200 → content.JSON200 = some i →
        Rejected (Append respDiags getDiags)
          (checkJsonPropertyResource.Update env respDiags getDiags m))) ∧
    (∀ (env : Env CheckHttpStatusModel) (respDiags getDiags : List Diagnostic)
        (m : CheckHttpStatusModel) (content : ApiResponse),
      HasError (Append respDiags getDiags) = false →
      ((∀ input, m.toCreateInput = some input →
          env.client (.ApplicationsDataSourcesChecksCreate (AsInt m.ApplicationID)
            (AsInt m.DataSourceID) input) = .response content) →
        content.StatusCode = 201 → content.JSON201 = some i →
        Rejected (Append respDiags getDiags)
          (checkHttpStatusResource.Create env respDiags getDiags m)) ∧
      (env.client (.ApplicationsDataSourcesChecksRetrieve (AsInt m.ApplicationID)
            (AsInt m.DataSourceID) (ValueInt64 m.ID)) = .response content →
        env.checkGetError "check_http_status" (ValueInt64 m.ID) (.response content) = none →
        content.JSON200 = some i →
        Rejected (Append respDiags getDiags)
          (checkHttpStatusResource.Read env respDiags getDiags m)) ∧
      ((∀ input, m.toUpdateInput = some input →
          env.client (.ApplicationsDataSourcesChecksUpdate (AsInt m.ApplicationID)
            (AsInt m.DataSourceID) (AsInt m.ID) input) = .response content) →
        content.StatusCode = 200 → content.JSON200 = some i →
        Rejected (Append respDiags getDiags)
          (checkHttpStatusResource.Update env respDiags getDiags m))) := by
  refine ⟨fun r a d => ?_, fun r a d => ?_, fun _ => rfl, ?_, ?_⟩
  · rw [fromRemote_json_other_kind r i a d hk2, if_neg hk1]
  · rw [fromRemote_http_other_kind r i a d hk1, if_neg hk2]
  · intro env respDiags getDiags m content hok
    have hf := fromRemote_json_other_kind m i (AsInt m.ApplicationID) (AsInt m.DataSourceID) hk2
    rw [if_neg hk1] at hf
    refine ⟨fun hc hs hb => ?_, fun hc hg hb => ?_, fun hc hs hb => ?_⟩
    · exact json_Create_decode_error env respDiags getDiags m m _ i content _ hok
        (createRequest_eq m) (hc _ (createRequest_eq m)) hs hb hf
    · exact json_Read_decode_error env respDiags getDiags m m i content _ hok
        hc hg hb hf
    · exact json_Update_decode_error env respDiags getDiags m m _ i content _ hok
        (createRequest_eq m) (hc _ (createRequest_eq m)) hs hb hf
  · intro env respDiags getDiags m content hok
    have hf := fromRemote_http_other_kind m i (AsInt m.ApplicationID) (AsInt m.DataSourceID) hk1
    rw [if_neg hk2] at hf
    refine ⟨fun hc hs hb => ?_, fun hc hg hb => ?_, fun hc hs hb => ?_⟩
    · exact http_Create_decode_error env respDiags getDiags m m _ i content _ hok
        (createRequest_http_eq m) (hc _ (createRequest_http_eq m)) hs hb hf
    · exact http_Read_decode_error env respDiags getDiags m m i content _ hok
        hc hg hb hf
    · exact http_Update_decode_error env respDiags getDiags m m _ i content _ hok
        (createRequest_http_eq m) (hc _ (createRequest_http_eq m)) hs hb hf

theorem unknown_kind_is_rejected_witness :
    ({ Name := .known "n" } : CheckJsonPropertyModel).fromRemote
        { kind := some "unknown_kind", id := some 1 } 7 3
      = .ret { Name := .known "n" } (some (.errorsNew "unknown check kind")) ∧
    Rejected [] (checkHttpStatusResource.Create
      (constEnv CheckHttpStatusModel
        { StatusCode := 201, JSON201 := some { kind := none, id := some 1 } }) [] [] {}) :=
  ⟨(unknown_kind_is_rejected { kind := some "unknown_kind", id := some 1 }
      (by decide) (by decide)).1 _ 7 3,
   ((unknown_kind_is_rejected { kind := none, id := some 1 }
      (by decide) (by decide)).2.2.2.2
      (constEnv CheckHttpStatusModel
        { StatusCode := 201, JSON201 := some { kind := none, id := some 1 } }) [] [] {}
      { StatusCode := 201, JSON201 := some { kind := none, id := some 1 } } rfl).1
      (fun _ _ => rfl) rfl rfl⟩

/-! ## Rejection of the other variant, and the frame of the decoder -/

/-- C21: fromRemote of the json_property model returns an error on an envelope
of kind http_status, and fromRemote of the http_status model on one of kind
json_property; and whenever the kind of the envelope is not the model's own
(the other variant, an unknown kind, or none), fromRemote returns an error
and the model is exactly as it was before the call. -/
theorem other_variant_is_rejected (rj : CheckJsonPropertyModel)
    (rh : CheckHttpStatusModel) (i : Check) (a d : Int) :
    (i.kind = some "http_status" →
      rj.fromRemote i a d = .ret rj (some (.errorsNew "unknown data source type"))) ∧
    (i.kind = some "json_property" →
      rh.fromRemote i a d = .ret rh (some (.errorsNew "unknown data source type"))) ∧
    (i.kind ≠ some "json_property" → ∃ e, rj.fromRemote i a d = .ret rj (some e)) ∧
    (i.kind ≠ some "http_status" → ∃ e, rh.fromRemote i a d = .ret rh (some e)) ∧
    (∀ m1 t, rj.fromRemote i a d = .ret m1 (some (.errorsNew t)) → m1 = rj) ∧
    (∀ m1 t, rh.fromRemote i a d = .ret m1 (some (.errorsNew t)) → m1 = rh) := by
  have hne : (some "http_status" : Option String) ≠ some "json_property" := by decide
  refine ⟨fun hk => ?_, fun hk => ?_, fun hk => ⟨_, fromRemote_json_other_kind rj i a d hk⟩,
    fun hk => ⟨_, fromRemote_http_other_kind rh i a d hk⟩, fun m1 t h => ?_, fun m1 t h => ?_⟩
  · rw [fromRemote_json_other_kind rj i a d (by rw [hk]; exact hne), if_pos hk]
  · rw [fromRemote_http_other_kind rh i a d (by rw [hk]; exact hne.symm), if_pos hk]
  · by_cases hk : i.kind = some "json_property"
    · exfalso
      cases hid : i.id with
      | none => rw [fromRemote_no_id rj i a d hk hid] at h; cases h
      | some id =>
        rw [fromRemote_eq rj i id a d hk hid] at h
        split_ifs at h
        · cases hu : jsonUnmarshalBool i.value <;> rw [hu] at h <;> cases h
        · cases hu : jsonUnmarshalInt64 i.value <;> rw [hu] at h <;> cases h
        · cases hu : jsonUnmarshalString i.value <;> rw [hu] at h <;> cases h
        · cases hu : jsonUnmarshalString i.value <;> rw [hu] at h <;> cases h
        · cases h
    · rw [fromRemote_json_other_kind rj i a d hk] at h
      cases h
      rfl
  · by_cases hk : i.kind = some "http_status"
    · exfalso
      rw [fromRemote_http_eq rh i a d hk] at h
      cases hid : i.id <;> rw [hid] at h <;> cases h
    · rw [fromRemote_http_other_kind rh i a d hk] at h
      cases h
      rfl

theorem other_variant_is_rejected_witness :
    ({ Name := .known "n", ValueInt := .known 4 } : CheckJsonPropertyModel).fromRemote
        { kind := some "http_status", id := some 9, label := "up", status_code := 200 } 7 3
      = .ret { Name := .known "n", ValueInt := .known 4 }
          (some (.errorsNew "unknown data source type")) :=
  (other_variant_is_rejected { Name := .known "n", ValueInt := .known 4 } {}
    { kind := some "http_status", id := some 9, label := "up", status_code := 200 } 7 3).1 rfl

/-- The result of fromRemote on a json_property envelope with an id: the
copied fields, the crontab, and for each value slot either its old value or,
when the datatype selects it and no error is returned, a new one. -/
theorem fromRemote_json_shape (r : CheckJsonPropertyModel) (i : Check) (id a d : Int)
    (m1 : CheckJsonPropertyModel) (err : Option GoError)
    (hk : i.kind = some "json_property") (hid : i.id = some id)
    (h : r.fromRemote i a d = .ret m1 err) :
    m1.Crontab = r.Crontab ∧ m1.ID = .known id ∧ m1.Name = .known i.label ∧
    m1.ApplicationID = .known a ∧ m1.DataSourceID = .known d ∧
    m1.Enabled = BoolPointerValue i.enabled ∧ m1.Operator = .known i.operator ∧
    m1.Path = .known i.path ∧ m1.DataType = .known i.datatype ∧
    (m1.ValueBoolean = r.ValueBoolean ∨ (i.datatype = "bool" ∧ err = none)) ∧
    (m1.ValueInt = r.ValueInt ∨ (i.datatype = "int" ∧ err = none)) ∧
    (m1.ValueString = r.ValueString ∨ (i.datatype = "str" ∧ err = none)) ∧
    (m1.ValueDateTime = r.ValueDateTime ∨ (i.datatype = "datetime" ∧ err = none)) ∧
    (∀ e, err = some e → (∃ f x, e = .errorfJson f x) ∨ ∃ f x, e = .errorfStr f x) := by
  rw [fromRemote_eq r i id a d hk hid] at h
  split_ifs at h with h1 h2 h3 h4
  · cases hu : jsonUnmarshalBool i.value with
    | error e =>
      rw [hu] at h; cases h
      exact ⟨rfl, rfl, rfl, rfl, rfl, rfl, rfl, rfl, rfl, Or.inl rfl, Or.inl rfl, Or.inl rfl,
        Or.inl rfl, fun e he => (by cases he; exact Or.inl ⟨_, _, rfl⟩)⟩
    | ok v =>
      rw [hu] at h; cases h
      exact ⟨rfl, rfl, rfl, rfl, rfl, rfl, rfl, rfl, rfl, Or.inr ⟨h1, rfl⟩, Or.inl rfl,
        Or.inl rfl, Or.inl rfl, fun e he => (by cases he)⟩
  · cases hu : jsonUnmarshalInt64 i.value with
    | error e =>
      rw [hu] at h; cases h
      exact ⟨rfl, rfl, rfl, rfl, rfl, rfl, rfl, rfl, rfl, Or.inl rfl, Or.inl rfl, Or.inl rfl,
        Or.inl rfl, fun e he => (by cases he; exact Or.inl ⟨_, _, rfl⟩)⟩
    | ok v =>
      rw [hu] at h; cases h
      exact ⟨rfl, rfl, rfl, rfl, rfl, rfl, rfl, rfl, rfl, Or.inl rfl, Or.inr ⟨h2, rfl⟩,
        Or.inl rfl, Or.inl rfl, fun e he => (by cases he)⟩
  · cases hu : jsonUnmarshalString i.value with
    | error e =>
      rw [hu] at h; cases h
      exact ⟨rfl, rfl, rfl, rfl, rfl, rfl, rfl, rfl, rfl, Or.inl rfl, Or.inl rfl, Or.inl rfl,
        Or.inl rfl, fun e he => (by cases he; exact Or.inl ⟨_, _, rfl⟩)⟩
    | ok v =>
      rw [hu] at h; cases h
      exact ⟨rfl, rfl, rfl, rfl, rfl, rfl, rfl, rfl, rfl, Or.inl rfl, Or.inl rfl,
        Or.inr ⟨h3, rfl⟩, Or.inl rfl, fun e he => (by cases he)⟩
  · cases hu : jsonUnmarshalString i.value with
    | error e =>
      rw [hu] at h; cases h
      exact ⟨rfl, rfl, rfl, rfl, rfl, rfl, rfl, rfl, rfl, Or.inl rfl, Or.inl rfl, Or.inl rfl,
        Or.inl rfl, fun e he => (by cases he; exact Or.inl ⟨_, _, rfl⟩)⟩
    | ok v =>
      rw [hu] at h; cases h
      exact ⟨rfl, rfl, rfl, rfl, rfl, rfl, rfl, rfl, rfl, Or.inl rfl, Or.inl rfl,
        Or.inl rfl, Or.inr ⟨h4, rfl⟩, fun e he => (by cases he)⟩
  · cases h
    exact ⟨rfl, rfl, rfl, rfl, rfl, rfl, rfl, rfl, rfl, Or.inl rfl, Or.inl rfl, Or.inl rfl,
      Or.inl rfl, fun e he => (by cases he; exact Or.inr ⟨_, _, rfl⟩)⟩

/-- C22: frame of the json_property decoder. Whenever fromRemote returns, the
crontab is the one before the call and a value slot differs from its old value
only if the datatype of the envelope selects it; when the error returned is a
typed-value parse error or an unknown-datatype error, the four value slots are
the ones before the call, while id, name, application_id, datasource_id,
enabled, operator, path and datatype hold the values of the envelope. -/
theorem fromRemote_frame (r : CheckJsonPropertyModel) (i : Check) (a d : Int)
    (m1 : CheckJsonPropertyModel) (err : Option GoError)
    (h : r.fromRemote i a d = .ret m1 err) :
    m1.Crontab = r.Crontab ∧
    (i.datatype ≠ "bool" → m1.ValueBoolean = r.ValueBoolean) ∧
    (i.datatype ≠ "int" → m1.ValueInt = r.ValueInt) ∧
    (i.datatype ≠ "str" → m1.ValueString = r.ValueString) ∧
    (i.datatype ≠ "datetime" → m1.ValueDateTime = r.ValueDateTime) ∧
    (∀ e, err = some e → ((∃ f x, e = .errorfJson f x) ∨ ∃ f x, e = .errorfStr f x) →
      (m1.ValueBoolean = r.ValueBoolean ∧ m1.ValueInt = r.ValueInt ∧
        m1.ValueString = r.ValueString ∧ m1.ValueDateTime = r.ValueDateTime) ∧
      ∃ id, i.id = some id ∧ m1.ID = .known id ∧ m1.Name = .known i.label ∧
        m1.ApplicationID = .known a ∧ m1.DataSourceID = .known d ∧
        m1.Enabled = BoolPointerValue i.enabled ∧ m1.Operator = .known i.operator ∧
        m1.Path = .known i.path ∧ m1.DataType = .known i.datatype) := by
  by_cases hk : i.kind = some "json_property"
  · cases hid : i.id with
    | none => rw [fromRemote_no_id r i a d hk hid] at h; cases h
    | some id =>
      obtain ⟨hc, h1, h2, h3, h4, h5, h6, h7, h8, hb, hi, hs, ht, _⟩ :=
        fromRemote_json_shape r i id a d m1 err hk hid h
      refine ⟨hc, fun hn => hb.resolve_right (fun hh => hn hh.1),
        fun hn => hi.resolve_right (fun hh => hn hh.1),
        fun hn => hs.resolve_right (fun hh => hn hh.1),
        fun hn => ht.resolve_right (fun hh => hn hh.1), fun e he _ => ?_⟩
      have hne : ∀ s : String, ¬ (i.datatype = s ∧ err = none) := by
        intro s hh
        rw [hh.2] at he
        cases he
      exact ⟨⟨hb.resolve_right (hne _), hi.resolve_right (hne _), hs.resolve_right (hne _),
        ht.resolve_right (hne _)⟩, id, rfl, h1, h2, h3, h4, h5, h6, h7, h8⟩
  · rw [fromRemote_json_other_kind r i a d hk] at h
    cases h
    refine ⟨rfl, fun _ => rfl, fun _ => rfl, fun _ => rfl, fun _ => rfl, fun e he hf => ?_⟩
    cases he
    rcases hf with ⟨f, x, hf⟩ | ⟨f, x, hf⟩ <;> cases hf

theorem fromRemote_frame_witness :
    ∃ m1 : CheckJsonPropertyModel,
      m1.Crontab = .known "* * * * *" ∧ m1.ValueBoolean = .known true ∧
      m1.ValueInt = .null ∧ m1.Name = .known "fresh" ∧ m1.DataType = .known "int" :=
  have h : CheckJsonPropertyModel.fromRemote
      { Name := .known "stale", Crontab := .known "* * * * *", ValueBoolean := .known true }
      { kind := some "json_property", id := some 9, label := "fresh", datatype := "int",
        value := "\"x\"" } 7 3
      = .ret
        { ID := .known 9, ApplicationID := .known 7, DataSourceID := .known 3,
          Name := .known "fresh", Crontab := .known "* * * * *",
          Enabled := BoolPointerValue none, Path := .known "", DataType := .known "int",
          Operator := .known "", ValueBoolean := .known true }
        (some (.errorfJson "Invalid int value: %s" ⟨"\"x\"", "int64"⟩)) := by
    decide
  have hf := fromRemote_frame _ _ _ _ _ _ h
  ⟨_, hf.1, (hf.2.2.2.2.2 _ rfl (Or.inl ⟨_, _, rfl⟩)).1.1,
    (hf.2.2.2.2.2 _ rfl (Or.inl ⟨_, _, rfl⟩)).1.2.1, rfl, rfl⟩

/-! ## What the requests carry -/

/-- A request made by Create of the json_property resource carries the
envelope of createRequest as its body. -/
theorem json_Create_calls (env : Env CheckJsonPropertyModel) (rd pd : List Diagnostic)
    (plan : CheckJsonPropertyModel) (resp : Response CheckJsonPropertyModel)
    (h : checkJsonPropertyResource.Create env rd pd plan = some resp) :
    resp.calls = [] ∨ ∃ body, plan.createRequest = some body ∧
      resp.calls = [.ApplicationsDataSourcesChecksCreate (AsInt plan.ApplicationID)
        (AsInt plan.DataSourceID) body] := by
  simp only [checkJsonPropertyResource.Create, CheckJsonPropertyModel.toCreateInput] at h
  cases hc : plan.createRequest with
  | none =>
    rw [hc] at h
    split_ifs at h
    cases h
    exact Or.inl rfl
  | some body =>
    rw [hc] at h
    simp only at h
    repeat' split at h
    all_goals first
      | (cases h; exact Or.inl rfl)
      | (cases h; exact Or.inr ⟨_, rfl, rfl⟩)
      | cases h

/-- A request made by Update of the json_property resource carries the
envelope of createRequest as its body. -/
theorem json_Update_calls (env : Env CheckJsonPropertyModel) (rd pd : List Diagnostic)
    (plan : CheckJsonPropertyModel) (resp : Response CheckJsonPropertyModel)
    (h : checkJsonPropertyResource.Update env rd pd plan = some resp) :
    resp.calls = [] ∨ ∃ body, plan.createRequest = some body ∧
      resp.calls = [.ApplicationsDataSourcesChecksUpdate (AsInt plan.ApplicationID)
        (AsInt plan.DataSourceID) (AsInt plan.ID) body] := by
  simp only [checkJsonPropertyResource.Update, CheckJsonPropertyModel.toUpdateInput] at h
  cases hc : plan.createRequest with
  | none =>
    rw [hc] at h
    split_ifs at h
    cases h
    exact Or.inl rfl
  | some body =>
    rw [hc] at h
    simp only at h
    repeat' split at h
    all_goals first
      | (cases h; exact Or.inl rfl)
      | (cases h; exact Or.inr ⟨_, rfl, rfl⟩)
      | cases h

/-- A request made by Create of the http_status resource carries the
envelope of createRequest as its body. -/
theorem http_Create_calls (env : Env CheckHttpStatusModel) (rd pd : List Diagnostic)
    (plan : CheckHttpStatusModel) (resp : Response CheckHttpStatusModel)
    (h : checkHttpStatusResource.Create env rd pd plan = some resp) :
    resp.calls = [] ∨ ∃ body, plan.createRequest = some body ∧
      resp.calls = [.ApplicationsDataSourcesChecksCreate (AsInt plan.ApplicationID)
        (AsInt plan.DataSourceID) body] := by
  simp only [checkHttpStatusResource.Create, CheckHttpStatusModel.toCreateInput] at h
  cases hc : plan.createRequest with
  | none =>
    rw [hc] at h
    split_ifs at h
    cases h
    exact Or.inl rfl
  | some body =>
    rw [hc] at h
    simp only at h
    repeat' split at h
    all_goals first
      | (cases h; exact Or.inl rfl)
      | (cases h; exact Or.inr ⟨_, rfl, rfl⟩)
      | cases h

/-- A request made by Update of the http_status resource carries the
envelope of createRequest as its body. -/
theorem http_Update_calls (env : Env CheckHttpStatusModel) (rd pd : List Diagnostic)
    (plan : CheckHttpStatusModel) (resp : Response CheckHttpStatusModel)
    (h : checkHttpStatusResource.Update env rd pd plan = some resp) :
    resp.calls = [] ∨ ∃ body, plan.createRequest = some body ∧
      resp.calls = [.ApplicationsDataSourcesChecksUpdate (AsInt plan.ApplicationID)
        (AsInt plan.DataSourceID) (AsInt plan.ID) body] := by
  simp only [checkHttpStatusResource.Update, CheckHttpStatusModel.toUpdateInput] at h
  cases hc : plan.createRequest with
  | none =>
    rw [hc] at h
    split_ifs at h
    cases h
    exact Or.inl rfl
  | some body =>
    rw [hc] at h
    simp only at h
    repeat' split at h
    all_goals first
      | (cases h; exact Or.inl rfl)
      | (cases h; exact Or.inr ⟨_, rfl, rfl⟩)
      | cases h

/-- Two json_property models that agree on name, enabled, path, datatype,
operator and the four value slots have the same createRequest. -/
theorem createRequest_json_congr (m1 m2 : CheckJsonPropertyModel)
    (hj : m1.Name = m2.Name ∧ m1.Enabled = m2.Enabled ∧ m1.Path = m2.Path ∧
      m1.DataType = m2.DataType ∧ m1.Operator = m2.Operator ∧
      m1.ValueBoolean = m2.ValueBoolean ∧ m1.ValueString = m2.ValueString ∧
      m1.ValueInt = m2.ValueInt ∧ m1.ValueDateTime = m2.ValueDateTime) :
    m1.createRequest = m2.createRequest := by
  obtain ⟨h1, h2, h3, h4, h5, h6, h7, h8, h9⟩ := hj
  rw [createRequest_eq, createRequest_eq, h1, h2, h3, h4, h5, h6, h7, h8, h9]

/-- Two http_status models that agree on name, status_code and enabled have
the same createRequest. -/
theorem createRequest_http_congr (n1 n2 : CheckHttpStatusModel)
    (hh : n1.Name = n2.Name ∧ n1.StatusCode = n2.StatusCode ∧ n1.Enabled = n2.Enabled) :
    n1.createRequest = n2.createRequest := by
  obtain ⟨h1, h2, h3⟩ := hh
  rw [createRequest_http_eq, createRequest_http_eq, h1, h2, h3]

/-- C23: two json_property models that differ only in crontab, id,
application_id or datasource_id (they agree on every other field) have the
same createRequest, and likewise two http_status models; and every request
that Create or Update makes for one of them carries as its body the envelope
that createRequest returns for the other, the identifiers being path
parameters of the call and the crontab no part of it. -/
theorem createRequest_ignores_crontab_and_ids (m1 m2 : CheckJsonPropertyModel)
    (n1 n2 : CheckHttpStatusModel)
    (hj : m1.Name = m2.Name ∧ m1.Enabled = m2.Enabled ∧ m1.Path = m2.Path ∧
      m1.DataType = m2.DataType ∧ m1.Operator = m2.Operator ∧
      m1.ValueBoolean = m2.ValueBoolean ∧ m1.ValueString = m2.ValueString ∧
      m1.ValueInt = m2.ValueInt ∧ m1.ValueDateTime = m2.ValueDateTime)
    (hh : n1.Name = n2.Name ∧ n1.StatusCode = n2.StatusCode ∧ n1.Enabled = n2.Enabled) :
    m1.createRequest = m2.createRequest ∧ n1.createRequest = n2.createRequest ∧
    (∀ env rd pd resp, checkJsonPropertyResource.Create env rd pd m1 = some resp →
      ∀ c ∈ resp.calls, ∃ body, m2.createRequest = some body ∧
        c = .ApplicationsDataSourcesChecksCreate (AsInt m1.ApplicationID)
          (AsInt m1.DataSourceID) body) ∧
    (∀ env rd pd resp, checkJsonPropertyResource.Update env rd pd m1 = some resp →
      ∀ c ∈ resp.calls, ∃ body, m2.createRequest = some body ∧
        c = .ApplicationsDataSourcesChecksUpdate (AsInt m1.ApplicationID)
          (AsInt m1.DataSourceID) (AsInt m1.ID) body) ∧
    (∀ env rd pd resp, checkHttpStatusResource.Create env rd pd n1 = some resp →
      ∀ c ∈ resp.calls, ∃ body, n2.createRequest = some body ∧
        c = .ApplicationsDataSourcesChecksCreate (AsInt n1.ApplicationID)
          (AsInt n1.DataSourceID) body) ∧
    (∀ env rd pd resp, checkHttpStatusResource.Update env rd pd n1 = some resp →
      ∀ c ∈ resp.calls, ∃ body, n2.createRequest = some body ∧
        c = .ApplicationsDataSourcesChecksUpdate (AsInt n1.ApplicationID)
          (AsInt n1.DataSourceID) (AsInt n1.ID) body) := by
  have ej := createRequest_json_congr m1 m2 hj
  have eh := createRequest_http_congr n1 n2 hh
  refine ⟨ej, eh, fun env rd pd resp h c hc => ?_, fun env rd pd resp h c hc => ?_,
    fun env rd pd resp h c hc => ?_, fun env rd pd resp h c hc => ?_⟩
  · rcases json_Create_calls env rd pd m1 resp h with h0 | ⟨body, hb, h1⟩
    · rw [h0] at hc; cases hc
    · rw [h1, List.mem_singleton] at hc
      exact ⟨body, ej ▸ hb, hc⟩
  · rcases json_Update_calls env rd pd m1 resp h with h0 | ⟨body, hb, h1⟩
    · rw [h0] at hc; cases hc
    · rw [h1, List.mem_singleton] at hc
      exact ⟨body, ej ▸ hb, hc⟩
  · rcases http_Create_calls env rd pd n1 resp h with h0 | ⟨body, hb, h1⟩
    · rw [h0] at hc; cases hc
    · rw [h1, List.mem_singleton] at hc
      exact ⟨body, eh ▸ hb, hc⟩
  · rcases http_Update_calls env rd pd n1 resp h with h0 | ⟨body, hb, h1⟩
    · rw [h0] at hc; cases hc
    · rw [h1, List.mem_singleton] at hc
      exact ⟨body, eh ▸ hb, hc⟩

theorem createRequest_ignores_crontab_and_ids_witness :
    CheckJsonPropertyModel.createRequest
        { ID := .known 1, ApplicationID := .known 2, DataSourceID := .known 3,
          Name := .known "n", Crontab := .known "* * * * *", DataType := .known "int",
          ValueInt := .known 5 }
      = CheckJsonPropertyModel.createRequest
        { ID := .known 9, ApplicationID := .known 8, DataSourceID := .known 7,
          Name := .known "n", Crontab := .known "0 0 * * *", DataType := .known "int",
          ValueInt := .known 5 } ∧
    CheckHttpStatusModel.createRequest
        { ID := .known 1, Name := .known "n", StatusCode := .known 200,
          Crontab := .known "* * * * *" }
      = CheckHttpStatusModel.createRequest
        { ApplicationID := .known 4, Name := .known "n", StatusCode := .known 200,
          Crontab := .null } :=
  have h := createRequest_ignores_crontab_and_ids
    { ID := .known 1, ApplicationID := .known 2, DataSourceID := .known 3,
      Name := .known "n", Crontab := .known "* * * * *", DataType := .known "int",
      ValueInt := .known 5 }
    { ID := .known 9, ApplicationID := .known 8, DataSourceID := .known 7,
      Name := .known "n", Crontab := .known "0 0 * * *", DataType := .known "int",
      ValueInt := .known 5 }
    { ID := .known 1, Name := .known "n", StatusCode := .known 200,
      Crontab := .known "* * * * *" }
    { ApplicationID := .known 4, Name := .known "n", StatusCode := .known 200,
      Crontab := .null }
    ⟨rfl, rfl, rfl, rfl, rfl, rfl, rfl, rfl, rfl⟩ ⟨rfl, rfl, rfl⟩
  ⟨h.1, h.2.1⟩

end Folge
